import Mathlib

/-!
# Authorization and visibility model of the team dashboard server

A shallow embedding of the permission layer of `server.js`: the role
normalizer, the permission evaluators, the request handlers that filter or
mutate tasks, team members and work logs, the session registry with login and
password change, the employee registration, the analytics, the reconciliation
of users and team members, and the table of routes with their middleware
chains.

Modelling conventions.

* A record (a task, a team member, a work log, a request body) is a JavaScript
  object: the list of its own properties in insertion order (the place JavaScript
  gives to integer-like names is not modelled; nothing here depends on it).
  Field values are JSON scalars (null, booleans, integers, strings), `undefined`
  for an absent value, the members of `Object.prototype`, which a property
  read with a computed key can return, and arrays and objects.  An array or
  object as a field value is held by its identity, its string conversion and its
  `length`, which is all that the handlers observe of it; two of them are `===`
  exactly when they are the same object, and every read of a file gives new
  objects (`readBack`).
* A property read follows the prototype chain, a property definition by an
  object literal or a spread creates an own property, and an assignment to
  `__proto__` reaches the inherited setter.
* Numbers are integers (ids are `Date.now()` values) with exact arithmetic;
  fractions, `NaN` and the infinities are no field values.  The conversions are
  those of the language: ToNumber of a string reads the whole numeric grammar
  and rounds to the nearest double, ToString of an integer from `10 ^ 21` on is
  the exponent form, `parseInt` of a body value goes through the string, and
  `parseInt` of a route parameter is taken as its result, an integer or `NaN`.
* `toLowerCase` lowers the letters `A` to `Z`; the case mapping of letters
  outside ASCII is not modelled, and the data of the examples is ASCII.
* A collection is the array of records that `readJsonFile` returns and
  `writeJsonFile` receives; the JSON text is not modelled (a property holding
  `undefined`, which the text leaves out, reads as `undefined` either way).
* The clock, the random session token and an exception are explicit: a handler
  takes the readings of `Date.now()` and the token it draws as arguments, and a
  step that can throw returns an `Option`.
* `logActivity` only prints to the console and is left out.
* The reconciliation that a handler schedules with `setTimeout` runs after the
  response, as a job of its own: it is the function
  `syncUserAndTeamMemberData`, not a part of the handler.
-/

set_option maxRecDepth 100000

namespace Dashboard

/-! ## Numbers -/

/-- A Number as ToNumber gives it: `NaN`, an infinity, or the finite value
`m * 2 ^ e`, negated when `negative`. -/
inductive JsNumber where
  | nan
  | infinite (negative : Bool)
  | finite (negative : Bool) (m : Nat) (e : Int)
  deriving DecidableEq, Repr

/-- White space and line terminators that ToNumber strips from both ends of a
string: tab, line feed, vertical tab, form feed, carriage return, space,
no-break space, the byte order mark, the line and paragraph separators and the
Unicode space separators. -/
def isJsSpace (c : Char) : Bool :=
  let n := c.toNat
  (9 ≤ n && n ≤ 13) || n = 32 || n = 160 || n = 5760 || (8192 ≤ n && n ≤ 8202) ||
  n = 8232 || n = 8233 || n = 8239 || n = 8287 || n = 12288 || n = 65279

/-- The number of binary digits of `n`, for a `fuel` of at least that number. -/
def bitLength : Nat → Nat → Nat
  | 0, _ => 0
  | fuel + 1, n => if n = 0 then 0 else bitLength fuel (n / 2) + 1

/-- The fraction `num / den` divided by `2 ^ e`. -/
def scaleBy (num den : Nat) (e : Int) : Nat × Nat :=
  if 0 ≤ e then (num, den * 2 ^ e.toNat) else (num * 2 ^ (-e).toNat, den)

/-- The Number value of the fraction `num / den`: the nearest double, a tie
going to the even significand; a value below the smallest double becomes zero
and one above the largest an infinity. -/
def roundToDouble (negative : Bool) (num den : Nat) : JsNumber :=
  if num = 0 then .finite negative 0 0
  else
    let e₀ : Int := (bitLength 4096 num : Int) - (bitLength 4096 den : Int) - 52
    let s₀ := scaleBy num den e₀
    let e₁ : Int :=
      if s₀.1 < 2 ^ 52 * s₀.2 then e₀ - 1
      else if 2 ^ 53 * s₀.2 ≤ s₀.1 then e₀ + 1
      else e₀
    let e : Int := if e₁ < -1074 then -1074 else e₁
    let s := scaleBy num den e
    let q := s.1 / s.2
    let r := s.1 % s.2
    let m := if s.2 < 2 * r || (2 * r = s.2 && q % 2 = 1) then q + 1 else q
    if 971 < e || (e = 971 && 2 ^ 53 ≤ m) then .infinite negative
    else .finite negative m e

/-- The integer a Number is, if it is one. -/
def JsNumber.toInt? : JsNumber → Option Int
  | .nan => none
  | .infinite _ => none
  | .finite negative m e =>
    if 0 ≤ e then
      some (if negative then -((m * 2 ^ e.toNat : Nat) : Int) else ((m * 2 ^ e.toNat : Nat) : Int))
    else if m % 2 ^ (-e).toNat = 0 then
      some (if negative then -((m / 2 ^ (-e).toNat : Nat) : Int)
        else ((m / 2 ^ (-e).toNat : Nat) : Int))
    else none

/-- The comparison `x < k` of a Number with an integer; `NaN` is below
nothing. -/
def JsNumber.lessThanInt (x : JsNumber) (k : Int) : Bool :=
  match x with
  | .nan => false
  | .infinite negative => negative
  | .finite negative m e =>
    if 0 ≤ e then
      decide ((if negative then -((m * 2 ^ e.toNat : Nat) : Int)
        else ((m * 2 ^ e.toNat : Nat) : Int)) < k)
    else
      decide ((if negative then -(m : Int) else (m : Int)) < k * ((2 ^ (-e).toNat : Nat) : Int))

/-- Value of a character as a digit of the given radix. -/
def digitValue (radix : Nat) (c : Char) : Option Nat :=
  let d :=
    if c.isDigit then c.toNat - 48
    else if 97 ≤ c.toNat && c.toNat ≤ 122 then c.toNat - 87
    else if 65 ≤ c.toNat && c.toNat ≤ 90 then c.toNat - 55
    else 36
  if d < radix then some d else none

/-- The number that a sequence of digits of the given radix denotes. -/
def digitsValueIn (radix : Nat) (cs : List Char) : Nat :=
  cs.foldl (fun acc c => acc * radix + (digitValue radix c).getD 0) 0

/-- The Number of the digits that follow `0x`, `0o` or `0b`. -/
def radixLiteral (radix : Nat) (cs : List Char) : JsNumber :=
  if cs.isEmpty || !cs.all (fun c => (digitValue radix c).isSome) then .nan
  else roundToDouble false (digitsValueIn radix cs) 1

/-- The exponent part of a decimal literal, `0` when there is none; `none`
when the characters are not an exponent part. -/
def exponentPart (cs : List Char) : Option Int :=
  match cs with
  | [] => some 0
  | c :: rest =>
    if c = 'e' || c = 'E' then
      let signed : Bool × List Char :=
        match rest with
        | '-' :: ds => (true, ds)
        | '+' :: ds => (false, ds)
        | ds => (false, ds)
      if signed.2.isEmpty || !signed.2.all Char.isDigit then none
      else some (if signed.1 then -(digitsValueIn 10 signed.2 : Int)
        else (digitsValueIn 10 signed.2 : Int))
    else none

/-- The Number of `mantissa * 10 ^ exponent`, the mantissa being written with
`ndigits` digits. -/
def decimalValue (negative : Bool) (mantissa : Nat) (exponent : Int) (ndigits : Nat) :
    JsNumber :=
  if mantissa = 0 then .finite negative 0 0
  else if 310 < exponent + ndigits then .infinite negative
  else if exponent + ndigits < -330 then .finite negative 0 0
  else if 0 ≤ exponent then roundToDouble negative (mantissa * 10 ^ exponent.toNat) 1
  else roundToDouble negative mantissa (10 ^ (-exponent).toNat)

/-- The Number of an unsigned decimal literal: `Infinity`, or digits with an
optional fraction and an optional exponent part. -/
def decimalLiteral (negative : Bool) (cs : List Char) : JsNumber :=
  if cs = "Infinity".toList then .infinite negative
  else
    let whole := cs.takeWhile Char.isDigit
    let afterWhole := cs.dropWhile Char.isDigit
    let fraction : List Char :=
      match afterWhole with
      | '.' :: rest => rest.takeWhile Char.isDigit
      | _ => []
    let afterFraction : List Char :=
      match afterWhole with
      | '.' :: rest => rest.dropWhile Char.isDigit
      | rest => rest
    if whole.isEmpty && fraction.isEmpty then .nan
    else
      match exponentPart afterFraction with
      | none => .nan
      | some exponent =>
        decimalValue negative (digitsValueIn 10 (whole ++ fraction))
          (exponent - fraction.length) (whole ++ fraction).length

/-- ToNumber on a string (StringToNumber): white space is stripped from both
ends, the empty string is `0`, a decimal literal may carry a sign, a fraction
and an exponent, `0x`, `0o` and `0b` introduce an unsigned literal of radix 16,
8 and 2, and every other string is `NaN`. -/
def stringToNumber (s : String) : JsNumber :=
  match ((s.toList.dropWhile isJsSpace).reverse.dropWhile isJsSpace).reverse with
  | [] => .finite false 0 0
  | '0' :: 'x' :: ds => radixLiteral 16 ds
  | '0' :: 'X' :: ds => radixLiteral 16 ds
  | '0' :: 'o' :: ds => radixLiteral 8 ds
  | '0' :: 'O' :: ds => radixLiteral 8 ds
  | '0' :: 'b' :: ds => radixLiteral 2 ds
  | '0' :: 'B' :: ds => radixLiteral 2 ds
  | '-' :: ds => decimalLiteral true ds
  | '+' :: ds => decimalLiteral false ds
  | ds => decimalLiteral false ds

/-- Removes the zeros at the end of a decimal. -/
def stripZeros : Nat → Nat → Nat
  | 0, t => t
  | fuel + 1, t => if t ≠ 0 && t % 10 = 0 then stripZeros fuel (t / 10) else t

/-- The shortest decimal `t * 10 ^ p` that rounds to the double `m * 2 ^ e`,
the search starting from the exponent given; of two decimals of one length the
nearer is taken. -/
def shortestDecimal (m e : Nat) : Nat → Nat × Nat
  | 0 => (m * 2 ^ e, 0)
  | p + 1 =>
    let v := m * 2 ^ e
    let half := 2 ^ (e - 1)
    let low := v - (if m = 2 ^ 52 then half / 2 else half)
    let high := v + half
    let inside (c : Nat) : Bool :=
      if m % 2 = 0 then low ≤ c && c ≤ high else low < c && c < high
    let s := 10 ^ (p + 1)
    let below := v / s * s
    let above := below + s
    if inside below && inside above then
      (if v - below < above - v then (below / s, p + 1)
       else if above - v < v - below then (above / s, p + 1)
       else if (below / s) % 2 = 0 then (below / s, p + 1)
       else (above / s, p + 1))
    else if inside below then (below / s, p + 1)
    else if inside above then (above / s, p + 1)
    else shortestDecimal m e p

/-- ToString of an integer Number: its decimal digits below `10 ^ 21`; from
there on the digits of the shortest decimal that rounds to the Number, with a
point after the first digit, followed by the exponent. -/
def numberToString (n : Int) : String :=
  if n.natAbs < 10 ^ 21 then toString n
  else
    match roundToDouble false n.natAbs 1 with
    | .finite _ m e =>
      let found := shortestDecimal m e.toNat ((toString (m * 2 ^ e.toNat)).length - 1)
      let digits := (toString (stripZeros 400 found.1)).toList
      let exponent := (toString (found.1 * 10 ^ found.2)).length - 1
      let mantissa : List Char :=
        match digits with
        | [] => []
        | [d] => [d]
        | d :: rest => d :: '.' :: rest
      String.mk ((if n < 0 then ['-'] else []) ++ mantissa ++ "e+".toList ++
        (toString exponent).toList)
    | .infinite _ => if n < 0 then "-Infinity" else "Infinity"
    | .nan => "NaN"

/-- The longest prefix of digits of the given radix. -/
def leadingDigits (radix : Nat) : List Char → List Char
  | [] => []
  | c :: cs =>
    match digitValue radix c with
    | some _ => c :: leadingDigits radix cs
    | none => []

/-- The integer a prefix of digits denotes, as a Number; `none` (`NaN`) when
there is no digit, and when the digits are too many for a finite Number. -/
def digitsValue (radix : Nat) (cs : List Char) : Option Int :=
  match leadingDigits radix cs with
  | [] => none
  | ds => (roundToDouble false (digitsValueIn radix ds) 1).toInt?

/-- The call `parseInt(s)` on a string: leading white space and a sign are
skipped, `0x` selects radix 16, and the longest prefix of digits is read. -/
def parseIntString (s : String) : Option Int :=
  match s.toList.dropWhile isJsSpace with
  | '-' :: '0' :: 'x' :: cs => (digitsValue 16 cs).map (fun n => -n)
  | '-' :: '0' :: 'X' :: cs => (digitsValue 16 cs).map (fun n => -n)
  | '-' :: cs => (digitsValue 10 cs).map (fun n => -n)
  | '+' :: '0' :: 'x' :: cs => digitsValue 16 cs
  | '+' :: '0' :: 'X' :: cs => digitsValue 16 cs
  | '+' :: cs => digitsValue 10 cs
  | '0' :: 'x' :: cs => digitsValue 16 cs
  | '0' :: 'X' :: cs => digitsValue 16 cs
  | cs => digitsValue 10 cs

/-! ## JavaScript values -/

/-- The own properties of `Object.prototype`, inherited by every object literal
and by every object produced by `JSON.parse`. -/
inductive ProtoMember where
  | constructor
  | defineGetter
  | defineSetter
  | hasOwnProperty
  | lookupGetter
  | lookupSetter
  | isPrototypeOf
  | propertyIsEnumerable
  | toString
  | valueOf
  | proto
  | toLocaleString
  deriving DecidableEq, Repr

/-- Property name under which a member of `Object.prototype` is found. -/
def ProtoMember.key : ProtoMember → String
  | .constructor => "constructor"
  | .defineGetter => "__defineGetter__"
  | .defineSetter => "__defineSetter__"
  | .hasOwnProperty => "hasOwnProperty"
  | .lookupGetter => "__lookupGetter__"
  | .lookupSetter => "__lookupSetter__"
  | .isPrototypeOf => "isPrototypeOf"
  | .propertyIsEnumerable => "propertyIsEnumerable"
  | .toString => "toString"
  | .valueOf => "valueOf"
  | .proto => "__proto__"
  | .toLocaleString => "toLocaleString"

/-- The member of `Object.prototype` stored under a property name, if any. -/
def protoMember? (k : String) : Option ProtoMember :=
  if k = "constructor" then some .constructor
  else if k = "__defineGetter__" then some .defineGetter
  else if k = "__defineSetter__" then some .defineSetter
  else if k = "hasOwnProperty" then some .hasOwnProperty
  else if k = "__lookupGetter__" then some .lookupGetter
  else if k = "__lookupSetter__" then some .lookupSetter
  else if k = "isPrototypeOf" then some .isPrototypeOf
  else if k = "propertyIsEnumerable" then some .propertyIsEnumerable
  else if k = "toString" then some .toString
  else if k = "valueOf" then some .valueOf
  else if k = "__proto__" then some .proto
  else if k = "toLocaleString" then some .toLocaleString
  else none

/-- A JavaScript value as it occurs in a record field or in a session: a JSON
scalar, `undefined`, a member of `Object.prototype`, or an array or object.
An array or object is held by what the program can observe of it: its identity
`ref` (two such values are the same object exactly when they have the same
`ref`, and then they agree in the rest), the string `text` that ToString gives
(the elements joined by commas for an array, `[object Object]` for an object)
and the value of its property `length`. -/
inductive JVal where
  | undefined
  | null
  | bool (b : Bool)
  | num (n : Int)
  | str (s : String)
  | builtin (m : ProtoMember)
  | compound (ref : Nat) (text : String) (length : JVal)
  deriving DecidableEq, Repr

/-- A JavaScript object: its own enumerable properties in insertion order.
Property names are pairwise distinct in an object read from JSON. -/
abbrev Obj := List (String × JVal)

/-- ToBoolean. -/
def truthy : JVal → Bool
  | .undefined => false
  | .null => false
  | .bool b => b
  | .num n => n != 0
  | .str s => s != ""
  | .builtin _ => true
  | .compound _ _ _ => true

/-- The operator `a || b`. -/
def jsOr (a b : JVal) : JVal := if truthy a then a else b

/-- The operator `===`.  Without `NaN`, two values are strictly equal exactly
when they are the same value; two arrays or objects are the same value when
they are the same object. -/
def strictEq (a b : JVal) : Bool := decide (a = b)

/-- ToString of a member of `Object.prototype`: the source text of a native
function, and `[object Object]` for the prototype object itself. -/
def ProtoMember.toJsString : ProtoMember → String
  | .constructor => "function Object() \x7b [native code] \x7d"
  | .proto => "[object Object]"
  | m => "function " ++ m.key ++ "() \x7b [native code] \x7d"

/-- ToPropertyKey: the string under which `obj[v]` looks a value up. -/
def toPropertyKey : JVal → String
  | .undefined => "undefined"
  | .null => "null"
  | .bool b => if b then "true" else "false"
  | .num n => numberToString n
  | .str s => s
  | .builtin m => m.toJsString
  | .compound _ text _ => text

/-- The own property `k` of an object, if it has one. -/
def getOwn (o : Obj) (k : String) : Option JVal := o.lookup k

/-- Defines the own property `k` with value `v`: an existing property keeps its
place, a new one is added last (CreateDataProperty). -/
def setOwn : Obj → String → JVal → Obj
  | [], k, v => [(k, v)]
  | (k', v') :: rest, k, v =>
    if k' = k then (k, v) :: rest else (k', v') :: setOwn rest k v

/-- The object literal `{ ...a, ...b }`: the own properties of `b` are defined
one after the other on a copy of `a`. -/
def spread (a b : Obj) : Obj := b.foldl (fun acc kv => setOwn acc kv.1 kv.2) a

/-- The assignment `o[k] = v` on a plain object.  The name `__proto__` reaches
the accessor inherited from `Object.prototype`, whose setter creates no own
property (a scalar value is ignored, `null` only detaches the prototype); every
other name creates or overwrites an own property. -/
def assign (o : Obj) (k : String) (v : JVal) : Obj :=
  if k = "__proto__" then o else setOwn o k v

/-- The call `Object.keys(o)`. -/
def objectKeys (o : Obj) : List String := o.map Prod.fst

/-- The property read `o[k]` on a plain object: the own property, else the
member inherited from `Object.prototype`, else `undefined`. -/
def getProp (o : Obj) (k : String) : JVal :=
  match getOwn o k with
  | some v => v
  | none =>
    match protoMember? k with
    | some m => .builtin m
    | none => .undefined

/-! ## Role normalizer and permission evaluators -/

/-- The constant `POSITIONS.EMPLOYEE`. -/
def POSITIONS_EMPLOYEE : JVal := .str "Employee"

/-- The constant `POSITIONS.ADMIN`. -/
def POSITIONS_ADMIN : JVal := .str "Admin"

/-- The table `INTERNAL_POSITIONS`, an object literal. -/
def INTERNAL_POSITIONS : Obj :=
  [("Regular Employee", .str "Employee"),
   ("Team Lead", .str "Admin"),
   ("QA Manager", .str "Admin")]

/-- The function `normalizePosition`: `INTERNAL_POSITIONS[position] || position`. -/
def normalizePosition (position : JVal) : JVal :=
  jsOr (getProp INTERNAL_POSITIONS (toPropertyKey position)) position

/-- The function `canManageTeamMembers`. -/
def canManageTeamMembers (userPosition : JVal) : Bool :=
  strictEq (normalizePosition userPosition) POSITIONS_ADMIN

/-- The function `canAssignTasks`. -/
def canAssignTasks (userPosition : JVal) : Bool :=
  strictEq (normalizePosition userPosition) POSITIONS_ADMIN

/-- The function `canViewAllData`. -/
def canViewAllData (userPosition : JVal) : Bool :=
  strictEq (normalizePosition userPosition) POSITIONS_ADMIN


/-! ## Loose equality with a number -/

/-- The comparison `v == n` of a value with the result of `parseInt`, an
integer or `NaN` (`none`): `NaN` equals nothing, `null` and `undefined` equal no
number, a boolean and a string are converted by ToNumber, a function or the
prototype object converts to a non-numeric string, and an array or object is
converted to its string and then to a number. -/
def looseEqNum (v : JVal) (n : Option Int) : Bool :=
  match n with
  | none => false
  | some k =>
    match v with
    | .undefined => false
    | .null => false
    | .bool b => decide ((if b then (1 : Int) else 0) = k)
    | .num m => decide (m = k)
    | .str s => decide ((stringToNumber s).toInt? = some k)
    | .builtin _ => false
    | .compound _ text _ => decide ((stringToNumber text).toInt? = some k)

/-! ## Requests, responses and the record store -/

/-- The user snapshot held by a session and handed to a handler as `req.user`.
The property `needsPasswordReset` is absent (`undefined`) in the snapshot that
login builds and `false` in the one that change-password builds. -/
structure SessionUser where
  id : JVal
  email : JVal
  name : JVal
  role : JVal
  position : JVal
  teamId : JVal
  needsPasswordReset : JVal := .undefined
  deriving DecidableEq, Repr

/-- The four collections of the record store. -/
inductive File where
  | users
  | teamMembers
  | tasks
  | workLogs
  deriving DecidableEq, Repr

/-- Body of a response: an error object (its `error` text), one record, or a
list of records. -/
inductive Body where
  | error (msg : String)
  | record (o : Obj)
  | records (os : List Obj)
  deriving DecidableEq, Repr

/-- What a handler did: the HTTP status and body it answered, and the calls of
`writeJsonFile` it made, in order, each with the collection written. -/
structure Outcome where
  status : Nat
  body : Body
  writes : List (File × List Obj)
  deriving DecidableEq, Repr

/-- The call `xs.findIndex(p)` together with the element `xs[index]` that the
handlers read next; `none` stands for the result `-1`. -/
def findIndex {α : Type} (p : α → Bool) : List α → Option (Nat × α)
  | [] => none
  | x :: xs =>
    if p x then some (0, x)
    else (findIndex p xs).map (fun r => (r.1 + 1, r.2))

/-- The session user built by `POST /api/auth/login` from the matching record of
the Users collection. -/
def loginSessionUser (user : Obj) : SessionUser :=
  { id := getProp user "id"
    email := getProp user "email"
    name := getProp user "name"
    role := getProp user "role"
    position := jsOr (normalizePosition (getProp user "position")) POSITIONS_EMPLOYEE
    teamId := getProp user "teamId" }

/-- The middleware `requirePermission(permissionCheck)`: `some` is the 403 it
answers, `none` the call of `next()`. -/
def requirePermission (permissionCheck : SessionUser → Bool) (user : SessionUser) :
    Option Outcome :=
  if !permissionCheck user then some ⟨403, .error "Insufficient permissions", []⟩
  else none

/-- The permission check guarding `POST /api/admin/register-employee`. -/
def registerEmployeePermission (user : SessionUser) : Bool :=
  strictEq user.position (.str "QA Manager") || strictEq user.position (.str "Team Lead")

/-- The function `canEditUser`. -/
def canEditUser (currentUser : SessionUser) (targetUserId : Option Int) : Bool :=
  if looseEqNum currentUser.id targetUserId then true
  else if strictEq (normalizePosition currentUser.position) POSITIONS_ADMIN then true
  else false

/-- The list `adminOnlyFields` of `PUT /api/team-members/:id`. -/
def adminOnlyFields : List String :=
  ["employeeId", "joinDate", "department", "employmentType", "role", "name", "email"]

/-- The list `allowedFields` of `PUT /api/tasks/:id`. -/
def allowedFields : List String := ["status", "comments"]

/-- The body of the loop over `Object.keys(req.body)` that builds
`filteredUpdates` in `PUT /api/team-members/:id`. -/
def profileStep (body : Obj) (acc : Obj) (field : String) : Obj :=
  if !adminOnlyFields.contains field then assign acc field (getProp body field) else acc

/-- The handler of `PUT /api/team-members/:id`, after authentication;
`targetUserId` is `parseInt(req.params.id)`. -/
def putTeamMember (user : SessionUser) (targetUserId : Option Int) (body : Obj)
    (teamMembers : List Obj) : Outcome :=
  if !canEditUser user targetUserId then ⟨403, .error "Access denied", []⟩
  else
    match findIndex (fun m => looseEqNum (getProp m "id") targetUserId) teamMembers with
    | some (memberIndex, member) =>
      let userPos := normalizePosition user.position
      let updated :=
        if strictEq userPos POSITIONS_ADMIN then spread member body
        else
          let filteredUpdates := (objectKeys body).foldl (profileStep body) []
          spread member filteredUpdates
      ⟨200, .record updated, [(.teamMembers, teamMembers.set memberIndex updated)]⟩
    | none => ⟨404, .error "Team member not found", []⟩

/-- The handler of `PUT /api/tasks/:id`, after authentication; `taskId` is
`parseInt(req.params.id)`. -/
def putTask (user : SessionUser) (taskId : Option Int) (body : Obj) (tasks : List Obj) :
    Outcome :=
  match findIndex (fun t => looseEqNum (getProp t "id") taskId) tasks with
  | none => ⟨404, .error "Task not found", []⟩
  | some (taskIndex, task) =>
    let userPos := normalizePosition user.position
    let canEdit :=
      strictEq userPos POSITIONS_ADMIN ||
      strictEq (getProp task "createdBy") user.id ||
      strictEq (getProp task "assignedTo") user.id
    if !canEdit then ⟨403, .error "Access denied", []⟩
    else
      let updated :=
        if strictEq userPos POSITIONS_EMPLOYEE && strictEq (getProp task "assignedTo") user.id then
          let filteredUpdates := allowedFields.foldl
            (fun acc field =>
              if !strictEq (getProp body field) .undefined then
                assign acc field (getProp body field)
              else acc) []
          spread task filteredUpdates
        else spread task body
      ⟨200, .record updated, [(.tasks, tasks.set taskIndex updated)]⟩

/-- The handler of `GET /api/tasks`, after authentication. -/
def getTasks (user : SessionUser) (tasks : List Obj) : Outcome :=
  if canViewAllData user.position then ⟨200, .records tasks, []⟩
  else
    let myTasks := tasks.filter (fun task => strictEq (getProp task "assignedTo") user.id)
    ⟨200, .records myTasks, []⟩

/-- The enrichment step of `GET /api/work-logs`: the log with the property
`memberName` set to the name of the user whose id is the log's `memberId`, or to
`Unknown User`. -/
def enrichWorkLog (users : List Obj) (log : Obj) : Obj :=
  let user := users.find? (fun u => strictEq (getProp u "id") (getProp log "memberId"))
  setOwn log "memberName"
    (match user with
     | some u => getProp u "name"
     | none => .str "Unknown User")

/-- The handler of `GET /api/work-logs`, after authentication. -/
def getWorkLogs (user : SessionUser) (workLogs users : List Obj) : Outcome :=
  let enrichedWorkLogs := workLogs.map (enrichWorkLog users)
  if canViewAllData user.position then ⟨200, .records enrichedWorkLogs, []⟩
  else
    let myLogs := enrichedWorkLogs.filter
      (fun log => strictEq (getProp log "memberId") user.id)
    ⟨200, .records myLogs, []⟩

/-! ## Loose equality -/

/-- ToNumber, when the result is an integer; `none` stands for `NaN`, an
infinity and a Number that is not an integer. -/
def toNumber : JVal → Option Int
  | .undefined => none
  | .null => some 0
  | .bool b => some (if b then 1 else 0)
  | .num n => some n
  | .str s => (stringToNumber s).toInt?
  | .builtin m => (stringToNumber m.toJsString).toInt?
  | .compound _ text _ => (stringToNumber text).toInt?

/-- The comparison `v < k` with an integer `k`: ToNumber of `v` is compared,
`NaN` being below nothing. -/
def lessThanInt (v : JVal) (k : Int) : Bool :=
  match v with
  | .undefined => false
  | .null => decide (0 < k)
  | .bool b => decide ((if b then (1 : Int) else 0) < k)
  | .num n => decide (n < k)
  | .str s => (stringToNumber s).lessThanInt k
  | .builtin m => (stringToNumber m.toJsString).lessThanInt k
  | .compound _ text _ => (stringToNumber text).lessThanInt k

/-- The operator `==`: `null` and `undefined` equal each other and nothing
else, values of one type are compared as by `===` (two objects are equal when
they are the same object), a boolean is converted to a number, a number and a
string are compared as numbers, and a function, the prototype object, an array
or an object is converted to its string before it is compared with a
primitive value.  The numbers of the model are integers, so in a comparison as
numbers one side is an integer and the other side equals it exactly when its
ToNumber is that integer. -/
def looseEq (a b : JVal) : Bool :=
  match a, b with
  | .undefined, .undefined => true
  | .undefined, .null => true
  | .null, .undefined => true
  | .null, .null => true
  | .undefined, _ => false
  | .null, _ => false
  | _, .undefined => false
  | _, .null => false
  | .num m, .num n => decide (m = n)
  | .str s, .str t => decide (s = t)
  | .bool x, .bool y => decide (x = y)
  | .builtin m, .builtin n => decide (m = n)
  | .builtin m, .str t => decide (m.toJsString = t)
  | .str s, .builtin n => decide (s = n.toJsString)
  | .compound r t l, .compound r' t' l' =>
    decide (JVal.compound r t l = JVal.compound r' t' l')
  | .compound _ _ _, .builtin _ => false
  | .builtin _, .compound _ _ _ => false
  | .compound _ text _, .str t => decide (text = t)
  | .str s, .compound _ text _ => decide (s = text)
  | x, y =>
    match toNumber x, toNumber y with
    | some m, some n => decide (m = n)
    | _, _ => false

/-! ## Password hashing -/

/-- The 32-bit mask. -/
def mask32 : Nat := 4294967295

/-- Rotation of a 32-bit word to the right. -/
def rotr (x n : Nat) : Nat := ((x >>> n) ||| (x <<< (32 - n))) &&& mask32

/-- Addition modulo `2 ^ 32`. -/
def add32 (a b : Nat) : Nat := (a + b) &&& mask32

/-- The round constants of SHA-256. -/
def sha256K : List Nat := [
  0x428a2f98, 0x71374491, 0xb5c0fbcf, 0xe9b5dba5, 0x3956c25b, 0x59f111f1, 0x923f82a4, 0xab1c5ed5,
  0xd807aa98, 0x12835b01, 0x243185be, 0x550c7dc3, 0x72be5d74, 0x80deb1fe, 0x9bdc06a7, 0xc19bf174,
  0xe49b69c1, 0xefbe4786, 0x0fc19dc6, 0x240ca1cc, 0x2de92c6f, 0x4a7484aa, 0x5cb0a9dc, 0x76f988da,
  0x983e5152, 0xa831c66d, 0xb00327c8, 0xbf597fc7, 0xc6e00bf3, 0xd5a79147, 0x06ca6351, 0x14292967,
  0x27b70a85, 0x2e1b2138, 0x4d2c6dfc, 0x53380d13, 0x650a7354, 0x766a0abb, 0x81c2c92e, 0x92722c85,
  0xa2bfe8a1, 0xa81a664b, 0xc24b8b70, 0xc76c51a3, 0xd192e819, 0xd6990624, 0xf40e3585, 0x106aa070,
  0x19a4c116, 0x1e376c08, 0x2748774c, 0x34b0bcb5, 0x391c0cb3, 0x4ed8aa4a, 0x5b9cca4f, 0x682e6ff3,
  0x748f82ee, 0x78a5636f, 0x84c87814, 0x8cc70208, 0x90befffa, 0xa4506ceb, 0xbef9a3f7, 0xc67178f2]

/-- The initial hash value of SHA-256. -/
def sha256H0 : List Nat :=
  [0x6a09e667, 0xbb67ae85, 0x3c6ef372, 0xa54ff53a, 0x510e527f, 0x9b05688c, 0x1f83d9ab, 0x5be0cd19]

/-- The UTF-8 encoding of a character. -/
def utf8Bytes (c : Char) : List Nat :=
  let n := c.toNat
  if n < 128 then [n]
  else if n < 2048 then [192 + n / 64, 128 + n % 64]
  else if n < 65536 then [224 + n / 4096, 128 + (n / 64) % 64, 128 + n % 64]
  else [240 + n / 262144, 128 + (n / 4096) % 64, 128 + (n / 64) % 64, 128 + n % 64]

/-- The `width` big-endian bytes of a number. -/
def bigEndian (n width : Nat) : List Nat :=
  (List.range width).map (fun i => (n >>> (8 * (width - 1 - i))) &&& 255)

/-- The message padded to a whole number of 64-byte blocks. -/
def sha256Pad (msg : List Nat) : List Nat :=
  let l := msg.length
  msg ++ [128] ++ List.replicate ((119 - l % 64) % 64) 0 ++ bigEndian (8 * l) 8

/-- The big-endian 32-bit words of a byte sequence. -/
def sha256Words : List Nat → List Nat
  | a :: b :: c :: d :: rest => (a * 16777216 + b * 65536 + c * 256 + d) :: sha256Words rest
  | _ => []

/-- Extends the message schedule by `n` words; the schedule is kept with the
most recent word first. -/
def sha256Extend : Nat → List Nat → List Nat
  | 0, w => w
  | n + 1, w =>
    let w2 := w.getD 1 0
    let w7 := w.getD 6 0
    let w15 := w.getD 14 0
    let w16 := w.getD 15 0
    let s0 := rotr w15 7 ^^^ rotr w15 18 ^^^ (w15 >>> 3)
    let s1 := rotr w2 17 ^^^ rotr w2 19 ^^^ (w2 >>> 10)
    sha256Extend n (add32 (add32 (add32 w16 s0) w7) s1 :: w)

/-- One round of the compression function on the eight working variables. -/
def sha256Round (st : List Nat) (kw : Nat × Nat) : List Nat :=
  match st with
  | [a, b, c, d, e, f, g, h] =>
    let s1 := rotr e 6 ^^^ rotr e 11 ^^^ rotr e 25
    let ch := (e &&& f) ^^^ ((mask32 - e) &&& g)
    let t1 := add32 (add32 (add32 (add32 h s1) ch) kw.1) kw.2
    let s0 := rotr a 2 ^^^ rotr a 13 ^^^ rotr a 22
    let maj := (a &&& b) ^^^ (a &&& c) ^^^ (b &&& c)
    [add32 t1 (add32 s0 maj), a, b, c, add32 d t1, e, f, g]
  | _ => st

/-- The compression of one 64-byte block into the hash value. -/
def sha256Compress (h : List Nat) (block : List Nat) : List Nat :=
  let w := (sha256Extend 48 (sha256Words block).reverse).reverse
  List.zipWith add32 h ((sha256K.zip w).foldl sha256Round h)

/-- The first `n` blocks of 64 bytes. -/
def sha256Blocks : Nat → List Nat → List (List Nat)
  | 0, _ => []
  | n + 1, bs => bs.take 64 :: sha256Blocks n (bs.drop 64)

/-- A lower-case hexadecimal digit. -/
def hexDigit (n : Nat) : Char := Char.ofNat (if n < 10 then 48 + n else 87 + n)

/-- The eight hexadecimal digits of a 32-bit word. -/
def hex32 (w : Nat) : List Char :=
  (List.range 8).map (fun i => hexDigit ((w >>> (4 * (7 - i))) &&& 15))

/-- The call `crypto.createHash('sha256').update(s).digest('hex')` on a string. -/
def sha256 (s : String) : String :=
  let p := sha256Pad (s.toList.flatMap utf8Bytes)
  let h := (sha256Blocks (p.length / 64) p).foldl sha256Compress sha256H0
  String.mk (h.flatMap hex32)

/-- The function `hashPassword`; `none` stands for the TypeError that
`update` throws on a value that is not a string. -/
def hashPassword (password : JVal) : Option String :=
  match password with
  | .str s => some (sha256 s)
  | _ => none

/-- The function `verifyPassword`: `hashPassword(inputPassword) === hashedPassword`. -/
def verifyPassword (inputPassword hashedPassword : JVal) : Option Bool :=
  (hashPassword inputPassword).map (fun h => strictEq (.str h) hashedPassword)

/-! ## Session registry and authentication -/

/-- A session: the user snapshot and the expiry time in milliseconds. -/
structure Session where
  user : SessionUser
  expires : Int
  deriving DecidableEq, Repr

/-- The map `sessions`, from token to session, in insertion order. -/
abbrev Sessions := List (String × Session)

/-- The call `sessions.get(token)`. -/
def sessionsGet (sessions : Sessions) (token : String) : Option Session :=
  sessions.lookup token

/-- The call `sessions.delete(token)`. -/
def sessionsDelete (sessions : Sessions) (token : String) : Sessions :=
  sessions.filter (fun entry => entry.1 != token)

/-- The call `sessions.set(token, session)`: the entry of a known token is
replaced in place, a new token is added last. -/
def sessionsSet : Sessions → String → Session → Sessions
  | [], token, session => [(token, session)]
  | (t, s) :: rest, token, session =>
    if t = token then (token, session) :: rest else (t, s) :: sessionsSet rest token session

/-- What `authenticateToken` does with a request: it answers an error, or it
calls `next()` with `req.user` set. -/
inductive AuthResult where
  | reject (status : Nat) (error : String)
  | next (user : SessionUser)
  deriving DecidableEq, Repr

/-- The middleware `authenticateToken`.  `token` is the second word of the
`Authorization` header, `none` when there is none; `now` is `Date.now()`.  The
result comes with the registry as the call leaves it. -/
def authenticateToken (token : Option String) (sessions : Sessions) (now : Int) :
    AuthResult × Sessions :=
  match token with
  | none => (.reject 401 "Access token required", sessions)
  | some t =>
    if t = "" then (.reject 401 "Access token required", sessions)
    else
      match sessionsGet sessions t with
      | none => (.reject 401 "Invalid or expired token", sessionsDelete sessions t)
      | some session =>
        if session.expires < now then
          (.reject 401 "Invalid or expired token", sessionsDelete sessions t)
        else (.next session.user, sessions)

/-- Body of the response of an authentication route: an error object (its
`error` text) or the success object with its `token` and `user`. -/
inductive AuthBody where
  | error (msg : String)
  | success (token : String) (user : SessionUser)
  deriving DecidableEq, Repr

/-- What an authentication route did: the status and body it answered, the
registry as it leaves it, and the calls of `writeJsonFile` it made. -/
structure AuthOutcome where
  status : Nat
  body : AuthBody
  sessions : Sessions
  writes : List (File × List Obj)
  deriving DecidableEq, Repr

/-- The method `toLowerCase` of a string, on the letters `A` to `Z`; the case
mapping of letters outside ASCII is not modelled. -/
def toLowerCase (s : String) : String := String.mk (s.toList.map Char.toLower)

/-- The predicate of `users.find` in the login route:
`u.email.toLowerCase() === email.toLowerCase() && u.isActive`; `none` stands
for the TypeError of calling `toLowerCase` on a value that is not a string. -/
def loginMatch (email : JVal) (u : Obj) : Option Bool :=
  match getProp u "email", email with
  | .str e, .str x => some (decide (toLowerCase e = toLowerCase x) && truthy (getProp u "isActive"))
  | _, _ => none

/-- The call `xs.find(p)` for a predicate that can throw: `none` is the
exception, `some none` the result `undefined`. -/
def findThrowing {α : Type} (p : α → Option Bool) : List α → Option (Option α)
  | [] => some none
  | x :: xs =>
    match p x with
    | none => none
    | some true => some (some x)
    | some false => findThrowing p xs

/-- The handler of `POST /api/auth/login`.  `now` is `Date.now()` and `token`
the value `generateSessionToken()` returns.  An exception thrown by the handler
is answered 500 by the framework. -/
def login (body : Obj) (users : List Obj) (sessions : Sessions) (now : Int) (token : String) :
    AuthOutcome :=
  let email := getProp body "email"
  let password := getProp body "password"
  if !truthy email || !truthy password then
    ⟨400, .error "Email and password are required", sessions, []⟩
  else
    match findThrowing (loginMatch email) users with
    | none => ⟨500, .error "Internal Server Error", sessions, []⟩
    | some none => ⟨401, .error "Invalid credentials", sessions, []⟩
    | some (some user) =>
      match verifyPassword password (getProp user "password") with
      | none => ⟨500, .error "Internal Server Error", sessions, []⟩
      | some false => ⟨401, .error "Invalid credentials", sessions, []⟩
      | some true =>
        let sessionData : Session :=
          { user := loginSessionUser user, expires := now + 24 * 60 * 60 * 1000 }
        ⟨200, .success token sessionData.user, sessionsSet sessions token sessionData, []⟩

/-- The property `length` of a value: the number of UTF-16 code units of a
string, the arity of a function, the `length` of an array or object, and
`undefined` for every other value. -/
def jsLength : JVal → JVal
  | .str s => .num ((s.toList.map (fun c => if c.toNat < 65536 then (1 : Int) else 2)).sum)
  | .builtin .constructor => .num 1
  | .builtin .defineGetter => .num 2
  | .builtin .defineSetter => .num 2
  | .builtin .hasOwnProperty => .num 1
  | .builtin .lookupGetter => .num 1
  | .builtin .lookupSetter => .num 1
  | .builtin .isPrototypeOf => .num 1
  | .builtin .propertyIsEnumerable => .num 1
  | .builtin .toString => .num 0
  | .builtin .valueOf => .num 0
  | .builtin .toLocaleString => .num 0
  | .compound _ _ length => length
  | _ => .undefined

/-- The call `bcrypt.compareSync(a, b)`.  The file never declares or requires
`bcrypt`, so evaluating the identifier throws a ReferenceError: `none`. -/
def bcryptCompareSync (_a _b : JVal) : Option Bool := none

/-- The handler of `POST /api/auth/change-password`, after authentication.
`now` is `Date.now()` and `token` the value `generateSessionToken()` returns.
An exception inside the `try` block is answered 500 by the `catch` block. -/
def changePassword (user : SessionUser) (body : Obj) (users : List Obj) (sessions : Sessions)
    (now : Int) (token : String) : AuthOutcome :=
  let currentPassword := getProp body "currentPassword"
  let newPassword := getProp body "newPassword"
  if !truthy currentPassword || !truthy newPassword then
    ⟨400, .error "Current password and new password are required", sessions, []⟩
  else if lessThanInt (jsLength newPassword) 6 then
    ⟨400, .error "New password must be at least 6 characters long", sessions, []⟩
  else
    match findIndex (fun u => strictEq (getProp u "id") user.id) users with
    | none => ⟨404, .error "User not found", sessions, []⟩
    | some (userIndex, found) =>
      match bcryptCompareSync currentPassword (getProp found "password") with
      | none => ⟨500, .error "Internal server error while changing password", sessions, []⟩
      | some false => ⟨400, .error "Current password is incorrect", sessions, []⟩
      | some true =>
        match hashPassword newPassword with
        | none => ⟨500, .error "Internal server error while changing password", sessions, []⟩
        | some hashed =>
          let updated := setOwn (setOwn found "password" (.str hashed))
            "needsPasswordReset" (.bool false)
          let sessionData : Session :=
            { user :=
                { id := getProp updated "id"
                  email := getProp updated "email"
                  name := getProp updated "name"
                  role := getProp updated "role"
                  position := getProp updated "position"
                  teamId := getProp updated "teamId"
                  needsPasswordReset := .bool false }
              expires := now + 24 * 60 * 60 * 1000 }
          ⟨200, .success token sessionData.user, sessionsSet sessions token sessionData,
            [(.users, users.set userIndex updated)]⟩

/-! ## Work-log creation -/

/-- The readings of the clock a handler takes: `Date.now()`, and the date and
the full text of `new Date().toISOString()`. -/
structure Clock where
  now : Int
  date : String
  timestamp : String
  deriving DecidableEq, Repr

/-- The handler of `POST /api/work-logs`, after authentication. -/
def postWorkLog (user : SessionUser) (body : Obj) (workLogs users : List Obj) (clock : Clock) :
    Outcome :=
  let memberId := getProp body "memberId"
  let userPos := normalizePosition user.position
  if !strictEq userPos POSITIONS_ADMIN && !strictEq memberId user.id then
    ⟨403, .error "Access denied", []⟩
  else if strictEq userPos POSITIONS_ADMIN && !strictEq memberId user.id &&
      (users.find? (fun u => looseEq (getProp u "id") memberId)).isNone then
    ⟨400, .error "Target user not found", []⟩
  else
    let newLog :=
      setOwn (setOwn (setOwn (spread [("id", .num clock.now)] body)
        "loggedBy" user.id) "date" (.str clock.date)) "timestamp" (.str clock.timestamp)
    ⟨200, .record newLog, [(.workLogs, workLogs ++ [newLog])]⟩

/-! ## Reconciliation of users and team members -/

/-- The password hash given to a synthesized user. -/
def DEFAULT_PASSWORD_HASH : String :=
  "c3ab8ff13720e8ad9047dd39466b3c8974e592c2fa383d4a3960714caef0c4f2"

/-- The email of the account that gets no team-member profile. -/
def ADMIN_EMAIL : JVal := .str "admin@qa-team.com"

/-- The function `getPositionFromRole`. -/
def getPositionFromRole (role : JVal) : JVal :=
  if strictEq role (.str "QA Manager") then .str "QA Manager"
  else if strictEq role (.str "QA Lead") || strictEq role (.str "Senior QA Engineer") then
    .str "Team Lead"
  else .str "Regular Employee"

/-- The object `newUser` built for a team member without a login account;
`today` is the date part of `new Date().toISOString()`. -/
def newUserOf (today : String) (member : Obj) : Obj :=
  [("id", getProp member "id"),
   ("email", getProp member "email"),
   ("password", .str DEFAULT_PASSWORD_HASH),
   ("name", getProp member "name"),
   ("role", getProp member "role"),
   ("position", getPositionFromRole (getProp member "role")),
   ("teamId", jsOr (getProp member "teamId") (.num 1)),
   ("createdDate", jsOr (getProp member "joinDate") (.str today)),
   ("isActive", .bool true),
   ("needsPasswordReset", .bool true)]

/-- The object `newMember` built for a user without a team-member profile. -/
def newMemberOf (today : String) (user : Obj) : Obj :=
  [("id", getProp user "id"),
   ("name", getProp user "name"),
   ("email", getProp user "email"),
   ("role", getProp user "role"),
   ("availability", .str "available"),
   ("teamId", jsOr (getProp user "teamId") (.num 1)),
   ("joinDate", jsOr (getProp user "createdDate") (.str today))]

/-- The test `x.email === e` of the three loops. -/
def hasEmail (e : JVal) (x : Obj) : Bool := strictEq (getProp x "email") e

/-- The body of the first loop, over the team members: a member whose email no
user has gets a new user.  The state is the array `users` and the flag
`usersUpdated`. -/
def createUserStep (today : String) (state : List Obj × Bool) (member : Obj) :
    List Obj × Bool :=
  match state.1.find? (hasEmail (getProp member "email")) with
  | some _ => state
  | none => (state.1 ++ [newUserOf today member], true)

/-- The body of the second loop, over the users: a user other than the
administrator whose email no team member has gets a new profile.  The state is
the array `teamMembers` and the flag `teamMembersUpdated`. -/
def createMemberStep (today : String) (state : List Obj × Bool) (user : Obj) :
    List Obj × Bool :=
  if strictEq (getProp user "email") ADMIN_EMAIL then state
  else
    match state.1.find? (hasEmail (getProp user "email")) with
    | some _ => state
    | none => (state.1 ++ [newMemberOf today user], true)

/-- The body of the third loop, over the users: the first team member with the
user's email gets the user's id when its own differs. -/
def fixIdStep (state : List Obj × Bool) (user : Obj) : List Obj × Bool :=
  match findIndex (hasEmail (getProp user "email")) state.1 with
  | some (memberIndex, member) =>
    if !strictEq (getProp member "id") (getProp user "id") then
      (state.1.set memberIndex (assign member "id" (getProp user "id")), true)
    else state
  | none => state

/-- What a run of `syncUserAndTeamMemberData` did: the two flags it returns,
the arrays `users` and `teamMembers` as it leaves them, and the calls of
`writeJsonFile` it made. -/
structure SyncResult where
  usersUpdated : Bool
  teamMembersUpdated : Bool
  users : List Obj
  teamMembers : List Obj
  writes : List (File × List Obj)
  deriving DecidableEq, Repr

/-- The function `syncUserAndTeamMemberData` on the collections it reads;
`today` is the date part of `new Date().toISOString()`. -/
def syncUserAndTeamMemberData (today : String) (users teamMembers : List Obj) : SyncResult :=
  let afterUsers := teamMembers.foldl (createUserStep today) (users, false)
  let afterMembers := afterUsers.1.foldl (createMemberStep today) (teamMembers, false)
  let afterIds := afterUsers.1.foldl fixIdStep afterMembers
  { usersUpdated := afterUsers.2
    teamMembersUpdated := afterIds.2
    users := afterUsers.1
    teamMembers := afterIds.1
    writes :=
      (if afterUsers.2 then [(File.users, afterUsers.1)] else []) ++
      (if afterIds.2 then [(File.teamMembers, afterIds.1)] else []) }

/-- Whether a value is an array or an object. -/
def isCompound : JVal → Bool
  | .compound _ _ _ => true
  | _ => false

/-- A value as it is read back from the JSON text it was written to: an array
or an object is a new object, with the identity `ref`; every other value is
the value written. -/
def JVal.reread (ref : Nat) : JVal → JVal
  | .compound _ text length => .compound ref text length
  | v => v

/-- A record as it is read back: its properties from the place `j` on, the
property at place `j` getting the identity `ref j` when it is an array or an
object. -/
def rereadObj (ref : Nat → Nat) : Nat → Obj → Obj
  | _, [] => []
  | j, (k, v) :: rest => (k, v.reread (ref j)) :: rereadObj ref (j + 1) rest

/-- The records of a collection as they are read back, from the place `i`
on. -/
def readBackFrom (base : Nat) : Nat → List Obj → List Obj
  | _, [] => []
  | i, o :: rest =>
    rereadObj (fun j => base + Nat.pair i j) 0 o :: readBackFrom base (i + 1) rest

/-- What `readJsonFile` returns after `writeJsonFile(file, collection)`: the
records written, in their order and with their scalar values; every array or
object among their values is a new object, so that no two of them are the same
object.  The identities are taken from `base` on.  A property holding
`undefined`, which the text leaves out, is kept in its place: the reads of the
reconciliation, of `id`, `email`, `name` and `role`, give `undefined` for it as
for the absent property. -/
def readBack (base : Nat) (collection : List Obj) : List Obj :=
  readBackFrom base 0 collection

/-- The common shape of the first two loops of the reconciliation: an entry
that is not skipped and whose email no target record has gets a target
record built by `mk`. -/
def synthStep (skip : Obj → Bool) (mk : Obj → Obj) (state : List Obj × Bool) (x : Obj) :
    List Obj × Bool :=
  if skip x then state
  else
    match state.1.find? (hasEmail (getProp x "email")) with
    | some _ => state
    | none => (state.1 ++ [mk x], true)

/-- The invariant of the third loop of the reconciliation, after the users
`done` have been handled: `start` and `startFlag` are the team members and the
flag the loop began with, `ms` and `flag` what it holds now. -/
structure FixInv (done start ms : List Obj) (startFlag flag : Bool) : Prop where
  length_eq : ms.length = start.length
  same : ∀ (i : Nat) (m : Obj), ms[i]? = some m →
    ∃ m₀ : Obj, start[i]? = some m₀ ∧
      (∀ k : String, k ≠ "id" → getOwn m k = getOwn m₀ k) ∧
      ((∀ u ∈ done, getProp m₀ "email" ≠ getProp u "email") → m = m₀)
  changed : flag = true → startFlag = true ∨
    ∃ (i : Nat) (m m₀ : Obj), ms[i]? = some m ∧ start[i]? = some m₀ ∧
      getProp m "id" ≠ getProp m₀ "id" ∧ ∃ u ∈ done, getProp m₀ "email" = getProp u "email"
  fixed : ∀ u ∈ done, ∀ (i : Nat) (m : Obj),
    findIndex (hasEmail (getProp u "email")) ms = some (i, m) →
      getProp m "id" = getProp u "id"
  mono : startFlag = true → flag = true
  untouched : flag = false → ms = start

/-! ## Number parsing -/

/-- The call `parseInt(v)`: the value is converted to a string, from which the
integer is read; `none` stands for `NaN`. -/
def parseInt (v : JVal) : Option Int := parseIntString (toPropertyKey v)

/-- The expression `parseInt(v) || 0`. -/
def parseIntOrZero (v : JVal) : JVal :=
  match parseInt v with
  | some n => .num n
  | none => .num 0

/-! ## Employee registration -/

/-- The names of `requiredFields` in `POST /api/admin/register-employee`. -/
def requiredFields : List String :=
  ["email", "password", "name", "role", "position", "phone", "emergencyContact",
   "employeeId", "joinDate", "department", "employmentType"]

/-- The conversion of the requested tier position to the position stored:
`Admin` becomes `QA Manager` for the role `QA Manager` and `Team Lead`
otherwise, everything else becomes `Regular Employee`. -/
def internalPositionOf (position role : JVal) : JVal :=
  if strictEq position (.str "Admin") then
    (if strictEq role (.str "QA Manager") then .str "QA Manager" else .str "Team Lead")
  else .str "Regular Employee"

/-- The predicate of `users.find` in the registration route:
`u.email.toLowerCase() === emailLower`; `none` stands for the TypeError of
calling `toLowerCase` on a value that is not a string. -/
def emailLowerMatch (emailLower : String) (u : Obj) : Option Bool :=
  match getProp u "email" with
  | .str e => some (decide (toLowerCase e = emailLower))
  | _ => none

/-- The object `newUser` of the registration route. -/
def registeredUser (body : Obj) (emailLower hashed : String) (teamId : JVal) (clock : Clock) :
    Obj :=
  [("id", .num clock.now),
   ("email", .str emailLower),
   ("password", .str hashed),
   ("name", getProp body "name"),
   ("role", getProp body "role"),
   ("position", internalPositionOf (getProp body "position") (getProp body "role")),
   ("teamId", teamId),
   ("createdDate", .str clock.date),
   ("isActive", .bool true),
   ("needsPasswordReset", .bool true)]

/-- The object `newMember` of the registration route. -/
def registeredMember (body : Obj) (emailLower : String) (teamId : JVal) (clock : Clock) : Obj :=
  [("id", .num clock.now),
   ("name", getProp body "name"),
   ("email", .str emailLower),
   ("role", getProp body "role"),
   ("availability", jsOr (getProp body "availability") (.str "available")),
   ("teamId", teamId),
   ("joinDate", getProp body "joinDate"),
   ("phone", getProp body "phone"),
   ("emergencyContact", getProp body "emergencyContact"),
   ("address", jsOr (getProp body "address") (.str "")),
   ("city", jsOr (getProp body "city") (.str "")),
   ("state", jsOr (getProp body "state") (.str "")),
   ("zipcode", jsOr (getProp body "zipcode") (.str "")),
   ("employeeId", getProp body "employeeId"),
   ("department", getProp body "department"),
   ("employmentType", getProp body "employmentType"),
   ("skills", jsOr (getProp body "skills") (.str "")),
   ("education", jsOr (getProp body "education") (.str "")),
   ("experience", parseIntOrZero (getProp body "experience")),
   ("certifications", jsOr (getProp body "certifications") (.str ""))]

/-- The handler of `POST /api/admin/register-employee`, after authentication
and after its permission gate.  An exception inside the `try` block is answered
500 by the `catch` block.  The response body is the `employee` object. -/
def registerEmployee (user : SessionUser) (body : Obj) (users teamMembers : List Obj)
    (clock : Clock) : Outcome :=
  let missingFields := requiredFields.filter (fun field => !truthy (getProp body field))
  if missingFields.length > 0 then
    ⟨400, .error ("Missing required fields: " ++ ", ".intercalate missingFields), []⟩
  else if lessThanInt (jsLength (getProp body "password")) 6 then
    ⟨400, .error "Password must be at least 6 characters long", []⟩
  else if !(["Employee", "Admin"].map JVal.str).contains (getProp body "position") then
    ⟨400, .error "Invalid position selected", []⟩
  else
    match getProp body "email" with
    | .str email =>
      let emailLower := toLowerCase email
      match findThrowing (emailLowerMatch emailLower) users with
      | none => ⟨500, .error "Internal server error while registering employee", []⟩
      | some (some _) => ⟨409, .error "User with this email already exists", []⟩
      | some none =>
        match teamMembers.find?
            (fun m => strictEq (getProp m "employeeId") (getProp body "employeeId")) with
        | some _ => ⟨409, .error "Employee ID already exists", []⟩
        | none =>
          let teamId :=
            if strictEq user.position (.str "Team Lead") then user.teamId else .num 1
          match hashPassword (getProp body "password") with
          | none => ⟨500, .error "Internal server error while registering employee", []⟩
          | some hashed =>
            let newUser := registeredUser body emailLower hashed teamId clock
            let newMember := registeredMember body emailLower teamId clock
            ⟨200,
             .record [("id", .num clock.now), ("name", getProp body "name"),
               ("email", .str emailLower), ("role", getProp body "role"),
               ("position", getProp body "position"),
               ("employeeId", getProp body "employeeId")],
             [(.users, users ++ [newUser]), (.teamMembers, teamMembers ++ [newMember])]⟩
    | _ => ⟨500, .error "Internal server error while registering employee", []⟩

/-! ## Team-member listing and creation -/

/-- The handler of `GET /api/team-members`, after authentication. -/
def getTeamMembers (teamMembers : List Obj) : Outcome := ⟨200, .records teamMembers, []⟩

/-- The handler of `POST /api/team-members`, after authentication and after
its permission gate.  The reconciliation it schedules with `setTimeout` runs
after the response, as a job of its own. -/
def postTeamMember (body : Obj) (teamMembers : List Obj) (clock : Clock) : Outcome :=
  let assignedTeamId := jsOr (getProp body "teamId") (.num 1)
  let newMember :=
    setOwn (setOwn (spread [("id", .num clock.now)] body) "teamId" assignedTeamId)
      "joinDate" (.str clock.date)
  ⟨200, .record newMember, [(.teamMembers, teamMembers ++ [newMember])]⟩

/-! ## Task creation -/

/-- The handler of `POST /api/tasks`, after authentication and after its
permission gate.  An exception inside the `try` block (the call `title.trim()`
on a value that is not a string) is answered 500 by the `catch` block. -/
def postTask (user : SessionUser) (body : Obj) (tasks teamMembers : List Obj) (clock : Clock) :
    Outcome :=
  let title := getProp body "title"
  let assignedTo := getProp body "assignedTo"
  if !truthy title then ⟨400, .error "Task title is required", []⟩
  else
    match title with
    | .str t =>
      if t.toList.all isJsSpace then ⟨400, .error "Task title is required", []⟩
      else if !truthy assignedTo then ⟨400, .error "Assignee is required", []⟩
      else if !truthy (getProp body "priority") then ⟨400, .error "Priority is required", []⟩
      else if !truthy (getProp body "dueDate") then ⟨400, .error "Due date is required", []⟩
      else
        match parseInt assignedTo with
        | none => ⟨400, .error "Assigned team member not found", []⟩
        | some assigneeId =>
          match teamMembers.find? (fun m => strictEq (getProp m "id") (.num assigneeId)) with
          | none => ⟨400, .error "Assigned team member not found", []⟩
          | some _ =>
            let newTask :=
              setOwn (setOwn (setOwn (spread [("id", .num clock.now)] body)
                "createdBy" user.id) "createdDate" (.str clock.date)) "status" (.str "pending")
            ⟨200, .record newTask, [(.tasks, tasks ++ [newTask])]⟩
    | _ => ⟨500, .error "Internal server error while creating task", []⟩

/-! ## Password recovery, logout and token check -/

/-- The predicate of `users.find` and `users.findIndex` in the two password
recovery routes: `u.email.toLowerCase() === email.toLowerCase()`; `none` stands
for the TypeError of calling `toLowerCase` on a value that is not a string. -/
def emailMatch (email : JVal) (u : Obj) : Option Bool :=
  match getProp u "email", email with
  | .str e, .str x => some (decide (toLowerCase e = toLowerCase x))
  | _, _ => none

/-- The call `xs.findIndex(p)` for a predicate that can throw, together with
the element `xs[index]`: `none` is the exception, `some none` the result `-1`. -/
def findIndexThrowing {α : Type} (p : α → Option Bool) : List α → Option (Option (Nat × α))
  | [] => some none
  | x :: xs =>
    match p x with
    | none => none
    | some true => some (some (0, x))
    | some false => (findIndexThrowing p xs).map (fun r => r.map (fun ix => (ix.1 + 1, ix.2)))

/-- The handler of `POST /api/auth/logout`; `token` is the second word of the
`Authorization` header.  It answers 200 and returns the registry as it leaves
it. -/
def logout (token : Option String) (sessions : Sessions) : Nat × Sessions :=
  match token with
  | some t => if t ≠ "" then (200, sessionsDelete sessions t) else (200, sessions)
  | none => (200, sessions)

/-- The handler of `POST /api/auth/forgot-password`; `resetCode` is the code
drawn from `Math.random()`.  An exception thrown by the handler is answered 500
by the framework. -/
def forgotPassword (body : Obj) (users : List Obj) (resetCode : String) : Outcome :=
  let email := getProp body "email"
  if !truthy email then ⟨400, .error "Email is required", []⟩
  else
    match findThrowing (emailMatch email) users with
    | none => ⟨500, .error "Internal Server Error", []⟩
    | some none => ⟨404, .error "No account found with this email address", []⟩
    | some (some _) =>
      ⟨200, .record [("success", .bool true),
        ("message", .str "Password reset instructions sent to your email"),
        ("tempResetCode", .str resetCode),
        ("note", .str "Demo: Use this code to reset your password")], []⟩

/-- The handler of `POST /api/auth/reset-password`.  An exception thrown by the
handler is answered 500 by the framework. -/
def resetPassword (body : Obj) (users : List Obj) : Outcome :=
  let email := getProp body "email"
  let newPassword := getProp body "newPassword"
  if !truthy email || !truthy newPassword then
    ⟨400, .error "Email and new password are required", []⟩
  else if lessThanInt (jsLength newPassword) 6 then
    ⟨400, .error "Password must be at least 6 characters long", []⟩
  else
    match findIndexThrowing (emailMatch email) users with
    | none => ⟨500, .error "Internal Server Error", []⟩
    | some none => ⟨404, .error "No account found with this email address", []⟩
    | some (some (userIndex, found)) =>
      match hashPassword newPassword with
      | none => ⟨500, .error "Internal Server Error", []⟩
      | some hashed =>
        ⟨200, .record [("success", .bool true),
          ("message", .str "Password reset successfully. Please login with your new password.")],
         [(.users, users.set userIndex (setOwn found "password" (.str hashed)))]⟩

/-- The handler of `GET /api/auth/verify`, after authentication: the status and
the `user` of the answer. -/
def verify (user : SessionUser) : Nat × SessionUser := (200, user)

/-! ## Analytics -/

/-- A running total of `reduce((sum, log) => sum + (log.hours || 0), 0)`: a
number, `NaN`, or a string once the operator `+` has concatenated. -/
inductive Total where
  | num (n : Int)
  | nan
  | str (s : String)
  deriving DecidableEq, Repr

/-- ToString of a running total. -/
def Total.toJsString : Total → String
  | .num n => numberToString n
  | .nan => "NaN"
  | .str s => s

/-- The operator `sum + v`: with a string or a function on either side both
sides are converted to strings and concatenated, otherwise both are converted
to numbers and added. -/
def jsPlus (sum : Total) (v : JVal) : Total :=
  match v with
  | .str s => .str (sum.toJsString ++ s)
  | .builtin m => .str (sum.toJsString ++ m.toJsString)
  | .compound _ text _ => .str (sum.toJsString ++ text)
  | other =>
    match sum with
    | .str s => .str (s ++ toPropertyKey other)
    | .nan => .nan
    | .num n =>
      match toNumber other with
      | some k => .num (n + k)
      | none => .nan

/-- The reducer `(sum, log) => sum + (log.hours || 0)`. -/
def addHours (sum : Total) (log : Obj) : Total :=
  jsPlus sum (jsOr (getProp log "hours") (.num 0))

/-- The object `analytics` that `GET /api/analytics` answers. -/
structure Analytics where
  totalTeamMembers : Nat
  availableMembers : Nat
  totalTasks : Nat
  completedTasks : Nat
  totalHoursLogged : Total
  recentActivity : List Obj
  userPosition : JVal
  canManageTeam : Bool
  canAssignTasks : Bool
  canViewAllData : Bool
  deriving DecidableEq, Repr

/-- The handler of `GET /api/analytics`, after authentication: the object it
answers, with status 200; it writes nothing. -/
def getAnalytics (user : SessionUser) (teamMembers workLogs tasks users : List Obj) :
    Analytics :=
  let userPos := normalizePosition user.position
  let allTeamMembers := teamMembers
  let workLogs :=
    if strictEq userPos POSITIONS_EMPLOYEE then
      workLogs.filter (fun log => strictEq (getProp log "memberId") user.id)
    else workLogs
  let tasks :=
    if strictEq userPos POSITIONS_EMPLOYEE then
      tasks.filter (fun task => strictEq (getProp task "assignedTo") user.id)
    else tasks
  let recentActivityWithNames :=
    ((workLogs.drop (workLogs.length - 5)).reverse).map (enrichWorkLog users)
  { totalTeamMembers := allTeamMembers.length
    availableMembers :=
      (allTeamMembers.filter
        (fun m => strictEq (getProp m "availability") (.str "available"))).length
    totalTasks := tasks.length
    completedTasks :=
      (tasks.filter (fun t => strictEq (getProp t "status") (.str "completed"))).length
    totalHoursLogged := workLogs.foldl addHours (.num 0)
    recentActivity := recentActivityWithNames
    userPosition := user.position
    canManageTeam := canManageTeamMembers user.position
    canAssignTasks := Dashboard.canAssignTasks user.position
    canViewAllData := Dashboard.canViewAllData user.position }

/-- The sum of the hours of a list of logs as the specification words it: the
arithmetic sum of the `hours` that are numbers. -/
def sumOfHours (logs : List Obj) : Int :=
  (logs.map (fun log => match getProp log "hours" with
    | .num n => n
    | _ => 0)).sum

/-! ## Routes -/

/-- The four collections as a request finds them. -/
structure Store where
  users : List Obj
  teamMembers : List Obj
  tasks : List Obj
  workLogs : List Obj
  deriving DecidableEq, Repr

/-- The routes of the application programming interface. -/
inductive Route where
  | login
  | registerEmployee
  | changePassword
  | logout
  | forgotPassword
  | resetPassword
  | verify
  | getTeamMembers
  | postTeamMember
  | putTeamMember
  | getWorkLogs
  | postWorkLog
  | getTasks
  | postTask
  | putTask
  | getAnalytics
  deriving DecidableEq, Repr

/-- A request: its route, the second word of its `Authorization` header, the
value of `parseInt(req.params.id)` and its parsed body. -/
structure Request where
  route : Route
  token : Option String
  id : Option Int
  body : Obj
  deriving DecidableEq, Repr

/-- What serving a request did: the status answered, the session registry as it
is left, and the calls of `writeJsonFile` made, in order. -/
structure Effect where
  status : Nat
  sessions : Sessions
  writes : List (File × List Obj)
  deriving DecidableEq, Repr

/-- The status and the writes of an answer. -/
def Outcome.effect (answer : Outcome) : Nat × List (File × List Obj) :=
  (answer.status, answer.writes)

/-- The middleware chain `authenticateToken, handler`; the handler gives the
status it answers and the writes it makes. -/
def authenticated (req : Request) (sessions : Sessions) (now : Int)
    (handler : SessionUser → Nat × List (File × List Obj)) : Effect :=
  match authenticateToken req.token sessions now with
  | (.reject status _, sessions') => ⟨status, sessions', []⟩
  | (.next user, sessions') => ⟨(handler user).1, sessions', (handler user).2⟩

/-- The middleware chain `requirePermission(permissionCheck), handler`. -/
def permitted (permissionCheck : SessionUser → Bool) (user : SessionUser) (handler : Outcome) :
    Outcome :=
  match requirePermission permissionCheck user with
  | some refusal => refusal
  | none => handler

/-- The route `POST /api/tasks` after authentication: the chain
`requirePermission(user => canAssignTasks(user.position)), handler`. -/
def postTaskRoute (user : SessionUser) (body : Obj) (tasks teamMembers : List Obj)
    (clock : Clock) : Outcome :=
  permitted (fun u => canAssignTasks u.position) user
    (postTask user body tasks teamMembers clock)

/-- The application: each route with its middleware chain and handler.
`clock` holds the readings of the clock, `token` the value
`generateSessionToken()` would return and `resetCode` the code
`Math.random()` would give. -/
def serve (req : Request) (store : Store) (sessions : Sessions) (clock : Clock)
    (token resetCode : String) : Effect :=
  match req.route with
  | .login =>
    let answer := login req.body store.users sessions clock.now token
    ⟨answer.status, answer.sessions, answer.writes⟩
  | .registerEmployee =>
    authenticated req sessions clock.now (fun user =>
      (permitted registerEmployeePermission user
        (registerEmployee user req.body store.users store.teamMembers clock)).effect)
  | .changePassword =>
    match authenticateToken req.token sessions clock.now with
    | (.reject status _, sessions') => ⟨status, sessions', []⟩
    | (.next user, sessions') =>
      let answer := changePassword user req.body store.users sessions' clock.now token
      ⟨answer.status, answer.sessions, answer.writes⟩
  | .logout => ⟨(logout req.token sessions).1, (logout req.token sessions).2, []⟩
  | .forgotPassword =>
    let answer := forgotPassword req.body store.users resetCode
    ⟨answer.status, sessions, answer.writes⟩
  | .resetPassword =>
    let answer := resetPassword req.body store.users
    ⟨answer.status, sessions, answer.writes⟩
  | .verify =>
    authenticated req sessions clock.now (fun user => ((verify user).1, []))
  | .getTeamMembers =>
    authenticated req sessions clock.now (fun _ => (getTeamMembers store.teamMembers).effect)
  | .postTeamMember =>
    authenticated req sessions clock.now (fun user =>
      (permitted (fun u => canManageTeamMembers u.position) user
        (postTeamMember req.body store.teamMembers clock)).effect)
  | .putTeamMember =>
    authenticated req sessions clock.now (fun user =>
      (putTeamMember user req.id req.body store.teamMembers).effect)
  | .getWorkLogs =>
    authenticated req sessions clock.now (fun user =>
      (getWorkLogs user store.workLogs store.users).effect)
  | .postWorkLog =>
    authenticated req sessions clock.now (fun user =>
      (postWorkLog user req.body store.workLogs store.users clock).effect)
  | .getTasks =>
    authenticated req sessions clock.now (fun user => (getTasks user store.tasks).effect)
  | .postTask =>
    authenticated req sessions clock.now (fun user =>
      (postTaskRoute user req.body store.tasks store.teamMembers clock).effect)
  | .putTask =>
    authenticated req sessions clock.now (fun user =>
      (putTask user req.id req.body store.tasks).effect)
  | .getAnalytics =>
    authenticated req sessions clock.now (fun user =>
      let _analytics :=
        getAnalytics user store.teamMembers store.workLogs store.tasks store.users
      (200, []))

/-- Two records have emails equal ignoring case: two strings are compared
after `toLowerCase`, other values as they are. -/
def sameEmailIgnoringCase (a b : Obj) : Bool :=
  match getProp a "email", getProp b "email" with
  | .str x, .str y => decide (toLowerCase x = toLowerCase y)
  | x, y => decide (x = y)

/-! ## Sample data -/

/-- An employee session, as login builds it for a `Regular Employee`. -/
def sampleEmployee : SessionUser :=
  { id := .num 3, email := .str "analyst@qa-team.com", name := .str "Mike Johnson",
    role := .str "QA Analyst", position := .str "Employee", teamId := .num 1 }

/-- The bootstrap administrator of the default Users collection. -/
def defaultAdminUser : Obj :=
  [("id", .num 1), ("email", .str "admin@qa-team.com"),
   ("password", .str "240be518fabd2724ddb6f04eeb1da5967448d7e831c08c8fa822809f74c720a9"),
   ("name", .str "QA Administrator"), ("role", .str "QA Manager"),
   ("position", .str "QA Manager"), ("teamId", .null), ("createdDate", .str "2024-12-20"),
   ("isActive", .bool true)]

/-- A record of the Users collection whose position is not one the table knows. -/
def internUser : Obj :=
  [("id", .num 3), ("email", .str "intern@qa-team.com"), ("name", .str "Ira Intern"),
   ("role", .str "QA Intern"), ("position", .str "Intern"), ("teamId", .num 1),
   ("isActive", .bool true)]

/-- The team-member profile of user 3. -/
def sampleMember : Obj :=
  [("id", .num 3), ("name", .str "Mike Johnson"), ("email", .str "analyst@qa-team.com"),
   ("role", .str "QA Analyst"), ("availability", .str "available"), ("teamId", .num 1),
   ("joinDate", .str "2024-12-20"), ("phone", .str "555-0100")]

/-- An admin session, as login builds it for the bootstrap administrator. -/
def sampleAdmin : SessionUser :=
  { id := .num 1, email := .str "admin@qa-team.com", name := .str "QA Administrator",
    role := .str "QA Manager", position := .str "Admin", teamId := .null }

/-- Five tasks, the second and the fourth assigned to user 3. -/
def fiveTasks : List Obj :=
  [[("id", .num 11), ("title", .str "Test Login Functionality"), ("assignedTo", .num 1)],
   [("id", .num 12), ("title", .str "UI Regression Testing"), ("assignedTo", .num 3)],
   [("id", .num 13), ("title", .str "API Smoke Test"), ("assignedTo", .num 2)],
   [("id", .num 14), ("title", .str "Release Checklist"), ("assignedTo", .num 3)],
   [("id", .num 15), ("title", .str "Load Test"), ("assignedTo", .num 2)]]

/-- A task assigned to user 3 and created by user 1. -/
def sampleTask : Obj :=
  [("id", .num 10), ("title", .str "Test Login Functionality"), ("assignedTo", .num 3),
   ("status", .str "pending"), ("priority", .str "low"), ("createdBy", .num 1)]

/-- The default Team-Members collection of `initDataFile`. -/
def defaultTeamMembers : List Obj :=
  [[("id", .num 1), ("name", .str "John Doe"), ("role", .str "Senior QA Engineer"),
    ("email", .str "john.doe@company.com"), ("availability", .str "available"),
    ("joinDate", .str "2024-01-15")],
   [("id", .num 2), ("name", .str "Jane Smith"), ("role", .str "QA Analyst"),
    ("email", .str "jane.smith@company.com"), ("availability", .str "busy"),
    ("joinDate", .str "2024-02-01")]]

/-- The default Users collection of `initDataFile`. -/
def defaultUsers : List Obj :=
  [[("id", .num 1), ("email", .str "admin@qa-team.com"),
    ("password", .str (sha256 "admin123")), ("name", .str "QA Administrator"),
    ("role", .str "QA Manager"), ("position", .str "QA Manager"), ("teamId", .null),
    ("createdDate", .str "2024-12-20"), ("isActive", .bool true)],
   [("id", .num 2), ("email", .str "lead@qa-team.com"),
    ("password", .str (sha256 "lead123")), ("name", .str "Sarah Wilson"),
    ("role", .str "QA Lead"), ("position", .str "Team Lead"), ("teamId", .num 1),
    ("createdDate", .str "2024-12-20"), ("isActive", .bool true)],
   [("id", .num 3), ("email", .str "analyst@qa-team.com"),
    ("password", .str (sha256 "analyst123")), ("name", .str "Mike Johnson"),
    ("role", .str "QA Analyst"), ("position", .str "Regular Employee"), ("teamId", .num 1),
    ("createdDate", .str "2024-12-20"), ("isActive", .bool true)]]

/-- Two users that share an email and differ in id. -/
def twinUsers : List Obj :=
  [[("id", .num 1), ("email", .str "twin@qa-team.com"), ("name", .str "Ann"),
    ("role", .str "QA Analyst")],
   [("id", .num 2), ("email", .str "twin@qa-team.com"), ("name", .str "Bob"),
    ("role", .str "QA Analyst")]]

/-- Two team members that share an email and differ in id, as two calls of
`POST /api/team-members` with the same email leave them. -/
def twinMembers : List Obj :=
  [[("id", .num 1001), ("name", .str "Dana"), ("email", .str "dana@company.com"),
    ("role", .str "QA Analyst"), ("teamId", .num 1), ("joinDate", .str "2025-01-10")],
   [("id", .num 1002), ("name", .str "Dana"), ("email", .str "dana@company.com"),
    ("role", .str "QA Lead"), ("teamId", .num 1), ("joinDate", .str "2025-01-10")]]

/-- The team-member profile of the second of the twin users. -/
def twinProfile : List Obj :=
  [[("id", .num 2), ("name", .str "Bob"), ("email", .str "twin@qa-team.com"),
    ("role", .str "QA Analyst"), ("availability", .str "busy"), ("teamId", .num 1),
    ("joinDate", .str "2025-01-02")]]

/-- A reading of the clock. -/
def sampleClock : Clock :=
  { now := 1736500000000, date := "2025-01-10", timestamp := "2025-01-10T09:06:40.000Z" }

/-- The Users collection after a run of the reconciliation on the default
collections. -/
def syncedDefaultUsers : List Obj :=
  (syncUserAndTeamMemberData "2025-01-10" defaultUsers defaultTeamMembers).users

/-- A session whose position is the legacy name `Team Lead`. -/
def sampleLead : SessionUser :=
  { id := .num 2, email := .str "lead@qa-team.com", name := .str "Sarah Wilson",
    role := .str "QA Lead", position := .str "Team Lead", teamId := .num 1 }

/-- A complete body for `POST /api/admin/register-employee`. -/
def registrationBody : Obj :=
  [("email", .str "New.Hire@QA-Team.com"), ("password", .str "welcome1"),
   ("name", .str "Nia Hire"), ("role", .str "QA Analyst"), ("position", .str "Employee"),
   ("phone", .str "555-0101"), ("emergencyContact", .str "555-0102"),
   ("employeeId", .str "E-100"), ("joinDate", .str "2025-01-10"),
   ("department", .str "QA"), ("employmentType", .str "Full-time")]

/-- A body for `POST /api/team-members` whose email is the administrator's in
another case. -/
def mixedCaseBody : Obj :=
  [("name", .str "Ada Admin"), ("email", .str "Admin@QA-Team.com"),
   ("role", .str "QA Analyst"), ("availability", .str "available")]

/-- The team member that `POST /api/team-members` builds from `mixedCaseBody`
at `sampleClock`. -/
def mixedCaseMember : Obj :=
  [("id", .num 1736500000000), ("name", .str "Ada Admin"), ("email", .str "Admin@QA-Team.com"),
   ("role", .str "QA Analyst"), ("availability", .str "available"), ("teamId", .num 1),
   ("joinDate", .str "2025-01-10")]

/-- Three work logs, the first and the third of member 3. -/
def sampleLogs : List Obj :=
  [[("id", .num 21), ("memberId", .num 3), ("hours", .num 4), ("loggedBy", .num 3)],
   [("id", .num 22), ("memberId", .num 2), ("hours", .num 6), ("loggedBy", .num 2)],
   [("id", .num 23), ("memberId", .num 3), ("hours", .num 3), ("loggedBy", .num 3)]]

/-- A body for `POST /api/tasks` whose title is a number and whose assignee
is no team member. -/
def untypedTitleBody : Obj :=
  [("title", .num 5), ("assignedTo", .num 999), ("priority", .str "high"),
   ("dueDate", .str "2025-02-01")]

/-- A registry that holds one session, of `sampleLead`. -/
def leadSessions : Sessions := [("lead-token", ⟨sampleLead, 1736586400000⟩)]

/-- A body for `POST /api/team-members` whose email is an array. -/
def arrayEmailBody : Obj :=
  [("name", .str "Ari Array"), ("email", .compound 1 "ari@company.com" (.num 1)),
   ("role", .str "QA Analyst")]

/-- The team member that `POST /api/team-members` builds from `arrayEmailBody`
at `sampleClock`, as it is read from the file. -/
def arrayEmailMember : Obj :=
  [("id", .num 1736500000000), ("name", .str "Ari Array"),
   ("email", .compound 7 "ari@company.com" (.num 1)), ("role", .str "QA Analyst"),
   ("teamId", .num 1), ("joinDate", .str "2025-01-10")]

/-- A body for `POST /api/team-members` whose id is the array `[7]`. -/
def arrayIdBody : Obj :=
  [("id", .compound 1 "7" (.num 1)), ("name", .str "Ida Array"),
   ("email", .str "ida@company.com"), ("role", .str "QA Analyst")]

/-- The team member that `POST /api/team-members` builds from `arrayIdBody`, as
it is read from the file: the `id` of the body has replaced the clock
reading. -/
def arrayIdMember : Obj :=
  [("id", .compound 11 "7" (.num 1)), ("name", .str "Ida Array"),
   ("email", .str "ida@company.com"), ("role", .str "QA Analyst"),
   ("teamId", .num 1), ("joinDate", .str "2025-01-10")]

/-- The user that the reconciliation makes of `arrayIdMember`, as it is read
from the file. -/
def arrayIdUser : Obj :=
  [("id", .compound 12 "7" (.num 1)), ("email", .str "ida@company.com"),
   ("password", .str DEFAULT_PASSWORD_HASH), ("name", .str "Ida Array"),
   ("role", .str "QA Analyst"), ("position", .str "Regular Employee"),
   ("teamId", .num 1), ("createdDate", .str "2025-01-10"), ("isActive", .bool true),
   ("needsPasswordReset", .bool true)]

/-- A body for `POST /api/team-members` without an email. -/
def noEmailBody : Obj := [("name", .str "Noel Nomail"), ("role", .str "QA Analyst")]

/-- The team member that `POST /api/team-members` builds from `noEmailBody` at
`sampleClock`. -/
def noEmailMember : Obj :=
  [("id", .num 1736500000000), ("name", .str "Noel Nomail"), ("role", .str "QA Analyst"),
   ("teamId", .num 1), ("joinDate", .str "2025-01-10")]

/-! ## Property reads and writes -/

theorem getOwn_setOwn_self (o : Obj) (k : String) (v : JVal) :
    getOwn (setOwn o k v) k = some v := by
  induction o with
  | nil => simp [setOwn, getOwn, List.lookup]
  | cons kv rest ih =>
    obtain ⟨k', v'⟩ := kv
    by_cases h : k' = k
    · simp [setOwn, h, getOwn, List.lookup]
    · have hb : (k == k') = false := by
        simpa using fun e : k = k' => h e.symm
      simpa [setOwn, h, getOwn, List.lookup, hb] using ih

theorem getOwn_setOwn_ne (o : Obj) (k k' : String) (v : JVal) (h : k ≠ k') :
    getOwn (setOwn o k' v) k = getOwn o k := by
  induction o with
  | nil =>
    have hb : (k == k') = false := by simpa using h
    simp [setOwn, getOwn, List.lookup, hb]
  | cons kv rest ih =>
    obtain ⟨k₁, v₁⟩ := kv
    by_cases h₁ : k₁ = k'
    · subst h₁
      have hb : (k == k₁) = false := by simpa using h
      simp [setOwn, getOwn, List.lookup, hb]
    · by_cases h₂ : k = k₁
      · subst h₂
        simp [setOwn, h₁, getOwn, List.lookup]
      · have hb : (k == k₁) = false := by simpa using h₂
        simpa [setOwn, h₁, getOwn, List.lookup, hb] using ih

theorem getOwn_spread_of_not_mem (b a : Obj) (k : String) (h : k ∉ objectKeys b) :
    getOwn (spread a b) k = getOwn a k := by
  induction b generalizing a with
  | nil => rfl
  | cons kv rest ih =>
    have hk : k ≠ kv.1 := fun e => h (by simp [objectKeys, e])
    have hrest : k ∉ objectKeys rest := fun m =>
      h (by simp only [objectKeys, List.map_cons, List.mem_cons]; exact Or.inr m)
    have := ih (setOwn a kv.1 kv.2) hrest
    simpa [spread, getOwn_setOwn_ne _ _ _ _ hk] using this

theorem findIndex_some {α : Type} (p : α → Bool) (l : List α) (i : Nat) (x : α)
    (h : findIndex p l = some (i, x)) : l[i]? = some x ∧ p x = true := by
  induction l generalizing i with
  | nil => simp [findIndex] at h
  | cons y ys ih =>
    by_cases hy : p y = true
    · simp only [findIndex, hy, if_true, Option.some.injEq, Prod.mk.injEq] at h
      obtain ⟨rfl, rfl⟩ := h
      exact ⟨by simp, hy⟩
    · simp only [findIndex, hy, Bool.false_eq_true, if_false, Option.map_eq_some'] at h
      obtain ⟨⟨j, z⟩, hj, hz⟩ := h
      simp only [Prod.mk.injEq] at hz
      obtain ⟨rfl, rfl⟩ := hz
      have := ih j hj
      exact ⟨by simpa using this.1, this.2⟩

theorem getOwn_eq_none_of_not_mem (o : Obj) (k : String) (h : k ∉ objectKeys o) :
    getOwn o k = none := by
  induction o with
  | nil => rfl
  | cons kv rest ih =>
    obtain ⟨k₁, v₁⟩ := kv
    have hne : k ≠ k₁ := fun e => h (by simp [objectKeys, e])
    have hb : (k == k₁) = false := by simpa using hne
    have hrest : k ∉ objectKeys rest := fun m =>
      h (by simp only [objectKeys, List.map_cons, List.mem_cons]; exact Or.inr m)
    simpa [getOwn, List.lookup, hb] using ih hrest

theorem mem_objectKeys_of_getOwn (o : Obj) (k : String) (v : JVal)
    (h : getOwn o k = some v) : k ∈ objectKeys o := by
  by_contra hn
  rw [getOwn_eq_none_of_not_mem o k hn] at h
  exact absurd h (by simp)

theorem mem_objectKeys_setOwn (o : Obj) (k k' : String) (v : JVal)
    (h : k' ∈ objectKeys (setOwn o k v)) : k' = k ∨ k' ∈ objectKeys o := by
  induction o with
  | nil => simpa [setOwn, objectKeys] using h
  | cons kv rest ih =>
    obtain ⟨k₁, v₁⟩ := kv
    by_cases h₁ : k₁ = k
    · simp only [setOwn, h₁, if_true, objectKeys, List.map_cons, List.mem_cons] at h
      rcases h with h | h
      · exact Or.inl h
      · exact Or.inr (by simp only [objectKeys, List.map_cons, List.mem_cons]; exact Or.inr h)
    · simp only [setOwn, h₁, if_false, objectKeys, List.map_cons, List.mem_cons] at h
      rcases h with h | h
      · exact Or.inr (by simp [objectKeys, h])
      · rcases ih h with h' | h'
        · exact Or.inl h'
        · exact Or.inr (by simp only [objectKeys, List.map_cons, List.mem_cons]; exact Or.inr h')

theorem nodup_objectKeys_setOwn (o : Obj) (k : String) (v : JVal)
    (h : (objectKeys o).Nodup) : (objectKeys (setOwn o k v)).Nodup := by
  induction o with
  | nil => simp [setOwn, objectKeys]
  | cons kv rest ih =>
    obtain ⟨k₁, v₁⟩ := kv
    simp only [objectKeys, List.map_cons, List.nodup_cons] at h
    by_cases h₁ : k₁ = k
    · subst h₁
      simpa [setOwn, objectKeys] using h
    · simp only [setOwn, h₁, if_false, objectKeys, List.map_cons, List.nodup_cons]
      refine ⟨fun hm => ?_, ih h.2⟩
      rcases mem_objectKeys_setOwn rest k k₁ v hm with e | e
      · exact h₁ e
      · exact h.1 e

theorem getOwn_spread_of_nodup (b a : Obj) (k : String) (v : JVal)
    (hb : (objectKeys b).Nodup) (h : getOwn b k = some v) :
    getOwn (spread a b) k = some v := by
  induction b generalizing a with
  | nil => simp [getOwn, List.lookup] at h
  | cons kv rest ih =>
    obtain ⟨k₁, v₁⟩ := kv
    simp only [objectKeys, List.map_cons, List.nodup_cons] at hb
    have hstep : spread a ((k₁, v₁) :: rest) = spread (setOwn a k₁ v₁) rest := rfl
    rw [hstep]
    by_cases h₁ : k = k₁
    · subst h₁
      have hv : v₁ = v := by simpa [getOwn, List.lookup] using h
      subst hv
      rw [getOwn_spread_of_not_mem rest _ k hb.1]
      exact getOwn_setOwn_self a k v₁
    · have hbq : (k == k₁) = false := by simpa using h₁
      have hrest : getOwn rest k = some v := by simpa [getOwn, List.lookup, hbq] using h
      exact ih _ hb.2 hrest

/-! ## Role normalizer -/

/-- What a read of `INTERNAL_POSITIONS` can return: one of the two tier
strings, an inherited member of `Object.prototype`, or `undefined`. -/
theorem getProp_INTERNAL_POSITIONS (k : String) :
    getProp INTERNAL_POSITIONS k = .str "Employee" ∨
    getProp INTERNAL_POSITIONS k = .str "Admin" ∨
    (∃ m, getProp INTERNAL_POSITIONS k = .builtin m) ∨
    getProp INTERNAL_POSITIONS k = .undefined := by
  by_cases h₁ : k = "Regular Employee"
  · subst h₁; exact Or.inl (by decide)
  by_cases h₂ : k = "Team Lead"
  · subst h₂; exact Or.inr (Or.inl (by decide))
  by_cases h₃ : k = "QA Manager"
  · subst h₃; exact Or.inr (Or.inl (by decide))
  have b₁ : (k == "Regular Employee") = false := by simpa using h₁
  have b₂ : (k == "Team Lead") = false := by simpa using h₂
  have b₃ : (k == "QA Manager") = false := by simpa using h₃
  have hown : getOwn INTERNAL_POSITIONS k = none := by
    simp [getOwn, INTERNAL_POSITIONS, List.lookup, b₁, b₂, b₃]
  unfold getProp
  rw [hown]
  cases protoMember? k with
  | none => exact Or.inr (Or.inr (Or.inr rfl))
  | some m => exact Or.inr (Or.inr (Or.inl ⟨m, rfl⟩))

/-- The four possible results of `normalizePosition`: a tier string from the
table, an inherited member of `Object.prototype`, or the argument itself when
the table has nothing under its key. -/
theorem normalizePosition_cases (x : JVal) :
    normalizePosition x = .str "Employee" ∨
    normalizePosition x = .str "Admin" ∨
    (∃ m, normalizePosition x = .builtin m) ∨
    (normalizePosition x = x ∧
      getProp INTERNAL_POSITIONS (toPropertyKey x) = .undefined) := by
  rcases getProp_INTERNAL_POSITIONS (toPropertyKey x) with h | h | ⟨m, h⟩ | h
  · exact Or.inl (by simp [normalizePosition, h, jsOr, truthy])
  · exact Or.inr (Or.inl (by simp [normalizePosition, h, jsOr, truthy]))
  · exact Or.inr (Or.inr (Or.inl ⟨m, by simp [normalizePosition, h, jsOr, truthy]⟩))
  · exact Or.inr (Or.inr (Or.inr ⟨by simp [normalizePosition, h, jsOr, truthy], h⟩))

/-- The part of the normalizer's contract that holds: the three legacy
positions map to their tier, the two tier values are returned unchanged, and so
is every string that names neither a table entry nor a member of
`Object.prototype`. -/
theorem normalizePosition_table :
    normalizePosition (.str "Regular Employee") = .str "Employee" ∧
    normalizePosition (.str "Team Lead") = .str "Admin" ∧
    normalizePosition (.str "QA Manager") = .str "Admin" ∧
    normalizePosition (.str "Employee") = .str "Employee" ∧
    normalizePosition (.str "Admin") = .str "Admin" ∧
    ∀ s : String, s ≠ "Regular Employee" → s ≠ "Team Lead" → s ≠ "QA Manager" →
      protoMember? s = none → normalizePosition (.str s) = .str s := by
  refine ⟨by decide, by decide, by decide, by decide, by decide, ?_⟩
  intro s h₁ h₂ h₃ hp
  have b₁ : (s == "Regular Employee") = false := by simpa using h₁
  have b₂ : (s == "Team Lead") = false := by simpa using h₂
  have b₃ : (s == "QA Manager") = false := by simpa using h₃
  simp [normalizePosition, toPropertyKey, getProp, getOwn, INTERNAL_POSITIONS, List.lookup,
    b₁, b₂, b₃, hp, jsOr, truthy]

/-- C6 (code defect): for the unrecognized string `constructor` the table read
`INTERNAL_POSITIONS[position]` finds the function inherited from
`Object.prototype`, which is truthy, so `normalizePosition` returns that
function and not the string it was given. -/
theorem normalizePosition_constructor :
    normalizePosition (.str "constructor") = .builtin .constructor ∧
    normalizePosition (.str "constructor") ≠ .str "constructor" := by
  decide

/-- C7: `normalizePosition` is idempotent on every value. -/
theorem normalizePosition_idempotent (x : JVal) :
    normalizePosition (normalizePosition x) = normalizePosition x := by
  rcases normalizePosition_cases x with h | h | ⟨m, h⟩ | ⟨h, _⟩
  · rw [h]; decide
  · rw [h]; decide
  · rw [h]; cases m <;> decide
  · exact congrArg normalizePosition h

/-! ## Permission evaluators -/

/-- C8: each of `canManageTeamMembers`, `canAssignTasks` and `canViewAllData`
is true exactly when the normalized position is `Admin`, and false otherwise. -/
theorem permission_true_iff_admin (p : JVal) :
    (canManageTeamMembers p = true ↔ normalizePosition p = POSITIONS_ADMIN) ∧
    (canAssignTasks p = true ↔ normalizePosition p = POSITIONS_ADMIN) ∧
    (canViewAllData p = true ↔ normalizePosition p = POSITIONS_ADMIN) ∧
    (canManageTeamMembers p = false ↔ normalizePosition p ≠ POSITIONS_ADMIN) ∧
    (canAssignTasks p = false ↔ normalizePosition p ≠ POSITIONS_ADMIN) ∧
    (canViewAllData p = false ↔ normalizePosition p ≠ POSITIONS_ADMIN) := by
  simp [canManageTeamMembers, canAssignTasks, canViewAllData, strictEq]

/-- The position login stores in a session is never a legacy position that
the table maps to a tier. -/
theorem loginSessionUser_position (u : Obj) :
    (loginSessionUser u).position ≠ .str "QA Manager" ∧
    (loginSessionUser u).position ≠ .str "Team Lead" := by
  have hq : getProp INTERNAL_POSITIONS "QA Manager" ≠ .undefined := by decide
  have ht : getProp INTERNAL_POSITIONS "Team Lead" ≠ .undefined := by decide
  have hpos : (loginSessionUser u).position =
      jsOr (normalizePosition (getProp u "position")) POSITIONS_EMPLOYEE := rfl
  rw [hpos]
  rcases normalizePosition_cases (getProp u "position") with h | h | ⟨m, h⟩ | ⟨h, hu⟩
  · rw [h]; exact ⟨by decide, by decide⟩
  · rw [h]; exact ⟨by decide, by decide⟩
  · rw [h]; simp [jsOr, truthy]
  · rw [h]
    have hne : ∀ s : String, getProp INTERNAL_POSITIONS s ≠ .undefined →
        jsOr (getProp u "position") POSITIONS_EMPLOYEE ≠ .str s ∨ s = "Employee" := by
      intro s hs
      by_cases hs' : s = "Employee"
      · exact Or.inr hs'
      · refine Or.inl fun e => ?_
        unfold jsOr at e
        split at e
        · rw [e] at hu
          exact hs hu
        · simp [POSITIONS_EMPLOYEE] at e
          exact hs' e.symm
    refine ⟨?_, ?_⟩
    · rcases hne "QA Manager" hq with h' | h'
      · exact h'
      · exact absurd h' (by decide)
    · rcases hne "Team Lead" ht with h' | h'
      · exact h'
      · exact absurd h' (by decide)

/-- C3 (code defect): the gate of `POST /api/admin/register-employee` compares
the session position with the legacy strings `QA Manager` and `Team Lead`, while
login stores the normalized tier.  Every session that login creates is answered
403, also the one of the bootstrap administrator, whose position is `Admin` and
for whom `canManageTeamMembers` is true. -/
theorem registerEmployee_refuses_login_sessions (u : Obj) :
    requirePermission registerEmployeePermission (loginSessionUser u) =
      some ⟨403, .error "Insufficient permissions", []⟩ ∧
    (loginSessionUser defaultAdminUser).position = .str "Admin" ∧
    canManageTeamMembers (loginSessionUser defaultAdminUser).position = true ∧
    requirePermission registerEmployeePermission (loginSessionUser defaultAdminUser) =
      some ⟨403, .error "Insufficient permissions", []⟩ := by
  have h := loginSessionUser_position u
  have hgate : registerEmployeePermission (loginSessionUser u) = false := by
    simp [registerEmployeePermission, strictEq, h.1, h.2]
  refine ⟨by simp [requirePermission, hgate], by decide, by decide, by decide⟩

/-! ## Task update -/

/-- The update an Employee assignee may apply holds no other property than
`status` and `comments`. -/
theorem allowedFields_updates_keys (body : Obj) (k : String)
    (h₁ : k ≠ "status") (h₂ : k ≠ "comments") :
    k ∉ objectKeys (allowedFields.foldl
      (fun acc field =>
        if !strictEq (getProp body field) .undefined then
          assign acc field (getProp body field)
        else acc) []) := by
  simp only [allowedFields, List.foldl]
  by_cases hs : strictEq (getProp body "status") .undefined = true <;>
    by_cases hc : strictEq (getProp body "comments") .undefined = true <;>
    simp [hs, hc, assign, setOwn, objectKeys, h₁, h₂]

/-- C2: for a task found under the requested id, `PUT /api/tasks/:id` is not
answered 403 exactly when the caller's normalized position is `Admin`, or the
task's `assignedTo` is the caller's id, or its `createdBy` is the caller's id;
a 403 answer comes with no write of the tasks collection. -/
theorem putTask_allowed_iff (user : SessionUser) (taskId : Option Int) (body : Obj)
    (tasks : List Obj) (taskIndex : Nat) (task : Obj)
    (hfind : findIndex (fun t => looseEqNum (getProp t "id") taskId) tasks
      = some (taskIndex, task)) :
    ((putTask user taskId body tasks).status ≠ 403 ↔
      (normalizePosition user.position = POSITIONS_ADMIN ∨
       getProp task "assignedTo" = user.id ∨
       getProp task "createdBy" = user.id)) ∧
    ((putTask user taskId body tasks).status = 403 →
      (putTask user taskId body tasks).writes = []) := by
  by_cases hc : (strictEq (normalizePosition user.position) POSITIONS_ADMIN ||
      strictEq (getProp task "createdBy") user.id ||
      strictEq (getProp task "assignedTo") user.id) = true
  · have hout : (putTask user taskId body tasks).status = 200 := by
      simp only [putTask, hfind, hc]
      rfl
    refine ⟨?_, ?_⟩
    · constructor
      · intro _
        simp only [strictEq, Bool.or_eq_true, decide_eq_true_eq] at hc
        tauto
      · intro _
        rw [hout]
        decide
    · intro h
      rw [hout] at h
      exact absurd h (by decide)
  · have hout : putTask user taskId body tasks = ⟨403, .error "Access denied", []⟩ := by
      simp only [putTask, hfind]
      simp [hc]
    refine ⟨?_, ?_⟩
    · constructor
      · intro h
        rw [hout] at h
        exact absurd rfl h
      · intro h
        simp only [strictEq, Bool.or_eq_true, decide_eq_true_eq] at hc
        exact absurd (by tauto) hc
    · intro _
      rw [hout]

/-- Witness of `putTask_allowed_iff`: the assignee of the sample task. -/
theorem putTask_allowed_iff_witness :
    ((putTask sampleEmployee (some 10) [("status", .str "completed")] [sampleTask]).status ≠ 403 ↔
      (normalizePosition sampleEmployee.position = POSITIONS_ADMIN ∨
       getProp sampleTask "assignedTo" = sampleEmployee.id ∨
       getProp sampleTask "createdBy" = sampleEmployee.id)) ∧
    ((putTask sampleEmployee (some 10) [("status", .str "completed")] [sampleTask]).status = 403 →
      (putTask sampleEmployee (some 10) [("status", .str "completed")] [sampleTask]).writes = []) :=
  putTask_allowed_iff sampleEmployee (some 10) [("status", .str "completed")] [sampleTask]
    0 sampleTask (by decide)

/-- C1 (code defect): a caller whose session position is the unrecognized
string `Intern` is not an Admin, yet on a task assigned to that caller the
handler applies the whole payload, here `title` and `priority`: the test for
the restricted branch is `userPos === POSITIONS.EMPLOYEE`, and every other
caller takes the branch commented `Admins can edit all fields`.  The sibling
handler of the team members restricts the same caller: it drops the `name` of
the payload and applies the `phone`. -/
theorem putTask_nonAdmin_overwrites_title :
    (putTeamMember (loginSessionUser internUser) (some 3)
      [("name", .str "x"), ("phone", .str "555-0111")] [sampleMember]).body =
      .record [("id", .num 3), ("name", .str "Mike Johnson"),
        ("email", .str "analyst@qa-team.com"), ("role", .str "QA Analyst"),
        ("availability", .str "available"), ("teamId", .num 1),
        ("joinDate", .str "2024-12-20"), ("phone", .str "555-0111")] ∧
    normalizePosition (loginSessionUser internUser).position ≠ POSITIONS_ADMIN ∧
    getProp sampleTask "assignedTo" = (loginSessionUser internUser).id ∧
    getProp sampleTask "title" = .str "Test Login Functionality" ∧
    putTask (loginSessionUser internUser) (some 10)
      [("title", .str "x"), ("priority", .str "high")] [sampleTask] =
      ⟨200,
       .record [("id", .num 10), ("title", .str "x"), ("assignedTo", .num 3),
         ("status", .str "pending"), ("priority", .str "high"), ("createdBy", .num 1)],
       [(.tasks, [[("id", .num 10), ("title", .str "x"), ("assignedTo", .num 3),
         ("status", .str "pending"), ("priority", .str "high"), ("createdBy", .num 1)]])]⟩ := by
  decide

/-- The frame of a task update by an Employee, the part of C1 that the code
keeps: when the caller's normalized position is `Employee` and the
task found under the requested id is assigned to the caller, the handler
answers 200 and writes the tasks collection with that one task replaced; the
replacement has the same own properties as the task except possibly `status`
and `comments`, and every other task of the collection is unchanged. -/
theorem putTask_employee_frame (user : SessionUser) (taskId : Option Int) (body : Obj)
    (tasks : List Obj) (taskIndex : Nat) (task : Obj)
    (hfind : findIndex (fun t => looseEqNum (getProp t "id") taskId) tasks
      = some (taskIndex, task))
    (hpos : normalizePosition user.position = POSITIONS_EMPLOYEE)
    (hassigned : getProp task "assignedTo" = user.id) :
    ∃ updated : Obj,
      putTask user taskId body tasks =
        ⟨200, .record updated, [(.tasks, tasks.set taskIndex updated)]⟩ ∧
      (∀ k : String, k ≠ "status" → k ≠ "comments" → getOwn updated k = getOwn task k) ∧
      (tasks.set taskIndex updated).length = tasks.length ∧
      (∀ j : Nat, j ≠ taskIndex → (tasks.set taskIndex updated)[j]? = tasks[j]?) := by
  have ha : strictEq (getProp task "assignedTo") user.id = true := by
    simp [strictEq, hassigned]
  have he : strictEq (normalizePosition user.position) POSITIONS_EMPLOYEE = true := by
    simp [strictEq, hpos]
  refine ⟨spread task (allowedFields.foldl
      (fun acc field =>
        if !strictEq (getProp body field) .undefined then
          assign acc field (getProp body field)
        else acc) []), ?_, ?_, ?_, ?_⟩
  · simp [putTask, hfind, ha, he]
  · intro k h₁ h₂
    exact getOwn_spread_of_not_mem _ _ _ (allowedFields_updates_keys body k h₁ h₂)
  · simp
  · intro j hj
    exact List.getElem?_set_ne (Ne.symm hj)

/-- Witness of `putTask_employee_frame`: the sample employee completes the
sample task and also submits `priority` and `title`. -/
theorem putTask_employee_frame_witness :
    ∃ updated : Obj,
      putTask sampleEmployee (some 10)
          [("status", .str "completed"), ("priority", .str "high"), ("title", .str "x")]
          [sampleTask] =
        ⟨200, .record updated, [(.tasks, [sampleTask].set 0 updated)]⟩ ∧
      (∀ k : String, k ≠ "status" → k ≠ "comments" →
        getOwn updated k = getOwn sampleTask k) ∧
      ([sampleTask].set 0 updated).length = [sampleTask].length ∧
      (∀ j : Nat, j ≠ 0 → ([sampleTask].set 0 updated)[j]? = [sampleTask][j]?) :=
  putTask_employee_frame sampleEmployee (some 10)
    [("status", .str "completed"), ("priority", .str "high"), ("title", .str "x")]
    [sampleTask] 0 sampleTask (by decide) (by decide) (by decide)

/-! ## Team-member update -/

theorem profileUpdates_keys (body : Obj) (fields : List String) (acc : Obj) (k : String)
    (hk : k ∈ adminOnlyFields) (hacc : k ∉ objectKeys acc) :
    k ∉ objectKeys (fields.foldl (profileStep body) acc) := by
  induction fields generalizing acc with
  | nil => exact hacc
  | cons f fs ih =>
    apply ih
    by_cases hf : adminOnlyFields.contains f = true
    · have hstep : profileStep body acc f = acc := by
        unfold profileStep
        rw [hf]
        rfl
      rw [hstep]
      exact hacc
    · have hne : k ≠ f := by
        rintro rfl
        exact hf (by simpa using hk)
      have hf' : adminOnlyFields.contains f = false := by simpa using hf
      have hstep : profileStep body acc f = assign acc f (getProp body f) := by
        unfold profileStep
        rw [hf']
        rfl
      rw [hstep]
      unfold assign
      split
      · exact hacc
      · intro hm
        rcases mem_objectKeys_setOwn _ _ _ _ hm with h | h
        · exact hne h
        · exact hacc h

theorem profileUpdates_nodup (body : Obj) (fields : List String) (acc : Obj)
    (hacc : (objectKeys acc).Nodup) :
    (objectKeys (fields.foldl (profileStep body) acc)).Nodup := by
  induction fields generalizing acc with
  | nil => exact hacc
  | cons f fs ih =>
    refine ih (profileStep body acc f) ?_
    unfold profileStep assign
    split
    · split
      · exact hacc
      · exact nodup_objectKeys_setOwn _ _ _ hacc
    · exact hacc

theorem getOwn_profileUpdates (body : Obj) (fields : List String) (acc : Obj) (k : String)
    (hmem : k ∈ fields) (hadm : k ∉ adminOnlyFields) (hproto : k ≠ "__proto__") :
    getOwn (fields.foldl (profileStep body) acc) k = some (getProp body k) := by
  have hkeep : ∀ (fs : List String) (acc : Obj), getOwn acc k = some (getProp body k) →
      getOwn (fs.foldl (profileStep body) acc) k = some (getProp body k) := by
    intro fs
    induction fs with
    | nil => intro acc h; exact h
    | cons f fs ih =>
      intro acc h
      refine ih (profileStep body acc f) ?_
      unfold profileStep assign
      split
      · split
        · exact h
        · by_cases hkf : k = f
          · subst hkf
            exact getOwn_setOwn_self _ _ _
          · rw [getOwn_setOwn_ne _ _ _ _ hkf]
            exact h
      · exact h
  induction fields generalizing acc with
  | nil => simp at hmem
  | cons f fs ih =>
    by_cases hkf : k = f
    · subst hkf
      refine hkeep fs (profileStep body acc k) ?_
      have hc : adminOnlyFields.contains k = false := by simpa using hadm
      unfold profileStep assign
      rw [hc]
      simp only [Bool.not_false, if_true, hproto, if_false]
      exact getOwn_setOwn_self _ _ _
    · have hmem' : k ∈ fs := by
        rcases List.mem_cons.mp hmem with e | e
        · exact absurd e hkf
        · exact e
      exact ih _ hmem'

/-- Frame and effect of the profile update by a caller who is not an Admin: the
handler answers 200, writes the team-members collection with the member
replaced, the replacement has the member's own `employeeId`, `joinDate`,
`department`, `employmentType`, `role`, `name` and `email`, and every other
field of the payload, except one named `__proto__`, has the payload's value. -/
theorem putTeamMember_nonAdmin_frame (user : SessionUser) (targetUserId : Option Int)
    (body : Obj) (teamMembers : List Obj) (memberIndex : Nat) (member : Obj)
    (hedit : canEditUser user targetUserId = true)
    (hfind : findIndex (fun m => looseEqNum (getProp m "id") targetUserId) teamMembers
      = some (memberIndex, member))
    (hpos : normalizePosition user.position ≠ POSITIONS_ADMIN) :
    ∃ updated : Obj,
      putTeamMember user targetUserId body teamMembers =
        ⟨200, .record updated, [(.teamMembers, teamMembers.set memberIndex updated)]⟩ ∧
      (∀ k : String, k ∈ adminOnlyFields → getOwn updated k = getOwn member k) ∧
      (∀ (k : String) (v : JVal), getOwn body k = some v → k ∉ adminOnlyFields →
        k ≠ "__proto__" → getOwn updated k = some v) := by
  have hs : strictEq (normalizePosition user.position) POSITIONS_ADMIN = false := by
    simp [strictEq, hpos]
  refine ⟨spread member ((objectKeys body).foldl (profileStep body) []), ?_, ?_, ?_⟩
  · simp only [putTeamMember, hedit, hfind, hs]
    rfl
  · intro k hk
    exact getOwn_spread_of_not_mem _ _ _
      (profileUpdates_keys body (objectKeys body) [] k hk (by simp [objectKeys]))
  · intro k v hv hadm hproto
    have hval : getProp body k = v := by simp [getProp, hv]
    apply getOwn_spread_of_nodup _ _ _ _
      (profileUpdates_nodup body (objectKeys body) [] (by simp [objectKeys]))
    rw [getOwn_profileUpdates body (objectKeys body) [] k
      (mem_objectKeys_of_getOwn body k v hv) hadm hproto, hval]

/-- C4 (code defect): an Employee updates the own profile with a payload that
holds the fields `__proto__` and `phone`.  The loop copies the field with
`filteredUpdates[field] = req.body[field]`, which for `__proto__` reaches the
setter inherited from `Object.prototype` and stores nothing: the written record
has the new `phone` but no `__proto__` field.  The Admin branch, which spreads
the payload, stores both. -/
theorem putTeamMember_drops_proto_field :
    normalizePosition sampleEmployee.position ≠ POSITIONS_ADMIN ∧
    canEditUser sampleEmployee (some 3) = true ∧
    getOwn [("__proto__", .str "x"), ("phone", .str "555-0199")] "__proto__" = some (.str "x") ∧
    "__proto__" ∉ adminOnlyFields ∧
    putTeamMember sampleEmployee (some 3)
      [("__proto__", .str "x"), ("phone", .str "555-0199")] [sampleMember] =
      ⟨200,
       .record [("id", .num 3), ("name", .str "Mike Johnson"),
         ("email", .str "analyst@qa-team.com"), ("role", .str "QA Analyst"),
         ("availability", .str "available"), ("teamId", .num 1),
         ("joinDate", .str "2024-12-20"), ("phone", .str "555-0199")],
       [(.teamMembers, [[("id", .num 3), ("name", .str "Mike Johnson"),
         ("email", .str "analyst@qa-team.com"), ("role", .str "QA Analyst"),
         ("availability", .str "available"), ("teamId", .num 1),
         ("joinDate", .str "2024-12-20"), ("phone", .str "555-0199")]])]⟩ ∧
    putTeamMember sampleAdmin (some 3)
      [("__proto__", .str "x"), ("phone", .str "555-0199")] [sampleMember] =
      ⟨200,
       .record [("id", .num 3), ("name", .str "Mike Johnson"),
         ("email", .str "analyst@qa-team.com"), ("role", .str "QA Analyst"),
         ("availability", .str "available"), ("teamId", .num 1),
         ("joinDate", .str "2024-12-20"), ("phone", .str "555-0199"),
         ("__proto__", .str "x")],
       [(.teamMembers, [[("id", .num 3), ("name", .str "Mike Johnson"),
         ("email", .str "analyst@qa-team.com"), ("role", .str "QA Analyst"),
         ("availability", .str "available"), ("teamId", .num 1),
         ("joinDate", .str "2024-12-20"), ("phone", .str "555-0199"),
         ("__proto__", .str "x")]])]⟩ := by
  decide

/-- C5: `canEditUser` is true exactly when the actor's id equals the target id
under `==` or the actor's normalized position is `Admin`, and false in every
other case (it is a total function, it never fails);
`PUT /api/team-members/:id` answers 403 `Access denied`, with no write, exactly
when it is false.  The `==` of the source against the parsed target id is
spelled out by the type of the actor's id: a number equals the target when it
is that integer, a boolean when the target is 1 or 0, a string, and an array or
object through its string, when the string reads as that integer, `null`,
`undefined` and a function never, and nothing equals the `NaN` of an
unparsable target.  The last part evaluates the function on the sample
accounts, among them ids given as the strings `3`, `0x3`, `3.0`, `3e0`
and ` 3 `. -/
theorem canEditUser_iff (actor : SessionUser) (targetId : Option Int) :
    (canEditUser actor targetId = true ↔
      (looseEqNum actor.id targetId = true ∨
       normalizePosition actor.position = POSITIONS_ADMIN)) ∧
    (canEditUser actor targetId = false ↔
      ¬ (looseEqNum actor.id targetId = true ∨
         normalizePosition actor.position = POSITIONS_ADMIN)) ∧
    (∀ (body : Obj) (teamMembers : List Obj),
      ((putTeamMember actor targetId body teamMembers).status = 403 ↔
        canEditUser actor targetId = false) ∧
      (canEditUser actor targetId = false →
        putTeamMember actor targetId body teamMembers =
          ⟨403, .error "Access denied", []⟩)) ∧
    ((∀ n : Int, actor.id = .num n → (looseEqNum actor.id targetId = true ↔ targetId = some n)) ∧
      (∀ b : Bool, actor.id = .bool b →
        (looseEqNum actor.id targetId = true ↔ targetId = some (if b then 1 else 0))) ∧
      (∀ s : String, actor.id = .str s →
        (looseEqNum actor.id targetId = true ↔
          ∃ k : Int, targetId = some k ∧ (stringToNumber s).toInt? = some k)) ∧
      (∀ (r : Nat) (text : String) (length : JVal), actor.id = .compound r text length →
        (looseEqNum actor.id targetId = true ↔
          ∃ k : Int, targetId = some k ∧ (stringToNumber text).toInt? = some k)) ∧
      (actor.id = .null ∨ actor.id = .undefined ∨ (∃ m, actor.id = .builtin m) →
        looseEqNum actor.id targetId = false) ∧
      (targetId = none → looseEqNum actor.id targetId = false)) ∧
    (canEditUser sampleEmployee (some 3) = true ∧
      canEditUser sampleEmployee (some 4) = false ∧
      canEditUser sampleEmployee none = false ∧
      canEditUser sampleAdmin (some 4) = true ∧
      canEditUser { sampleEmployee with id := .str "3" } (some 3) = true ∧
      canEditUser { sampleEmployee with id := .str "0x3" } (some 3) = true ∧
      canEditUser { sampleEmployee with id := .str "3.0" } (some 3) = true ∧
      canEditUser { sampleEmployee with id := .str "3e0" } (some 3) = true ∧
      canEditUser { sampleEmployee with id := .str " 3 " } (some 3) = true ∧
      canEditUser { sampleEmployee with id := .str "3.5" } (some 3) = false ∧
      canEditUser { sampleEmployee with id := .str "three" } (some 3) = false ∧
      canEditUser { sampleEmployee with id := .bool true } (some 1) = true ∧
      canEditUser { sampleEmployee with id := .null } (some 0) = false ∧
      canEditUser { sampleEmployee with id := .compound 5 "3" (.num 1) } (some 3) = true) := by
  have h₁ : canEditUser actor targetId = true ↔
      (looseEqNum actor.id targetId = true ∨
       normalizePosition actor.position = POSITIONS_ADMIN) := by
    unfold canEditUser
    by_cases hl : looseEqNum actor.id targetId = true
    · simp [hl]
    · by_cases hp : normalizePosition actor.position = POSITIONS_ADMIN
      · simp [hl, hp, strictEq]
      · simp [hl, hp, strictEq]
  refine ⟨h₁, ?_, ?_, ?_, by decide⟩
  · rw [← h₁]
    simp
  · intro body teamMembers
    by_cases hc : canEditUser actor targetId = true
    · refine ⟨?_, ?_⟩
      · have hne : (putTeamMember actor targetId body teamMembers).status ≠ 403 := by
          simp only [putTeamMember, hc]
          cases findIndex (fun m => looseEqNum (getProp m "id") targetId) teamMembers with
          | none => simp
          | some r => simp
        simp [hne, hc]
      · intro hf
        rw [hc] at hf
        exact absurd hf (by decide)
    · have hf : canEditUser actor targetId = false := by simpa using hc
      have hout : putTeamMember actor targetId body teamMembers =
          ⟨403, .error "Access denied", []⟩ := by
        simp [putTeamMember, hf]
      exact ⟨by simp [hout, hf], fun _ => hout⟩
  · refine ⟨?_, ?_, ?_, ?_, ?_, ?_⟩
    · intro n hn
      rw [hn]
      cases targetId with
      | none => simp [looseEqNum]
      | some k => simp [looseEqNum, eq_comm]
    · intro b hb
      rw [hb]
      cases targetId with
      | none => simp [looseEqNum]
      | some k => simp [looseEqNum, eq_comm]
    · intro s hs
      rw [hs]
      cases targetId with
      | none => simp [looseEqNum]
      | some k => simp [looseEqNum]
    · intro r text length hc
      rw [hc]
      cases targetId with
      | none => simp [looseEqNum]
      | some k => simp [looseEqNum]
    · rintro (h | h | ⟨m, h⟩) <;> rw [h] <;> cases targetId <;> rfl
    · intro h
      rw [h]
      rfl

/-! ## Listings -/

/-- C9: `GET /api/tasks` answers the whole collection, in stored order, when
the caller's normalized position is `Admin`, and otherwise the tasks whose
`assignedTo` is the caller's id, in stored order; of five tasks with two
assigned to an Employee, the Employee gets those two and an Admin all five. -/
theorem getTasks_visibility (user : SessionUser) (tasks : List Obj) :
    getTasks user tasks =
      ⟨200,
       .records (if normalizePosition user.position = POSITIONS_ADMIN then tasks
         else tasks.filter (fun task => decide (getProp task "assignedTo" = user.id))),
       []⟩ ∧
    getTasks sampleEmployee fiveTasks =
      ⟨200,
       .records
         [[("id", .num 12), ("title", .str "UI Regression Testing"), ("assignedTo", .num 3)],
          [("id", .num 14), ("title", .str "Release Checklist"), ("assignedTo", .num 3)]],
       []⟩ ∧
    getTasks sampleAdmin fiveTasks = ⟨200, .records fiveTasks, []⟩ := by
  refine ⟨?_, by decide, by decide⟩
  unfold getTasks canViewAllData strictEq
  by_cases h : normalizePosition user.position = POSITIONS_ADMIN
  · simp [h]
  · simp [h]

theorem getProp_enrichWorkLog_memberId (users : List Obj) (log : Obj) :
    getProp (enrichWorkLog users log) "memberId" = getProp log "memberId" := by
  have h : getOwn (enrichWorkLog users log) "memberId" = getOwn log "memberId" :=
    getOwn_setOwn_ne log "memberId" "memberName" _ (by decide)
  unfold getProp
  rw [h]

/-- C10: `GET /api/work-logs` answers every log, in stored order, when the
caller's normalized position is `Admin`, and otherwise the logs whose
`memberId` is the caller's id; each log answered is the stored log with
`memberName` set to the name of the user whose id is the log's `memberId`, or
to `Unknown User` when there is none, and with every other property as
stored. -/
theorem getWorkLogs_visibility (user : SessionUser) (workLogs users : List Obj) :
    getWorkLogs user workLogs users =
      ⟨200,
       .records ((if normalizePosition user.position = POSITIONS_ADMIN then workLogs
         else workLogs.filter (fun log => decide (getProp log "memberId" = user.id))).map
           (enrichWorkLog users)),
       []⟩ ∧
    ∀ log : Obj,
      (∀ k : String, k ≠ "memberName" →
        getOwn (enrichWorkLog users log) k = getOwn log k) ∧
      getOwn (enrichWorkLog users log) "memberName" =
        some (match users.find? (fun u => decide (getProp u "id" = getProp log "memberId")) with
          | some u => getProp u "name"
          | none => .str "Unknown User") := by
  refine ⟨?_, fun log => ⟨fun k hk => getOwn_setOwn_ne log k "memberName" _ hk,
    getOwn_setOwn_self log "memberName" _⟩⟩
  unfold getWorkLogs canViewAllData
  by_cases h : normalizePosition user.position = POSITIONS_ADMIN
  · simp [h, strictEq]
  · have hs : strictEq (normalizePosition user.position) POSITIONS_ADMIN = false := by
      simp [strictEq, h]
    simp only [hs, Bool.false_eq_true, if_false, h, List.filter_map]
    have hfun : ((fun log => strictEq (getProp log "memberId") user.id) ∘ enrichWorkLog users)
        = fun log => decide (getProp log "memberId" = user.id) := by
      funext log
      simp [Function.comp, getProp_enrichWorkLog_memberId, strictEq]
    rw [hfun]

/-! ## Work-log creation -/

/-- C11 (as stated, refuted): an Admin logs work for a `memberId` that differs
from the Admin's id and belongs to no user; the request is answered 400 and
nothing is written. -/
theorem postWorkLog_admin_unknown_member :
    normalizePosition sampleAdmin.position = POSITIONS_ADMIN ∧
    getProp [("memberId", .num 99), ("hours", .num 2)] "memberId" ≠ sampleAdmin.id ∧
    postWorkLog sampleAdmin [("memberId", .num 99), ("hours", .num 2)] [] defaultUsers
      sampleClock = ⟨400, .error "Target user not found", []⟩ := by
  decide

/-- C11 (amended): for a `memberId` that differs from the caller's id, a
caller whose normalized position is not `Admin` is answered 403 with no write;
an Admin is answered 200 and the new log, the body with `id`, `loggedBy`,
`date` and `timestamp` set, is appended to the collection when some user's id
equals `memberId` under `==`, and is answered 400 with no write when none
does.  The last part states what `==` is on the ids met here: equality on two
numbers and on two strings, the number read from the string between a number
and a string, and `undefined` equal to `undefined` and `null` only. -/
theorem postWorkLog_other_member (user : SessionUser) (body : Obj) (workLogs users : List Obj)
    (clock : Clock) (hother : getProp body "memberId" ≠ user.id) :
    (normalizePosition user.position ≠ POSITIONS_ADMIN →
      postWorkLog user body workLogs users clock = ⟨403, .error "Access denied", []⟩) ∧
    (normalizePosition user.position = POSITIONS_ADMIN →
      (∃ u ∈ users, looseEq (getProp u "id") (getProp body "memberId") = true) →
      postWorkLog user body workLogs users clock =
        ⟨200,
         .record (setOwn (setOwn (setOwn (spread [("id", .num clock.now)] body)
           "loggedBy" user.id) "date" (.str clock.date)) "timestamp" (.str clock.timestamp)),
         [(.workLogs, workLogs ++
           [setOwn (setOwn (setOwn (spread [("id", .num clock.now)] body)
             "loggedBy" user.id) "date" (.str clock.date)) "timestamp"
             (.str clock.timestamp)])]⟩) ∧
    (normalizePosition user.position = POSITIONS_ADMIN →
      (∀ u ∈ users, looseEq (getProp u "id") (getProp body "memberId") = false) →
      postWorkLog user body workLogs users clock =
        ⟨400, .error "Target user not found", []⟩) ∧
    ((∀ n k : Int, looseEq (.num n) (.num k) = true ↔ n = k) ∧
      (∀ s t : String, looseEq (.str s) (.str t) = true ↔ s = t) ∧
      (∀ (n : Int) (s : String),
        looseEq (.num n) (.str s) = true ↔ (stringToNumber s).toInt? = some n) ∧
      (∀ v : JVal, looseEq v .undefined = true ↔ v = .undefined ∨ v = .null)) := by
  have hne : strictEq (getProp body "memberId") user.id = false := by
    simp [strictEq, hother]
  refine ⟨?_, ?_, ?_, ?_⟩
  · intro hpos
    have hs : strictEq (normalizePosition user.position) POSITIONS_ADMIN = false := by
      simp [strictEq, hpos]
    simp [postWorkLog, hs, hne]
  · intro hpos hex
    have hs : strictEq (normalizePosition user.position) POSITIONS_ADMIN = true := by
      simp [strictEq, hpos]
    have hfind : (users.find? (fun u => looseEq (getProp u "id") (getProp body "memberId"))).isNone
        = false := by
      obtain ⟨u, hu, hl⟩ := hex
      cases hf : users.find? (fun u => looseEq (getProp u "id") (getProp body "memberId")) with
      | some _ => rfl
      | none =>
        have := List.find?_eq_none.mp hf u hu
        exact absurd hl this
    simp [postWorkLog, hs, hne, hfind]
  · intro hpos hall
    have hs : strictEq (normalizePosition user.position) POSITIONS_ADMIN = true := by
      simp [strictEq, hpos]
    have hfind : users.find? (fun u => looseEq (getProp u "id") (getProp body "memberId"))
        = none := by
      apply List.find?_eq_none.mpr
      intro u hu
      simp [hall u hu]
    simp [postWorkLog, hs, hne, hfind]
  · refine ⟨?_, ?_, ?_, ?_⟩
    · intro n k; simp [looseEq]
    · intro s t; simp [looseEq]
    · intro n s
      simp only [looseEq, toNumber]
      cases (stringToNumber s).toInt? with
      | none => simp
      | some k => simp [eq_comm]
    · intro v
      cases v <;> simp [looseEq]

/-- Witness of `postWorkLog_other_member`: for user 2 the sample employee is
answered 403 and the sample admin 200, with the log appended, also when the
body names the member as the string `0x2`; for the unknown member 99 the admin
is answered 400. -/
theorem postWorkLog_other_member_witness :
    getProp [("memberId", JVal.num 2)] "memberId" ≠ sampleEmployee.id ∧
    postWorkLog sampleEmployee [("memberId", .num 2)] [] defaultUsers sampleClock =
      ⟨403, .error "Access denied", []⟩ ∧
    postWorkLog sampleAdmin [("memberId", .num 2), ("hours", .num 4)] [] defaultUsers
        sampleClock =
      ⟨200,
       .record [("id", .num 1736500000000), ("memberId", .num 2), ("hours", .num 4),
         ("loggedBy", .num 1), ("date", .str "2025-01-10"),
         ("timestamp", .str "2025-01-10T09:06:40.000Z")],
       [(.workLogs, [[("id", .num 1736500000000), ("memberId", .num 2), ("hours", .num 4),
         ("loggedBy", .num 1), ("date", .str "2025-01-10"),
         ("timestamp", .str "2025-01-10T09:06:40.000Z")]])]⟩ ∧
    postWorkLog sampleAdmin [("memberId", .str "0x2"), ("hours", .num 4)] [] defaultUsers
        sampleClock =
      ⟨200,
       .record [("id", .num 1736500000000), ("memberId", .str "0x2"), ("hours", .num 4),
         ("loggedBy", .num 1), ("date", .str "2025-01-10"),
         ("timestamp", .str "2025-01-10T09:06:40.000Z")],
       [(.workLogs, [[("id", .num 1736500000000), ("memberId", .str "0x2"), ("hours", .num 4),
         ("loggedBy", .num 1), ("date", .str "2025-01-10"),
         ("timestamp", .str "2025-01-10T09:06:40.000Z")]])]⟩ ∧
    postWorkLog sampleAdmin [("memberId", .num 99)] [] defaultUsers sampleClock =
      ⟨400, .error "Target user not found", []⟩ :=
  ⟨by decide,
   (postWorkLog_other_member sampleEmployee [("memberId", .num 2)] [] defaultUsers sampleClock
     (by decide)).1 (by decide),
   (postWorkLog_other_member sampleAdmin [("memberId", .num 2), ("hours", .num 4)] []
     defaultUsers sampleClock (by decide)).2.1 (by decide) (by decide),
   (postWorkLog_other_member sampleAdmin [("memberId", .str "0x2"), ("hours", .num 4)] []
     defaultUsers sampleClock (by decide)).2.1 (by decide) (by decide),
   (postWorkLog_other_member sampleAdmin [("memberId", .num 99)] [] defaultUsers sampleClock
     (by decide)).2.2.1 (by decide) (by decide)⟩

/-! ## Session registry -/

theorem sessionsGet_sessionsDelete (sessions : Sessions) (token : String) :
    sessionsGet (sessionsDelete sessions token) token = none := by
  induction sessions with
  | nil => rfl
  | cons entry rest ih =>
    obtain ⟨t, s⟩ := entry
    by_cases h : t = token
    · have hstep : sessionsDelete ((t, s) :: rest) token = sessionsDelete rest token := by
        simp [sessionsDelete, List.filter_cons, h]
      rw [hstep]
      exact ih
    · have hstep : sessionsDelete ((t, s) :: rest) token = (t, s) :: sessionsDelete rest token := by
        simp [sessionsDelete, List.filter_cons, h]
      have hb : (token == t) = false := by simpa using fun e : token = t => h e.symm
      rw [hstep]
      simpa [sessionsGet, List.lookup, hb] using ih

theorem sessionsGet_sessionsSet (sessions : Sessions) (token : String) (session : Session) :
    sessionsGet (sessionsSet sessions token session) token = some session := by
  induction sessions with
  | nil => simp [sessionsSet, sessionsGet, List.lookup]
  | cons entry rest ih =>
    obtain ⟨t, s⟩ := entry
    by_cases h : t = token
    · simp [sessionsSet, h, sessionsGet, List.lookup]
    · have hb : (token == t) = false := by simpa using fun e : token = t => h e.symm
      simpa [sessionsSet, h, sessionsGet, List.lookup, hb] using ih

/-- C12: in a registry that holds no session under the empty string (a key
is the 64 hexadecimal digits of `generateSessionToken`), a session whose
`expires` is earlier than the current time makes `authenticateToken` answer 401
and delete the token, which is absent from the registry afterwards; a token
with no session is answered 401 and is absent afterwards as well, and so is a
request with no token. -/
theorem authenticateToken_rejects (sessions : Sessions) (token : String) (now : Int)
    (hkeys : sessionsGet sessions "" = none) :
    (∀ session : Session, sessionsGet sessions token = some session → session.expires < now →
      authenticateToken (some token) sessions now =
        (.reject 401 "Invalid or expired token", sessionsDelete sessions token)) ∧
    sessionsGet (sessionsDelete sessions token) token = none ∧
    (sessionsGet sessions token = none →
      ∃ msg : String,
        (authenticateToken (some token) sessions now).1 = .reject 401 msg ∧
        sessionsGet (authenticateToken (some token) sessions now).2 token = none) ∧
    authenticateToken none sessions now = (.reject 401 "Access token required", sessions) := by
  refine ⟨?_, sessionsGet_sessionsDelete sessions token, ?_, rfl⟩
  · intro session hget hexp
    have htoken : token ≠ "" := by
      rintro rfl
      rw [hkeys] at hget
      exact absurd hget (by simp)
    simp [authenticateToken, htoken, hget, hexp]
  · intro hget
    by_cases htoken : token = ""
    · exact ⟨"Access token required", by simp [authenticateToken, htoken],
        by simpa [authenticateToken, htoken] using hkeys⟩
    · exact ⟨"Invalid or expired token", by simp [authenticateToken, htoken, hget],
        by simpa [authenticateToken, htoken, hget] using
          sessionsGet_sessionsDelete sessions token⟩

/-- Witness of `authenticateToken_rejects`: a registry with one session that
expired at time 100, looked up at time 200. -/
theorem authenticateToken_rejects_witness :
    (∀ session : Session,
      sessionsGet [("ab12", ⟨sampleEmployee, 100⟩)] "ab12" = some session →
      session.expires < 200 →
      authenticateToken (some "ab12") [("ab12", ⟨sampleEmployee, 100⟩)] 200 =
        (.reject 401 "Invalid or expired token",
          sessionsDelete [("ab12", ⟨sampleEmployee, 100⟩)] "ab12")) ∧
    sessionsGet (sessionsDelete [("ab12", ⟨sampleEmployee, 100⟩)] "ab12") "ab12" = none ∧
    (sessionsGet [("ab12", ⟨sampleEmployee, 100⟩)] "ab12" = none →
      ∃ msg : String,
        (authenticateToken (some "ab12") [("ab12", ⟨sampleEmployee, 100⟩)] 200).1 =
          .reject 401 msg ∧
        sessionsGet (authenticateToken (some "ab12") [("ab12", ⟨sampleEmployee, 100⟩)] 200).2
          "ab12" = none) ∧
    authenticateToken none [("ab12", ⟨sampleEmployee, 100⟩)] 200 =
      (.reject 401 "Access token required", [("ab12", ⟨sampleEmployee, 100⟩)]) :=
  authenticateToken_rejects [("ab12", ⟨sampleEmployee, 100⟩)] "ab12" 200 (by decide)

/-- C13: a login answered 200 at time `now` has stored, under the token it
returns, a session whose `expires` is `now + 86400000`, and has made no other
change than that `sessions.set`; and a lookup by `authenticateToken` that calls
`next()` leaves the registry as it was. -/
theorem login_session_expires (body : Obj) (users : List Obj) (sessions : Sessions) (now : Int)
    (token : String) (hok : (login body users sessions now token).status = 200) :
    (∃ user : Obj,
      login body users sessions now token =
        ⟨200, .success token (loginSessionUser user),
          sessionsSet sessions token ⟨loginSessionUser user, now + 86400000⟩, []⟩ ∧
      sessionsGet (login body users sessions now token).sessions token =
        some ⟨loginSessionUser user, now + 86400000⟩) ∧
    ∀ (t : Option String) (registry : Sessions) (time : Int) (user : SessionUser)
      (after : Sessions),
      authenticateToken t registry time = (.next user, after) →
        after = registry ∧ ∃ s : Session, t.bind (sessionsGet registry) = some s ∧
          s.user = user ∧ time ≤ s.expires := by
  refine ⟨?_, ?_⟩
  · by_cases hvalid : (!truthy (getProp body "email") || !truthy (getProp body "password")) = true
    · simp [login, hvalid] at hok
    · cases hfind : findThrowing (loginMatch (getProp body "email")) users with
      | none => simp [login, hvalid, hfind] at hok
      | some found =>
        cases found with
        | none => simp [login, hvalid, hfind] at hok
        | some user =>
          cases hver : verifyPassword (getProp body "password") (getProp user "password") with
          | none => simp [login, hvalid, hfind, hver] at hok
          | some ok =>
            cases ok with
            | false => simp [login, hvalid, hfind, hver] at hok
            | true =>
              have hout : login body users sessions now token =
                  ⟨200, .success token (loginSessionUser user),
                    sessionsSet sessions token ⟨loginSessionUser user, now + 86400000⟩, []⟩ := by
                simp [login, hvalid, hfind, hver]
              refine ⟨user, hout, ?_⟩
              rw [hout]
              exact sessionsGet_sessionsSet sessions token _
  · intro t registry time user after h
    unfold authenticateToken at h
    cases t with
    | none => simp at h
    | some tok =>
      simp only at h
      split at h
      · simp at h
      · split at h
        · simp at h
        · rename_i session hget
          split at h
          · simp at h
          · rename_i hexp
            simp only [Prod.mk.injEq, AuthResult.next.injEq] at h
            refine ⟨h.2.symm, session, by simpa using hget, h.1, by omega⟩

/-- Witness of `login_session_expires`: the bootstrap administrator logs in
with the default password at time 1000. -/
theorem login_session_expires_witness :
    (∃ user : Obj,
      login [("email", .str "Admin@QA-Team.com"), ("password", .str "admin123")] defaultUsers []
          1000 "ab12" =
        ⟨200, .success "ab12" (loginSessionUser user),
          sessionsSet [] "ab12" ⟨loginSessionUser user, 1000 + 86400000⟩, []⟩ ∧
      sessionsGet (login [("email", .str "Admin@QA-Team.com"), ("password", .str "admin123")]
          defaultUsers [] 1000 "ab12").sessions "ab12" =
        some ⟨loginSessionUser user, 1000 + 86400000⟩) ∧
    ∀ (t : Option String) (registry : Sessions) (time : Int) (user : SessionUser)
      (after : Sessions),
      authenticateToken t registry time = (.next user, after) →
        after = registry ∧ ∃ s : Session, t.bind (sessionsGet registry) = some s ∧
          s.user = user ∧ time ≤ s.expires :=
  login_session_expires [("email", .str "Admin@QA-Team.com"), ("password", .str "admin123")]
    defaultUsers [] 1000 "ab12" (by decide)

/-! ## Login and password change -/

/-- The user object of a successful login response is the snapshot built from
a record of the Users collection. -/
theorem login_success_user (body : Obj) (users : List Obj) (sessions : Sessions) (now : Int)
    (token tok : String) (u : SessionUser)
    (h : (login body users sessions now token).body = .success tok u) :
    ∃ user : Obj, u = loginSessionUser user := by
  by_cases hvalid : (!truthy (getProp body "email") || !truthy (getProp body "password")) = true
  · simp [login, hvalid] at h
  · cases hfind : findThrowing (loginMatch (getProp body "email")) users with
    | none => simp [login, hvalid, hfind] at h
    | some found =>
      cases found with
      | none => simp [login, hvalid, hfind] at h
      | some user =>
        cases hver : verifyPassword (getProp body "password") (getProp user "password") with
        | none => simp [login, hvalid, hfind, hver] at h
        | some ok =>
          cases ok with
          | false => simp [login, hvalid, hfind, hver] at h
          | true =>
            simp [login, hvalid, hfind, hver] at h
            exact ⟨user, h.2.symm⟩

/-- C19 (code defect): John Doe is a default team member without a user.
After the reconciliation, a login with his email and the password `hello123`,
which the code names as the default, is answered 401, because the stored
default hash is not the hash of `hello123` (it is the hash of `foobar`).  A
login with `foobar` is answered 200, and the user object of the response has no
`needsPasswordReset`: no login response has one. -/
theorem login_after_sync_default_credential :
    (∃ m ∈ defaultTeamMembers, getProp m "email" = .str "john.doe@company.com" ∧
      ∀ u ∈ defaultUsers, getProp u "email" ≠ getProp m "email") ∧
    sha256 "hello123" ≠ DEFAULT_PASSWORD_HASH ∧
    sha256 "foobar" = DEFAULT_PASSWORD_HASH ∧
    login [("email", .str "john.doe@company.com"), ("password", .str "hello123")]
      syncedDefaultUsers [] 1000 "ab12" = ⟨401, .error "Invalid credentials", [], []⟩ ∧
    (login [("email", .str "john.doe@company.com"), ("password", .str "foobar")]
      syncedDefaultUsers [] 1000 "ab12").body =
      .success "ab12"
        { id := .num 1, email := .str "john.doe@company.com", name := .str "John Doe",
          role := .str "Senior QA Engineer", position := .str "Admin", teamId := .num 1,
          needsPasswordReset := .undefined } ∧
    ∀ (body : Obj) (users : List Obj) (sessions : Sessions) (now : Int) (token tok : String)
      (u : SessionUser),
      (login body users sessions now token).body = .success tok u →
        u.needsPasswordReset = .undefined := by
  refine ⟨by decide, by decide, by decide, by decide, by decide, ?_⟩
  intro body users sessions now token tok u h
  obtain ⟨user, rfl⟩ := login_success_user body users sessions now token tok u h
  rfl

/-- C20 (code defect): the handler of `POST /api/auth/change-password` calls
`bcrypt.compareSync`, and `bcrypt` is not defined.  No request is answered 200,
none writes the Users collection or registers a token; a request with the right
current password and one with a wrong current password are both answered 500. -/
theorem changePassword_never_succeeds (user : SessionUser) (body : Obj) (users : List Obj)
    (sessions : Sessions) (now : Int) (token : String) :
    (changePassword user body users sessions now token).status ≠ 200 ∧
    (changePassword user body users sessions now token).writes = [] ∧
    (changePassword user body users sessions now token).sessions = sessions ∧
    verifyPassword (.str "admin123") (getProp defaultAdminUser "password") = some true ∧
    changePassword sampleAdmin
      [("currentPassword", .str "admin123"), ("newPassword", .str "secret99")]
      [defaultAdminUser] [] 1000 "ab12" =
      ⟨500, .error "Internal server error while changing password", [], []⟩ ∧
    changePassword sampleAdmin
      [("currentPassword", .str "wrong-password"), ("newPassword", .str "secret99")]
      [defaultAdminUser] [] 1000 "ab12" =
      ⟨500, .error "Internal server error while changing password", [], []⟩ := by
  have key : ∃ (st : Nat) (msg : String), st ≠ 200 ∧
      changePassword user body users sessions now token = ⟨st, .error msg, sessions, []⟩ := by
    by_cases h₁ : (!truthy (getProp body "currentPassword") ||
        !truthy (getProp body "newPassword")) = true
    · exact ⟨400, "Current password and new password are required", by decide,
        by simp [changePassword, h₁]⟩
    · by_cases h₂ : lessThanInt (jsLength (getProp body "newPassword")) 6 = true
      · exact ⟨400, "New password must be at least 6 characters long", by decide,
          by simp [changePassword, h₁, h₂]⟩
      · cases hfind : findIndex (fun u => strictEq (getProp u "id") user.id) users with
        | none =>
          exact ⟨404, "User not found", by decide, by simp [changePassword, h₁, h₂, hfind]⟩
        | some r =>
          exact ⟨500, "Internal server error while changing password", by decide,
            by simp [changePassword, h₁, h₂, hfind, bcryptCompareSync]⟩
  obtain ⟨st, msg, hst, hout⟩ := key
  refine ⟨?_, ?_, ?_, by decide, by decide, by decide⟩
  · rw [hout]; exact hst
  · rw [hout]
  · rw [hout]

/-! ## Reconciliation: the two synthesis loops -/

theorem hasEmail_iff (e : JVal) (x : Obj) : hasEmail e x = true ↔ getProp x "email" = e := by
  simp [hasEmail, strictEq]

theorem hasEmail_eq_false_iff (e : JVal) (x : Obj) :
    hasEmail e x = false ↔ getProp x "email" ≠ e := by
  simp [hasEmail, strictEq]

theorem email_newUserOf (today : String) (m : Obj) :
    getProp (newUserOf today m) "email" = getProp m "email" := rfl

theorem email_newMemberOf (today : String) (u : Obj) :
    getProp (newMemberOf today u) "email" = getProp u "email" := rfl

theorem findIndex_cons_of_false {α : Type} (p : α → Bool) (x : α) (l : List α) (i : Nat)
    (y : α) (hx : p x = false) (h : findIndex p l = some (i, y)) :
    findIndex p (x :: l) = some (i + 1, y) := by
  simp [findIndex, hx, h]

theorem findIndex_cons_of_true {α : Type} (p : α → Bool) (x : α) (l : List α)
    (hx : p x = true) : findIndex p (x :: l) = some (0, x) := by
  simp [findIndex, hx]

theorem createUserStep_eq (today : String) :
    createUserStep today = synthStep (fun _ => false) (newUserOf today) := by
  funext state member
  simp [createUserStep, synthStep]

theorem createMemberStep_eq (today : String) :
    createMemberStep today =
      synthStep (fun u => strictEq (getProp u "email") ADMIN_EMAIL) (newMemberOf today) := by
  funext state user
  simp [createMemberStep, synthStep]

theorem find?_hasEmail_none (e : JVal) (l : List Obj) (h : l.find? (hasEmail e) = none) :
    ∀ t ∈ l, getProp t "email" ≠ e := by
  intro t ht
  have := List.find?_eq_none.mp h t ht
  simpa [hasEmail, strictEq] using this

theorem find?_hasEmail_some (e : JVal) (l : List Obj) (t : Obj)
    (h : l.find? (hasEmail e) = some t) : t ∈ l ∧ getProp t "email" = e := by
  refine ⟨List.mem_of_find?_eq_some h, ?_⟩
  have := List.find?_some h
  simpa [hasEmail, strictEq] using this

/-- The effect of a synthesis loop: the target array grows by the records
`added`; each of them is built from a loop entry that is not skipped and whose
email no target record had; for every such entry the record built from the
first entry with that email was added; no two added records share an email;
and the flag is raised exactly when a record was added. -/
theorem synth_fold (skip : Obj → Bool) (mk : Obj → Obj)
    (hmk : ∀ x, getProp (mk x) "email" = getProp x "email")
    (hskip : ∀ x y, getProp x "email" = getProp y "email" → skip x = skip y)
    (xs ts : List Obj) (flag : Bool) :
    ∃ added : List Obj,
      xs.foldl (synthStep skip mk) (ts, flag) = (ts ++ added, flag || !added.isEmpty) ∧
      (∀ a ∈ added, ∃ x ∈ xs, a = mk x ∧ skip x = false ∧
        ∀ t ∈ ts, getProp t "email" ≠ getProp x "email") ∧
      (∀ x ∈ xs, skip x = false → (∀ t ∈ ts, getProp t "email" ≠ getProp x "email") →
        ∃ (i : Nat) (x₀ : Obj),
          findIndex (hasEmail (getProp x "email")) xs = some (i, x₀) ∧ mk x₀ ∈ added) ∧
      added.Pairwise (fun a b => getProp a "email" ≠ getProp b "email") := by
  induction xs generalizing ts flag with
  | nil => exact ⟨[], by simp, by simp, by simp, List.Pairwise.nil⟩
  | cons x₁ rest ih =>
    -- entries of the rest can be looked up past an entry with another email
    have shift : ∀ (added : List Obj) (x : Obj), getProp x₁ "email" ≠ getProp x "email" →
        (∃ (i : Nat) (x₀ : Obj),
          findIndex (hasEmail (getProp x "email")) rest = some (i, x₀) ∧ mk x₀ ∈ added) →
        ∃ (i : Nat) (x₀ : Obj),
          findIndex (hasEmail (getProp x "email")) (x₁ :: rest) = some (i, x₀) ∧
            mk x₀ ∈ added := by
      intro added x hne ⟨i, x₀, hfind, hmem⟩
      exact ⟨i + 1, x₀, findIndex_cons_of_false _ _ _ _ _
        ((hasEmail_eq_false_iff _ _).mpr hne) hfind, hmem⟩
    -- the step leaves the state alone
    have unchanged : synthStep skip mk (ts, flag) x₁ = (ts, flag) →
        (∀ x ∈ x₁ :: rest, skip x = false →
          (∀ t ∈ ts, getProp t "email" ≠ getProp x "email") →
          getProp x₁ "email" ≠ getProp x "email") →
        ∃ added : List Obj,
          (x₁ :: rest).foldl (synthStep skip mk) (ts, flag) =
            (ts ++ added, flag || !added.isEmpty) ∧
          (∀ a ∈ added, ∃ x ∈ x₁ :: rest, a = mk x ∧ skip x = false ∧
            ∀ t ∈ ts, getProp t "email" ≠ getProp x "email") ∧
          (∀ x ∈ x₁ :: rest, skip x = false →
            (∀ t ∈ ts, getProp t "email" ≠ getProp x "email") →
            ∃ (i : Nat) (x₀ : Obj),
              findIndex (hasEmail (getProp x "email")) (x₁ :: rest) = some (i, x₀) ∧
                mk x₀ ∈ added) ∧
          added.Pairwise (fun a b => getProp a "email" ≠ getProp b "email") := by
      intro hstep hother
      obtain ⟨added, hfold, hsrc, hall, hpair⟩ := ih ts flag
      refine ⟨added, ?_, ?_, ?_, hpair⟩
      · rw [List.foldl_cons, hstep]
        exact hfold
      · intro a ha
        obtain ⟨x, hx, hrest⟩ := hsrc a ha
        exact ⟨x, List.mem_cons_of_mem _ hx, hrest⟩
      · intro x hx hsk hno
        have hne := hother x hx hsk hno
        have hx' : x ∈ rest := by
          rcases List.mem_cons.mp hx with e | e
          · exact absurd (by rw [e]) hne
          · exact e
        exact shift added x hne (hall x hx' hsk hno)
    by_cases hs : skip x₁ = true
    · apply unchanged
      · simp [synthStep, hs]
      · intro x _ hsk _ he
        have := hskip x₁ x he
        rw [hs, hsk] at this
        exact absurd this (by decide)
    · have hs' : skip x₁ = false := by simpa using hs
      cases hfind : ts.find? (hasEmail (getProp x₁ "email")) with
      | some t =>
        apply unchanged
        · simp [synthStep, hs', hfind]
        · intro x _ _ hno he
          obtain ⟨ht, hte⟩ := find?_hasEmail_some _ _ _ hfind
          exact hno t ht (hte.trans he)
      | none =>
        have hnone := find?_hasEmail_none _ _ hfind
        have hstep : synthStep skip mk (ts, flag) x₁ = (ts ++ [mk x₁], true) := by
          simp [synthStep, hs', hfind]
        obtain ⟨added, hfold, hsrc, hall, hpair⟩ := ih (ts ++ [mk x₁]) true
        refine ⟨mk x₁ :: added, ?_, ?_, ?_, ?_⟩
        · rw [List.foldl_cons, hstep, hfold]
          simp
        · intro a ha
          rcases List.mem_cons.mp ha with e | e
          · exact ⟨x₁, List.mem_cons_self _ _, e, hs', hnone⟩
          · obtain ⟨x, hx, hax, hsk, hno⟩ := hsrc a e
            exact ⟨x, List.mem_cons_of_mem _ hx, hax, hsk,
              fun t ht => hno t (List.mem_append_left _ ht)⟩
        · intro x hx hsk hno
          by_cases he : getProp x₁ "email" = getProp x "email"
          · exact ⟨0, x₁, findIndex_cons_of_true _ _ _ ((hasEmail_iff _ _).mpr he),
              List.mem_cons_self _ _⟩
          · have hx' : x ∈ rest := by
              rcases List.mem_cons.mp hx with e | e
              · exact absurd (by rw [e]) he
              · exact e
            have hno' : ∀ t ∈ ts ++ [mk x₁], getProp t "email" ≠ getProp x "email" := by
              intro t ht
              rcases List.mem_append.mp ht with h | h
              · exact hno t h
              · rw [List.mem_singleton.mp h, hmk]
                exact he
            obtain ⟨i, x₀, hfi, hmem⟩ := shift added x he (hall x hx' hsk hno')
            exact ⟨i, x₀, hfi, List.mem_cons_of_mem _ hmem⟩
        · refine List.Pairwise.cons ?_ hpair
          intro a ha
          obtain ⟨x, _, hax, _, hno⟩ := hsrc a ha
          rw [hax, hmk, hmk]
          exact hno (mk x₁) (by simp) |> fun h => by rwa [hmk] at h

/-! ## Reconciliation: the id loop -/

theorem findIndex_eq_some_iff {α : Type} (p : α → Bool) (l : List α) (i : Nat) (x : α) :
    findIndex p l = some (i, x) ↔
      l[i]? = some x ∧ p x = true ∧
        ∀ (j : Nat) (y : α), j < i → l[j]? = some y → p y = false := by
  induction l generalizing i with
  | nil => simp [findIndex]
  | cons y ys ih =>
    by_cases hy : p y = true
    · rw [findIndex_cons_of_true p y ys hy]
      constructor
      · intro h
        simp only [Option.some.injEq, Prod.mk.injEq] at h
        obtain ⟨rfl, rfl⟩ := h
        exact ⟨by simp, hy, fun j _ hj => absurd hj (Nat.not_lt_zero j)⟩
      · rintro ⟨hget, _, hbefore⟩
        cases i with
        | zero =>
          simp only [List.getElem?_cons_zero, Option.some.injEq] at hget
          rw [hget]
        | succ k =>
          have := hbefore 0 y (Nat.succ_pos k) (by simp)
          rw [hy] at this
          exact absurd this (by decide)
    · have hy' : p y = false := by simpa using hy
      constructor
      · intro h
        simp only [findIndex, hy', Bool.false_eq_true, if_false, Option.map_eq_some'] at h
        obtain ⟨⟨k, z⟩, hk, hz⟩ := h
        simp only [Prod.mk.injEq] at hz
        obtain ⟨rfl, rfl⟩ := hz
        obtain ⟨hget, hp, hbefore⟩ := (ih k).mp hk
        refine ⟨by simpa using hget, hp, ?_⟩
        intro j w hj hw
        cases j with
        | zero =>
          simp only [List.getElem?_cons_zero, Option.some.injEq] at hw
          rw [← hw]
          exact hy'
        | succ j' =>
          exact hbefore j' w (Nat.lt_of_succ_lt_succ hj) (by simpa using hw)
      · rintro ⟨hget, hp, hbefore⟩
        cases i with
        | zero =>
          simp only [List.getElem?_cons_zero, Option.some.injEq] at hget
          rw [hget, hp] at hy'
          exact absurd hy' (by decide)
        | succ k =>
          have hk : findIndex p ys = some (k, x) := by
            refine (ih k).mpr ⟨by simpa using hget, hp, ?_⟩
            intro j w hj hw
            exact hbefore (j + 1) w (Nat.succ_lt_succ hj) (by simpa using hw)
          exact findIndex_cons_of_false p y ys k x hy' hk

theorem getProp_congr (a b : Obj) (k : String) (h : getOwn a k = getOwn b k) :
    getProp a k = getProp b k := by
  unfold getProp
  rw [h]

theorem email_setOwn_id (m : Obj) (v : JVal) :
    getProp (setOwn m "id" v) "email" = getProp m "email" :=
  getProp_congr _ _ _ (getOwn_setOwn_ne m "email" "id" v (by decide))

theorem id_setOwn_id (m : Obj) (v : JVal) : getProp (setOwn m "id" v) "id" = v := by
  unfold getProp
  rw [getOwn_setOwn_self]

/-- A lookup by email gives the same index in two arrays whose records have,
place by place, the same emails. -/
theorem findIndex_hasEmail_transfer (e : JVal) (a b : List Obj)
    (hsame : ∀ k : Nat, (a[k]?).map (fun x => getProp x "email") =
      (b[k]?).map (fun x => getProp x "email"))
    (i : Nat) (x : Obj) (h : findIndex (hasEmail e) a = some (i, x)) :
    ∃ y : Obj, findIndex (hasEmail e) b = some (i, y) := by
  obtain ⟨hget, hp, hbefore⟩ := (findIndex_eq_some_iff _ _ _ _).mp h
  have hi := hsame i
  rw [hget] at hi
  cases hb : b[i]? with
  | none => rw [hb] at hi; simp at hi
  | some y =>
    rw [hb] at hi
    simp only [Option.map_some', Option.some.injEq] at hi
    refine ⟨y, (findIndex_eq_some_iff _ _ _ _).mpr ⟨hb, ?_, ?_⟩⟩
    · rw [hasEmail_iff] at hp ⊢
      rw [← hi]
      exact hp
    · intro j w hj hw
      have hjs := hsame j
      rw [hw] at hjs
      cases ha : a[j]? with
      | none => rw [ha] at hjs; simp at hjs
      | some z =>
        rw [ha] at hjs
        simp only [Option.map_some', Option.some.injEq] at hjs
        have := hbefore j z hj ha
        rw [hasEmail_eq_false_iff] at this ⊢
        rw [← hjs]
        exact this

/-- The two things a pass of the third loop can do. -/
theorem fixIdStep_cases (ms : List Obj) (f : Bool) (u : Obj) :
    (fixIdStep (ms, f) u = (ms, f) ∧
      ∀ (i : Nat) (m : Obj), findIndex (hasEmail (getProp u "email")) ms = some (i, m) →
        getProp m "id" = getProp u "id") ∨
    (∃ (i : Nat) (m : Obj), findIndex (hasEmail (getProp u "email")) ms = some (i, m) ∧
      getProp m "id" ≠ getProp u "id" ∧
      fixIdStep (ms, f) u = (ms.set i (setOwn m "id" (getProp u "id")), true)) := by
  cases hfind : findIndex (hasEmail (getProp u "email")) ms with
  | none => exact Or.inl ⟨by simp [fixIdStep, hfind], by simp⟩
  | some r =>
    obtain ⟨i, m⟩ := r
    by_cases hid : getProp m "id" = getProp u "id"
    · refine Or.inl ⟨by simp [fixIdStep, hfind, strictEq, hid], ?_⟩
      intro j m' h
      simp only [Option.some.injEq, Prod.mk.injEq] at h
      rw [← h.2]
      exact hid
    · exact Or.inr ⟨i, m, rfl, hid, by simp [fixIdStep, hfind, strictEq, hid, assign]⟩

/-- A run of the third loop that finds every first match with the right id
changes nothing. -/
theorem fixIds_noop (us ms : List Obj) (f : Bool)
    (h : ∀ u ∈ us, ∀ (i : Nat) (m : Obj),
      findIndex (hasEmail (getProp u "email")) ms = some (i, m) →
        getProp m "id" = getProp u "id") :
    us.foldl fixIdStep (ms, f) = (ms, f) := by
  induction us with
  | nil => rfl
  | cons u rest ih =>
    rw [List.foldl_cons]
    rcases fixIdStep_cases ms f u with ⟨hstep, _⟩ | ⟨i, m, hfind, hne, _⟩
    · rw [hstep]
      exact ih fun v hv => h v (List.mem_cons_of_mem _ hv)
    · exact absurd (h u (List.mem_cons_self _ _) i m hfind) hne

theorem fixInv_init (ms : List Obj) (f : Bool) : FixInv [] ms ms f f where
  length_eq := rfl
  same := fun _ m hm => ⟨m, hm, fun _ _ => rfl, fun _ => rfl⟩
  changed := fun h => Or.inl h
  fixed := fun u hu => absurd hu (List.not_mem_nil u)
  mono := fun h => h
  untouched := fun _ => rfl

/-- One pass of the third loop keeps the invariant, for a user whose email no
user handled before has. -/
theorem fixInv_step (done start ms : List Obj) (f₀ f : Bool) (u : Obj)
    (hinv : FixInv done start ms f₀ f)
    (hnew : ∀ v ∈ done, getProp v "email" ≠ getProp u "email") :
    FixInv (done ++ [u]) start (fixIdStep (ms, f) u).1 f₀ (fixIdStep (ms, f) u).2 := by
  rcases fixIdStep_cases ms f u with ⟨hstep, hall⟩ | ⟨i', m', hfind, hne, hstep⟩
  · rw [hstep]
    show FixInv (done ++ [u]) start ms f₀ f
    refine ⟨hinv.length_eq, ?_, ?_, ?_, hinv.mono, hinv.untouched⟩
    · intro i m hm
      obtain ⟨m₀, h₁, h₂, h₃⟩ := hinv.same i m hm
      exact ⟨m₀, h₁, h₂, fun h => h₃ fun v hv => h v (List.mem_append_left _ hv)⟩
    · intro hf
      rcases hinv.changed hf with h | ⟨i, m, m₀, h₁, h₂, h₃, v, hv, h₄⟩
      · exact Or.inl h
      · exact Or.inr ⟨i, m, m₀, h₁, h₂, h₃, v, List.mem_append_left _ hv, h₄⟩
    · intro v hv i m hfi
      rcases List.mem_append.mp hv with h | h
      · exact hinv.fixed v h i m hfi
      · rw [List.mem_singleton.mp h] at hfi ⊢
        exact hall i m hfi
  · rw [hstep]
    show FixInv (done ++ [u]) start (ms.set i' (setOwn m' "id" (getProp u "id"))) f₀ true
    obtain ⟨hget', hp'⟩ := findIndex_some _ _ _ _ hfind
    have hemail' : getProp m' "email" = getProp u "email" := (hasEmail_iff _ _).mp hp'
    obtain ⟨m₀', hs₀, hfields, hsame₀⟩ := hinv.same i' m' hget'
    have hemail₀ : getProp m₀' "email" = getProp u "email" := by
      rw [← hemail']
      exact (getProp_congr _ _ _ (hfields "email" (by decide))).symm
    have hm₀ : m' = m₀' := hsame₀ fun v hv => by
      rw [hemail₀]
      exact (hnew v hv).symm
    have hlt : i' < ms.length := by
      obtain ⟨h, _⟩ := List.getElem?_eq_some.mp hget'
      exact h
    have hself : (ms.set i' (setOwn m' "id" (getProp u "id")))[i']? =
        some (setOwn m' "id" (getProp u "id")) := List.getElem?_set_self hlt
    have hsameEmails : ∀ k : Nat,
        ((ms.set i' (setOwn m' "id" (getProp u "id")))[k]?).map (fun x => getProp x "email") =
          (ms[k]?).map (fun x => getProp x "email") := by
      intro k
      by_cases hk : k = i'
      · rw [hk, hself, hget']
        simp [email_setOwn_id]
      · rw [List.getElem?_set_ne (Ne.symm hk)]
    refine ⟨by simp [hinv.length_eq], ?_, ?_, ?_, fun _ => rfl, fun h => absurd h (by decide)⟩
    · intro i m hm
      by_cases hi : i = i'
      · rw [hi, hself] at hm
        simp only [Option.some.injEq] at hm
        refine ⟨m₀', by rw [hi]; exact hs₀, ?_, ?_⟩
        · intro k hk
          rw [← hm, getOwn_setOwn_ne m' k "id" _ hk]
          exact hfields k hk
        · intro h
          exact absurd hemail₀ (h u (by simp))
      · rw [List.getElem?_set_ne (Ne.symm hi)] at hm
        obtain ⟨m₀, h₁, h₂, h₃⟩ := hinv.same i m hm
        exact ⟨m₀, h₁, h₂, fun h => h₃ fun v hv => h v (List.mem_append_left _ hv)⟩
    · intro _
      refine Or.inr ⟨i', _, m₀', hself, hs₀, ?_, u, by simp, hemail₀⟩
      rw [id_setOwn_id, ← hm₀]
      exact Ne.symm hne
    · intro v hv i m hfi
      obtain ⟨y, hy⟩ := findIndex_hasEmail_transfer _ _ ms hsameEmails i m hfi
      obtain ⟨hgety, hpy⟩ := findIndex_some _ _ _ _ hy
      obtain ⟨hgetm, _⟩ := findIndex_some _ _ _ _ hfi
      rcases List.mem_append.mp hv with h | h
      · have hi : i ≠ i' := by
          intro e
          rw [e, hget'] at hgety
          simp only [Option.some.injEq] at hgety
          rw [← hgety, hasEmail_iff] at hpy
          exact hnew v h (hpy.symm.trans hemail')
        rw [List.getElem?_set_ne (Ne.symm hi), hgety] at hgetm
        simp only [Option.some.injEq] at hgetm
        rw [← hgetm]
        exact hinv.fixed v h i y hy
      · rw [List.mem_singleton.mp h] at hy ⊢
        rw [hfind] at hy
        simp only [Option.some.injEq, Prod.mk.injEq] at hy
        rw [← hy.1, hself] at hgetm
        simp only [Option.some.injEq] at hgetm
        rw [← hgetm]
        exact id_setOwn_id m' _

/-- The third loop keeps the invariant over users with pairwise distinct
emails. -/
theorem fixInv_fold (rest : List Obj) :
    ∀ (done start ms : List Obj) (f₀ f : Bool),
      rest.Pairwise (fun a b => getProp a "email" ≠ getProp b "email") →
      (∀ v ∈ done, ∀ r ∈ rest, getProp v "email" ≠ getProp r "email") →
      FixInv done start ms f₀ f →
      FixInv (done ++ rest) start (rest.foldl fixIdStep (ms, f)).1 f₀
        (rest.foldl fixIdStep (ms, f)).2 := by
  induction rest with
  | nil =>
    intro done start ms f₀ f _ _ hinv
    simpa using hinv
  | cons u rest ih =>
    intro done start ms f₀ f hpair hcross hinv
    rw [List.pairwise_cons] at hpair
    have hstep := fixInv_step done start ms f₀ f u hinv
      (fun v hv => hcross v hv u (List.mem_cons_self _ _))
    have hcross' : ∀ v ∈ done ++ [u], ∀ r ∈ rest,
        getProp v "email" ≠ getProp r "email" := by
      intro v hv r hr
      rcases List.mem_append.mp hv with h | h
      · exact hcross v h r (List.mem_cons_of_mem _ hr)
      · rw [List.mem_singleton.mp h]
        exact hpair.1 r hr
    have := ih (done ++ [u]) start _ f₀ _ hpair.2 hcross' hstep
    rw [List.foldl_cons]
    simpa [List.append_assoc] using this

/-! ## Reconciliation: the whole run -/

/-- The anatomy of a run: the users `addedU` and the team members `addedM`
that the first two loops synthesize, and the state the third loop ends in. -/
theorem sync_anatomy (today : String) (users members : List Obj) :
    ∃ (addedU addedM ms₃ : List Obj) (f₃ : Bool),
      syncUserAndTeamMemberData today users members =
        { usersUpdated := !addedU.isEmpty
          teamMembersUpdated := f₃
          users := users ++ addedU
          teamMembers := ms₃
          writes := (if !addedU.isEmpty then [(File.users, users ++ addedU)] else []) ++
            (if f₃ then [(File.teamMembers, ms₃)] else []) } ∧
      (users ++ addedU).foldl fixIdStep (members ++ addedM, !addedM.isEmpty) = (ms₃, f₃) ∧
      (∀ a ∈ addedU, ∃ m ∈ members, a = newUserOf today m ∧
        ∀ t ∈ users, getProp t "email" ≠ getProp m "email") ∧
      (∀ m ∈ members, (∀ t ∈ users, getProp t "email" ≠ getProp m "email") →
        ∃ (i : Nat) (m₀ : Obj),
          findIndex (hasEmail (getProp m "email")) members = some (i, m₀) ∧
            newUserOf today m₀ ∈ addedU) ∧
      addedU.Pairwise (fun a b => getProp a "email" ≠ getProp b "email") ∧
      (∀ a ∈ addedM, ∃ u ∈ users ++ addedU, a = newMemberOf today u ∧
        getProp u "email" ≠ ADMIN_EMAIL ∧
        ∀ t ∈ members, getProp t "email" ≠ getProp u "email") ∧
      (∀ u ∈ users ++ addedU, getProp u "email" ≠ ADMIN_EMAIL →
        (∀ t ∈ members, getProp t "email" ≠ getProp u "email") →
        ∃ (i : Nat) (u₀ : Obj),
          findIndex (hasEmail (getProp u "email")) (users ++ addedU) = some (i, u₀) ∧
            newMemberOf today u₀ ∈ addedM) ∧
      addedM.Pairwise (fun a b => getProp a "email" ≠ getProp b "email") := by
  obtain ⟨addedU, hfoldU, hsrcU, hallU, hpairU⟩ :=
    synth_fold (fun _ => false) (newUserOf today) (email_newUserOf today)
      (fun _ _ _ => rfl) members users false
  obtain ⟨addedM, hfoldM, hsrcM, hallM, hpairM⟩ :=
    synth_fold (fun u => strictEq (getProp u "email") ADMIN_EMAIL) (newMemberOf today)
      (email_newMemberOf today) (fun x y h => by simp only [h]) (users ++ addedU) members false
  rw [← createUserStep_eq] at hfoldU
  rw [← createMemberStep_eq] at hfoldM
  simp only [Bool.false_or] at hfoldU hfoldM
  refine ⟨addedU, addedM,
    ((users ++ addedU).foldl fixIdStep (members ++ addedM, !addedM.isEmpty)).1,
    ((users ++ addedU).foldl fixIdStep (members ++ addedM, !addedM.isEmpty)).2,
    ?_, rfl, ?_, fun m hm hno => hallU m hm rfl hno, hpairU, ?_, ?_, hpairM⟩
  · simp only [syncUserAndTeamMemberData, hfoldU, hfoldM]
  · intro a ha
    obtain ⟨m, hm, ham, _, hno⟩ := hsrcU a ha
    exact ⟨m, hm, ham, hno⟩
  · intro a ha
    obtain ⟨u, hu, hau, hsk, hno⟩ := hsrcM a ha
    exact ⟨u, hu, hau, by simpa [strictEq] using hsk, hno⟩
  · intro u hu hadm hno
    exact hallM u hu (by simpa [strictEq] using hadm) hno

/-- After the first loop every team member has a user with its email. -/
theorem users_cover_members (today : String) (users members addedU : List Obj)
    (hallU : ∀ m ∈ members, (∀ t ∈ users, getProp t "email" ≠ getProp m "email") →
      ∃ (i : Nat) (m₀ : Obj),
        findIndex (hasEmail (getProp m "email")) members = some (i, m₀) ∧
          newUserOf today m₀ ∈ addedU) :
    ∀ m ∈ members, ∃ u ∈ users ++ addedU, getProp u "email" = getProp m "email" := by
  intro m hm
  by_cases hex : ∃ t ∈ users, getProp t "email" = getProp m "email"
  · obtain ⟨t, ht, hte⟩ := hex
    exact ⟨t, List.mem_append_left _ ht, hte⟩
  · have hno : ∀ t ∈ users, getProp t "email" ≠ getProp m "email" :=
      fun t ht e => hex ⟨t, ht, e⟩
    obtain ⟨i, m₀, hfind, hmem⟩ := hallU m hm hno
    obtain ⟨_, hp⟩ := findIndex_some _ _ _ _ hfind
    exact ⟨newUserOf today m₀, List.mem_append_right _ hmem,
      (email_newUserOf today m₀).trans ((hasEmail_iff _ _).mp hp)⟩

/-- After the second loop every user but the administrator has a team member
with its email. -/
theorem members_cover_users (today : String) (us members addedM : List Obj)
    (hallM : ∀ u ∈ us, getProp u "email" ≠ ADMIN_EMAIL →
      (∀ t ∈ members, getProp t "email" ≠ getProp u "email") →
      ∃ (i : Nat) (u₀ : Obj),
        findIndex (hasEmail (getProp u "email")) us = some (i, u₀) ∧
          newMemberOf today u₀ ∈ addedM) :
    ∀ u ∈ us, getProp u "email" ≠ ADMIN_EMAIL →
      ∃ m ∈ members ++ addedM, getProp m "email" = getProp u "email" := by
  intro u hu hadm
  by_cases hex : ∃ t ∈ members, getProp t "email" = getProp u "email"
  · obtain ⟨t, ht, hte⟩ := hex
    exact ⟨t, List.mem_append_left _ ht, hte⟩
  · have hno : ∀ t ∈ members, getProp t "email" ≠ getProp u "email" :=
      fun t ht e => hex ⟨t, ht, e⟩
    obtain ⟨i, u₀, hfind, hmem⟩ := hallM u hu hadm hno
    obtain ⟨_, hp⟩ := findIndex_some _ _ _ _ hfind
    exact ⟨newMemberOf today u₀, List.mem_append_right _ hmem,
      (email_newMemberOf today u₀).trans ((hasEmail_iff _ _).mp hp)⟩

/-- The users after the first loop have pairwise distinct emails when the
users read have. -/
theorem users_pairwise (today : String) (users members addedU : List Obj)
    (huniq : users.Pairwise (fun a b => getProp a "email" ≠ getProp b "email"))
    (hsrcU : ∀ a ∈ addedU, ∃ m ∈ members, a = newUserOf today m ∧
      ∀ t ∈ users, getProp t "email" ≠ getProp m "email")
    (hpairU : addedU.Pairwise (fun a b => getProp a "email" ≠ getProp b "email")) :
    (users ++ addedU).Pairwise (fun a b => getProp a "email" ≠ getProp b "email") := by
  refine List.pairwise_append.mpr ⟨huniq, hpairU, ?_⟩
  intro t ht a ha
  obtain ⟨m, _, ham, hno⟩ := hsrcU a ha
  rw [ham, email_newUserOf]
  exact hno t ht

/-- The records the third loop leaves have, place by place, the emails of the
records it began with. -/
theorem fixInv_forward {done start ms : List Obj} {f₀ f : Bool}
    (hinv : FixInv done start ms f₀ f) :
    ∀ m ∈ ms, ∃ m₀ ∈ start, getProp m "email" = getProp m₀ "email" := by
  intro m hm
  obtain ⟨i, hi⟩ := List.mem_iff_getElem?.mp hm
  obtain ⟨m₀, h₀, hfields, _⟩ := hinv.same i m hi
  exact ⟨m₀, List.getElem?_mem h₀, getProp_congr _ _ _ (hfields "email" (by decide))⟩

theorem fixInv_backward {done start ms : List Obj} {f₀ f : Bool}
    (hinv : FixInv done start ms f₀ f) :
    ∀ m₀ ∈ start, ∃ m ∈ ms, getProp m "email" = getProp m₀ "email" := by
  intro m₀ hm₀
  obtain ⟨i, hi⟩ := List.mem_iff_getElem?.mp hm₀
  have hlt : i < ms.length := by
    rw [hinv.length_eq]
    exact (List.getElem?_eq_some.mp hi).1
  obtain ⟨m₀', h₀, hfields, _⟩ := hinv.same i ms[i] (List.getElem?_eq_getElem hlt)
  rw [hi] at h₀
  simp only [Option.some.injEq] at h₀
  refine ⟨ms[i], List.getElem_mem hlt, ?_⟩
  rw [h₀]
  exact getProp_congr _ _ _ (hfields "email" (by decide))

/-- The invariant of the third loop at the end of a run whose users have
pairwise distinct emails. -/
theorem sync_fixInv (users members addedU addedM ms₃ : List Obj) (f₃ : Bool)
    (hpair : (users ++ addedU).Pairwise (fun a b => getProp a "email" ≠ getProp b "email"))
    (hfix : (users ++ addedU).foldl fixIdStep (members ++ addedM, !addedM.isEmpty) = (ms₃, f₃)) :
    FixInv (users ++ addedU) (members ++ addedM) ms₃ (!addedM.isEmpty) f₃ := by
  have := fixInv_fold (users ++ addedU) [] (members ++ addedM) (members ++ addedM)
    (!addedM.isEmpty) (!addedM.isEmpty) hpair (by simp) (fixInv_init _ _)
  rw [hfix] at this
  simpa using this

/-- What the third loop leaves of the team members it began with, for every
input: their number and their places, every field but `id` as it was, and as
`id` the id it was or the id of a user with the member's email; a flag that was
set stays set, and a flag that is not set at the end means that nothing was
changed. -/
theorem fixIds_frame (us : List Obj) :
    ∀ (ms : List Obj) (f : Bool),
      (us.foldl fixIdStep (ms, f)).1.length = ms.length ∧
      (∀ (i : Nat) (m : Obj), (us.foldl fixIdStep (ms, f)).1[i]? = some m →
        ∃ m₀ : Obj, ms[i]? = some m₀ ∧
          (∀ k : String, k ≠ "id" → getOwn m k = getOwn m₀ k) ∧
          (getProp m "id" = getProp m₀ "id" ∨
            ∃ u ∈ us, getProp u "email" = getProp m₀ "email" ∧
              getProp m "id" = getProp u "id")) ∧
      (f = true → (us.foldl fixIdStep (ms, f)).2 = true) ∧
      ((us.foldl fixIdStep (ms, f)).2 = false → (us.foldl fixIdStep (ms, f)).1 = ms) := by
  induction us with
  | nil =>
    intro ms f
    refine ⟨rfl, fun i m hm => ⟨m, hm, fun _ _ => rfl, Or.inl rfl⟩, fun h => h, fun _ => rfl⟩
  | cons u rest ih =>
    intro ms f
    rw [List.foldl_cons]
    rcases fixIdStep_cases ms f u with ⟨hstep, _⟩ | ⟨i', m', hfind, _, hstep⟩
    · rw [hstep]
      obtain ⟨h₁, h₂, h₃, h₄⟩ := ih ms f
      refine ⟨h₁, ?_, h₃, h₄⟩
      intro i m hm
      obtain ⟨m₀, hm₀, hfields, hid⟩ := h₂ i m hm
      refine ⟨m₀, hm₀, hfields, ?_⟩
      rcases hid with h | ⟨v, hv, he, hi⟩
      · exact Or.inl h
      · exact Or.inr ⟨v, List.mem_cons_of_mem _ hv, he, hi⟩
    · rw [hstep]
      obtain ⟨hget', hp'⟩ := findIndex_some _ _ _ _ hfind
      have hemail' : getProp m' "email" = getProp u "email" := (hasEmail_iff _ _).mp hp'
      have hlt : i' < ms.length := (List.getElem?_eq_some.mp hget').1
      have hself : (ms.set i' (setOwn m' "id" (getProp u "id")))[i']? =
          some (setOwn m' "id" (getProp u "id")) := List.getElem?_set_self hlt
      obtain ⟨h₁, h₂, h₃, _⟩ := ih (ms.set i' (setOwn m' "id" (getProp u "id"))) true
      refine ⟨by rw [h₁]; simp, ?_, fun _ => h₃ rfl, ?_⟩
      · intro i m hm
        obtain ⟨m₁, hm₁, hfields, hid⟩ := h₂ i m hm
        by_cases hi : i = i'
        · rw [hi, hself] at hm₁
          simp only [Option.some.injEq] at hm₁
          refine ⟨m', by rw [hi]; exact hget', ?_, ?_⟩
          · intro k hk
            rw [hfields k hk, ← hm₁]
            exact getOwn_setOwn_ne m' k "id" _ hk
          · rcases hid with h | ⟨v, hv, he, hiv⟩
            · refine Or.inr ⟨u, List.mem_cons_self _ _, hemail'.symm, ?_⟩
              rw [h, ← hm₁]
              exact id_setOwn_id m' _
            · refine Or.inr ⟨v, List.mem_cons_of_mem _ hv, ?_, hiv⟩
              rw [he, ← hm₁]
              exact email_setOwn_id m' _
        · rw [List.getElem?_set_ne (Ne.symm hi)] at hm₁
          refine ⟨m₁, hm₁, hfields, ?_⟩
          rcases hid with h | ⟨v, hv, he, hiv⟩
          · exact Or.inl h
          · exact Or.inr ⟨v, List.mem_cons_of_mem _ hv, he, hiv⟩
      · intro hfalse
        rw [h₃ rfl] at hfalse
        exact absurd hfalse (by decide)

/-- The records the third loop leaves have, place by place, the emails of the
records it began with. -/
theorem fixIds_emails (us ms : List Obj) (f : Bool) (k : Nat) :
    ((us.foldl fixIdStep (ms, f)).1[k]?).map (fun x => getProp x "email") =
      (ms[k]?).map (fun x => getProp x "email") := by
  obtain ⟨hlen, hsame, _, _⟩ := fixIds_frame us ms f
  cases h : (us.foldl fixIdStep (ms, f)).1[k]? with
  | none =>
    have hk : ms.length ≤ k := by
      rw [← hlen]
      exact List.getElem?_eq_none_iff.mp h
    rw [List.getElem?_eq_none_iff.mpr hk]
  | some m =>
    obtain ⟨m₀, hm₀, hfields, _⟩ := hsame k m h
    rw [hm₀]
    simp only [Option.map_some', Option.some.injEq]
    exact getProp_congr _ _ _ (hfields "email" (by decide))

/-- An element of one of two arrays that agree place by place under `key` has
a partner in the other. -/
theorem mem_of_agree {β : Type} (key : Obj → β) (a b : List Obj)
    (h : ∀ n : Nat, (a[n]?).map key = (b[n]?).map key) (x : Obj) (hx : x ∈ a) :
    ∃ y ∈ b, key y = key x := by
  obtain ⟨n, hn⟩ := List.mem_iff_getElem?.mp hx
  have := h n
  rw [hn] at this
  cases hb : b[n]? with
  | none => rw [hb] at this; simp at this
  | some y =>
    rw [hb] at this
    simp only [Option.map_some', Option.some.injEq] at this
    exact ⟨y, List.getElem?_mem hb, this.symm⟩

/-- A property of a record read back is the property written, read back. -/
theorem getOwn_rereadObj (ref : Nat → Nat) (o : Obj) :
    ∀ (j : Nat) (k : String),
      ∃ r : Nat, getOwn (rereadObj ref j o) k = (getOwn o k).map (JVal.reread r) := by
  induction o with
  | nil => intro j k; exact ⟨0, rfl⟩
  | cons kv rest ih =>
    intro j k
    obtain ⟨k', v⟩ := kv
    by_cases hk : k = k'
    · subst hk
      exact ⟨ref j, by simp [rereadObj, getOwn, List.lookup]⟩
    · have hb : (k == k') = false := by simpa using hk
      obtain ⟨r, hr⟩ := ih (j + 1) k
      refine ⟨r, ?_⟩
      simpa [rereadObj, getOwn, List.lookup, hb] using hr

/-- A property that is no array and no object is read back as it was
written. -/
theorem getProp_rereadObj (ref : Nat → Nat) (o : Obj) (j : Nat) (k : String)
    (h : isCompound (getProp o k) = false) :
    getProp (rereadObj ref j o) k = getProp o k := by
  obtain ⟨r, hr⟩ := getOwn_rereadObj ref o j k
  unfold getProp at h ⊢
  rw [hr]
  cases hown : getOwn o k with
  | none => rfl
  | some v =>
    rw [hown] at h
    simp only [Option.map_some']
    cases v <;> first | rfl | (simp [isCompound] at h)

/-- The record at a place of a collection read back is the record written at
that place, read back. -/
theorem readBackFrom_getElem? (base : Nat) (l : List Obj) :
    ∀ (i n : Nat), (readBackFrom base i l)[n]? =
      (l[n]?).map (rereadObj (fun j => base + Nat.pair (i + n) j) 0) := by
  induction l with
  | nil => intro i n; simp [readBackFrom]
  | cons o rest ih =>
    intro i n
    cases n with
    | zero => simp [readBackFrom]
    | succ n =>
      simp only [readBackFrom, List.getElem?_cons_succ]
      rw [ih (i + 1) n]
      have : i + 1 + n = i + (n + 1) := by omega
      rw [this]

/-- A collection whose ids and emails are no arrays and no objects is read
back with the same ids and emails, place by place. -/
theorem readBack_agree (base : Nat) (l : List Obj)
    (h : ∀ r ∈ l, isCompound (getProp r "id") = false ∧
      isCompound (getProp r "email") = false) (n : Nat) :
    ((readBack base l)[n]?).map (fun x => (getProp x "id", getProp x "email")) =
      (l[n]?).map (fun x => (getProp x "id", getProp x "email")) := by
  unfold readBack
  rw [readBackFrom_getElem?]
  cases hn : l[n]? with
  | none => rfl
  | some x =>
    obtain ⟨hid, hemail⟩ := h x (List.getElem?_mem hn)
    simp only [Option.map_some', Option.some.injEq, Prod.mk.injEq]
    exact ⟨getProp_rereadObj _ x 0 "id" hid, getProp_rereadObj _ x 0 "email" hemail⟩

/-- A collection is read back with its length. -/
theorem readBackFrom_length (base : Nat) (l : List Obj) :
    ∀ i : Nat, (readBackFrom base i l).length = l.length := by
  induction l with
  | nil => intro i; rfl
  | cons o rest ih => intro i; simp [readBackFrom, ih]

/-- Two collections that hold, at one place, records with different ids, none
of the two ids an array or object, are read back as different collections. -/
theorem readBack_ne_of_id (base : Nat) (a b : List Obj) (i : Nat) (m m₀ : Obj)
    (ha : a[i]? = some m) (hb : b[i]? = some m₀)
    (hm : isCompound (getProp m "id") = false) (hm₀ : isCompound (getProp m₀ "id") = false)
    (hne : getProp m "id" ≠ getProp m₀ "id") : readBack base a ≠ readBack base b := by
  intro h
  have hi : (readBack base a)[i]? = (readBack base b)[i]? := by rw [h]
  unfold readBack at hi
  rw [readBackFrom_getElem?, readBackFrom_getElem?, ha, hb] at hi
  simp only [Option.map_some', Option.some.injEq] at hi
  have hid := congrArg (fun o => getProp o "id") hi
  simp only at hid
  rw [getProp_rereadObj _ m 0 "id" hm, getProp_rereadObj _ m₀ 0 "id" hm₀] at hid
  exact hne hid

/-- Collections of different lengths are read back as different
collections. -/
theorem readBack_ne_of_length (base : Nat) (a b : List Obj) (h : a.length ≠ b.length) :
    readBack base a ≠ readBack base b := by
  intro heq
  have := congrArg List.length heq
  unfold readBack at this
  rw [readBackFrom_length, readBackFrom_length] at this
  exact h this

/-- A run on collections in which every team member has a user with its email
and every user but the administrator a team member with its email adds no
record: it reports `usersUpdated = false`, leaves the users as they are and
does not write them; when, moreover, the first team member with a user's email
has the user's id, for every user, the run changes and writes nothing.  The
collections may be given through others that agree with them, place by place,
in ids and emails. -/
theorem sync_settled (today : String) (us₁ ms₁ us₂ ms₂ : List Obj)
    (hU : ∀ n : Nat, (us₂[n]?).map (fun x => (getProp x "id", getProp x "email")) =
      (us₁[n]?).map (fun x => (getProp x "id", getProp x "email")))
    (hM : ∀ n : Nat, (ms₂[n]?).map (fun x => (getProp x "id", getProp x "email")) =
      (ms₁[n]?).map (fun x => (getProp x "id", getProp x "email")))
    (hcoverU : ∀ m ∈ ms₁, ∃ u ∈ us₁, getProp u "email" = getProp m "email")
    (hcoverM : ∀ u ∈ us₁, getProp u "email" ≠ ADMIN_EMAIL →
      ∃ m ∈ ms₁, getProp m "email" = getProp u "email") :
    ((syncUserAndTeamMemberData today us₂ ms₂).usersUpdated = false ∧
      (syncUserAndTeamMemberData today us₂ ms₂).users = us₂ ∧
      ∀ content : List Obj,
        (File.users, content) ∉ (syncUserAndTeamMemberData today us₂ ms₂).writes) ∧
    ((∀ u ∈ us₁, ∀ (i : Nat) (m : Obj),
        findIndex (hasEmail (getProp u "email")) ms₁ = some (i, m) →
          getProp m "id" = getProp u "id") →
      syncUserAndTeamMemberData today us₂ ms₂ = ⟨false, false, us₂, ms₂, []⟩) := by
  have hU' : ∀ n : Nat, (us₁[n]?).map (fun x => (getProp x "id", getProp x "email")) =
      (us₂[n]?).map (fun x => (getProp x "id", getProp x "email")) := fun n => (hU n).symm
  have hM' : ∀ n : Nat, (ms₁[n]?).map (fun x => (getProp x "id", getProp x "email")) =
      (ms₂[n]?).map (fun x => (getProp x "id", getProp x "email")) := fun n => (hM n).symm
  have hMe : ∀ n : Nat, (ms₂[n]?).map (fun x => getProp x "email") =
      (ms₁[n]?).map (fun x => getProp x "email") := by
    intro n
    have := congrArg (Option.map Prod.snd) (hM n)
    simpa [Option.map_map, Function.comp] using this
  obtain ⟨addedU, addedM, ms₃, f₃, hrun, hfix, hsrcU, _, _, hsrcM, _, _⟩ :=
    sync_anatomy today us₂ ms₂
  have hUnil : addedU = [] := by
    refine List.eq_nil_iff_forall_not_mem.mpr fun a ha => ?_
    obtain ⟨m, hm, _, hno⟩ := hsrcU a ha
    obtain ⟨m₁, hm₁, hk₁⟩ := mem_of_agree _ ms₂ ms₁ hM m hm
    obtain ⟨u₁, hu₁, he⟩ := hcoverU m₁ hm₁
    obtain ⟨u₂, hu₂, hk₂⟩ := mem_of_agree _ us₁ us₂ hU' u₁ hu₁
    refine hno u₂ hu₂ ?_
    have e₁ := congrArg Prod.snd hk₁
    have e₂ := congrArg Prod.snd hk₂
    simp only at e₁ e₂
    rw [e₂, he, e₁]
  subst hUnil
  have hMnil : addedM = [] := by
    refine List.eq_nil_iff_forall_not_mem.mpr fun a ha => ?_
    obtain ⟨u, hu, _, hadm, hno⟩ := hsrcM a ha
    rw [List.append_nil] at hu
    obtain ⟨u₁, hu₁, hk₁⟩ := mem_of_agree _ us₂ us₁ hU u hu
    have e₁ := congrArg Prod.snd hk₁
    simp only at e₁
    obtain ⟨m₁, hm₁, he⟩ := hcoverM u₁ hu₁ (by rw [e₁]; exact hadm)
    obtain ⟨m₂, hm₂, hk₂⟩ := mem_of_agree _ ms₁ ms₂ hM' m₁ hm₁
    have e₂ := congrArg Prod.snd hk₂
    simp only at e₂
    refine hno m₂ hm₂ ?_
    rw [e₂, he, e₁]
  subst hMnil
  simp only [List.append_nil, List.isEmpty_nil, Bool.not_true] at hfix hrun
  rw [hrun]
  refine ⟨⟨rfl, rfl, ?_⟩, ?_⟩
  · intro content hmem
    simp only [Bool.false_eq_true, if_false, List.nil_append] at hmem
    split at hmem
    · simp at hmem
    · simp at hmem
  · intro hfixed
    have hfixed₂ : ∀ u ∈ us₂, ∀ (i : Nat) (m : Obj),
        findIndex (hasEmail (getProp u "email")) ms₂ = some (i, m) →
          getProp m "id" = getProp u "id" := by
      intro u hu i m hfi
      obtain ⟨u₁, hu₁, hk₁⟩ := mem_of_agree _ us₂ us₁ hU u hu
      have e₁ := congrArg Prod.snd hk₁
      have i₁ := congrArg Prod.fst hk₁
      simp only at e₁ i₁
      obtain ⟨y, hy⟩ := findIndex_hasEmail_transfer _ ms₂ ms₁ hMe i m hfi
      rw [← e₁] at hy
      have hyid := hfixed u₁ hu₁ i y hy
      obtain ⟨hgetm, _⟩ := findIndex_some _ _ _ _ hfi
      obtain ⟨hgety, _⟩ := findIndex_some _ _ _ _ hy
      have hk := hM i
      rw [hgetm, hgety] at hk
      simp only [Option.map_some', Option.some.injEq, Prod.mk.injEq] at hk
      rw [hk.1, hyid, i₁]
    have hnoop := fixIds_noop us₂ ms₂ false hfixed₂
    rw [hnoop] at hfix
    simp only [Prod.mk.injEq] at hfix
    rw [← hfix.1, ← hfix.2]
    simp

theorem sync_covers (today : String) (users members : List Obj) :
    (∀ m ∈ (syncUserAndTeamMemberData today users members).teamMembers,
      ∃ u ∈ (syncUserAndTeamMemberData today users members).users,
        getProp u "email" = getProp m "email") ∧
    (∀ u ∈ (syncUserAndTeamMemberData today users members).users,
      getProp u "email" ≠ ADMIN_EMAIL →
      ∃ m ∈ (syncUserAndTeamMemberData today users members).teamMembers,
        getProp m "email" = getProp u "email") := by
  obtain ⟨addedU, addedM, ms₃, f₃, hrun, hfix, _, hallU, _, hsrcM, hallM, _⟩ :=
    sync_anatomy today users members
  have hemails : ∀ k : Nat, (ms₃[k]?).map (fun x => getProp x "email") =
      ((members ++ addedM)[k]?).map (fun x => getProp x "email") := by
    intro k
    have := fixIds_emails (users ++ addedU) (members ++ addedM) (!addedM.isEmpty) k
    rw [hfix] at this
    exact this
  rw [hrun]
  refine ⟨?_, ?_⟩
  · intro m hm
    obtain ⟨m₀, hm₀, he⟩ := mem_of_agree _ ms₃ (members ++ addedM) hemails m hm
    rcases List.mem_append.mp hm₀ with h | h
    · obtain ⟨u, hu, hue⟩ := users_cover_members today users members addedU hallU m₀ h
      exact ⟨u, hu, hue.trans he⟩
    · obtain ⟨u, hu, hau, _, _⟩ := hsrcM m₀ h
      refine ⟨u, hu, ?_⟩
      rw [← he, hau, email_newMemberOf]
  · intro u hu hadm
    obtain ⟨m, hm, hme⟩ :=
      members_cover_users today (users ++ addedU) members addedM hallM u hu hadm
    obtain ⟨m₃, hm₃, he⟩ := mem_of_agree _ (members ++ addedM) ms₃
      (fun n => (hemails n).symm) m hm
    exact ⟨m₃, hm₃, he.trans hme⟩

/-- A run on collections whose ids and emails are no arrays and no objects
produces collections whose ids and emails are none either. -/
theorem sync_scalar (today : String) (users members : List Obj)
    (hscalar : ∀ r ∈ users ++ members,
      isCompound (getProp r "id") = false ∧ isCompound (getProp r "email") = false) :
    (∀ r ∈ (syncUserAndTeamMemberData today users members).users,
      isCompound (getProp r "id") = false ∧ isCompound (getProp r "email") = false) ∧
    (∀ r ∈ (syncUserAndTeamMemberData today users members).teamMembers,
      isCompound (getProp r "id") = false ∧ isCompound (getProp r "email") = false) := by
  obtain ⟨addedU, addedM, ms₃, f₃, hrun, hfix, hsrcU, _, _, hsrcM, _, _⟩ :=
    sync_anatomy today users members
  have hU : ∀ r ∈ users ++ addedU,
      isCompound (getProp r "id") = false ∧ isCompound (getProp r "email") = false := by
    intro r hr
    rcases List.mem_append.mp hr with h | h
    · exact hscalar r (List.mem_append_left _ h)
    · obtain ⟨m, hm, ham, _⟩ := hsrcU r h
      have := hscalar m (List.mem_append_right _ hm)
      rw [ham]
      exact this
  have hstart : ∀ r ∈ members ++ addedM,
      isCompound (getProp r "id") = false ∧ isCompound (getProp r "email") = false := by
    intro r hr
    rcases List.mem_append.mp hr with h | h
    · exact hscalar r (List.mem_append_right _ h)
    · obtain ⟨u, hu, hau, _, _⟩ := hsrcM r h
      have := hU u hu
      rw [hau]
      exact this
  rw [hrun]
  refine ⟨hU, ?_⟩
  intro r hr
  obtain ⟨i, hi⟩ := List.mem_iff_getElem?.mp hr
  obtain ⟨_, hsame, _, _⟩ := fixIds_frame (users ++ addedU) (members ++ addedM) (!addedM.isEmpty)
  rw [hfix] at hsame
  obtain ⟨m₀, hm₀, hfields, hid⟩ := hsame i r hi
  have h₀ := hstart m₀ (List.getElem?_mem hm₀)
  have hemail : getProp r "email" = getProp m₀ "email" :=
    getProp_congr _ _ _ (hfields "email" (by decide))
  refine ⟨?_, by rw [hemail]; exact h₀.2⟩
  rcases hid with h | ⟨u, hu, _, h⟩
  · rw [h]; exact h₀.1
  · rw [h]; exact (hU u hu).1

/-- C14 (as stated, refuted): two users share an email and differ in id, and
there is no team member.  The first run synthesizes one profile and leaves it
with the id of the second user; the second run, on the collections the first
one produced, moves the id to the first user and back, reports
`teamMembersUpdated = true` and writes the team members again. -/
theorem sync_twice_twin_users :
    (syncUserAndTeamMemberData "2025-01-11"
      (readBack 1000 (syncUserAndTeamMemberData "2025-01-10" twinUsers []).users)
      (readBack 2000 (syncUserAndTeamMemberData "2025-01-10" twinUsers []).teamMembers)
      ).teamMembersUpdated = true ∧
    (syncUserAndTeamMemberData "2025-01-11"
      (readBack 1000 (syncUserAndTeamMemberData "2025-01-10" twinUsers []).users)
      (readBack 2000 (syncUserAndTeamMemberData "2025-01-10" twinUsers []).teamMembers)
      ).writes =
      [(File.teamMembers,
        [[("id", .num 2), ("name", .str "Ann"), ("email", .str "twin@qa-team.com"),
          ("role", .str "QA Analyst"), ("availability", .str "available"),
          ("teamId", .num 1), ("joinDate", .str "2025-01-10")]])] := by
  decide

/-- A team member whose email is an array, as `POST /api/team-members` stores
it, gets a user on every run: read back from the files, the array of the member
and the array of the user made from it are two objects, and the second run
adds a second user for the member. -/
theorem sync_twice_array_email :
    (postTeamMember arrayEmailBody [] sampleClock).status = 200 ∧
    (syncUserAndTeamMemberData "2025-01-10" defaultUsers [arrayEmailMember]).users.length = 4 ∧
    (syncUserAndTeamMemberData "2025-01-11"
      (readBack 1000
        (syncUserAndTeamMemberData "2025-01-10" defaultUsers [arrayEmailMember]).users)
      (readBack 2000
        (syncUserAndTeamMemberData "2025-01-10" defaultUsers [arrayEmailMember]).teamMembers)
      ).usersUpdated = true ∧
    (syncUserAndTeamMemberData "2025-01-11"
      (readBack 1000
        (syncUserAndTeamMemberData "2025-01-10" defaultUsers [arrayEmailMember]).users)
      (readBack 2000
        (syncUserAndTeamMemberData "2025-01-10" defaultUsers [arrayEmailMember]).teamMembers)
      ).users.length = 5 := by
  decide

/-- C14 (amended): the ids and emails of the collections read being no arrays
and no objects, a second run, on the collections that the first run produced
as they are read back from the files, reports `usersUpdated = false`, leaves
the users as read and does not write them; when, moreover, no two users read by
the first run have the same email, it reports `teamMembersUpdated = false` as
well, writes nothing and leaves both collections as read. -/
theorem sync_idempotent (today today' : String) (users members : List Obj) (base₁ base₂ : Nat)
    (hscalar : ∀ r ∈ users ++ members,
      isCompound (getProp r "id") = false ∧ isCompound (getProp r "email") = false) :
    ((syncUserAndTeamMemberData today'
        (readBack base₁ (syncUserAndTeamMemberData today users members).users)
        (readBack base₂ (syncUserAndTeamMemberData today users members).teamMembers)).usersUpdated
        = false ∧
      (syncUserAndTeamMemberData today'
        (readBack base₁ (syncUserAndTeamMemberData today users members).users)
        (readBack base₂ (syncUserAndTeamMemberData today users members).teamMembers)).users =
        readBack base₁ (syncUserAndTeamMemberData today users members).users ∧
      ∀ content : List Obj, (File.users, content) ∉
        (syncUserAndTeamMemberData today'
          (readBack base₁ (syncUserAndTeamMemberData today users members).users)
          (readBack base₂ (syncUserAndTeamMemberData today users members).teamMembers)).writes) ∧
    (users.Pairwise (fun a b => getProp a "email" ≠ getProp b "email") →
      syncUserAndTeamMemberData today'
          (readBack base₁ (syncUserAndTeamMemberData today users members).users)
          (readBack base₂ (syncUserAndTeamMemberData today users members).teamMembers) =
        { usersUpdated := false
          teamMembersUpdated := false
          users := readBack base₁ (syncUserAndTeamMemberData today users members).users
          teamMembers := readBack base₂ (syncUserAndTeamMemberData today users members).teamMembers
          writes := [] }) := by
  obtain ⟨hsU, hsM⟩ := sync_scalar today users members hscalar
  obtain ⟨hcU, hcM⟩ := sync_covers today users members
  obtain ⟨hfree, hcond⟩ := sync_settled today'
    (syncUserAndTeamMemberData today users members).users
    (syncUserAndTeamMemberData today users members).teamMembers
    (readBack base₁ (syncUserAndTeamMemberData today users members).users)
    (readBack base₂ (syncUserAndTeamMemberData today users members).teamMembers)
    (readBack_agree base₁ _ hsU) (readBack_agree base₂ _ hsM) hcU hcM
  refine ⟨hfree, fun huniq => hcond ?_⟩
  obtain ⟨addedU, addedM, ms₃, f₃, hrun, hfix, hsrcU, _, hpairU, _, _, _⟩ :=
    sync_anatomy today users members
  have hpair := users_pairwise today users members addedU huniq hsrcU hpairU
  have hinv := sync_fixInv users members addedU addedM ms₃ f₃ hpair hfix
  rw [hrun]
  exact hinv.fixed

/-- Witness of `sync_idempotent`: the default collections. -/
theorem sync_idempotent_witness :
    (∀ r ∈ defaultUsers ++ defaultTeamMembers,
      isCompound (getProp r "id") = false ∧ isCompound (getProp r "email") = false) ∧
    defaultUsers.Pairwise (fun a b => getProp a "email" ≠ getProp b "email") ∧
    (syncUserAndTeamMemberData "2025-01-10" defaultUsers defaultTeamMembers).usersUpdated = true ∧
    syncUserAndTeamMemberData "2025-01-11"
        (readBack 1000 (syncUserAndTeamMemberData "2025-01-10" defaultUsers
          defaultTeamMembers).users)
        (readBack 2000 (syncUserAndTeamMemberData "2025-01-10" defaultUsers
          defaultTeamMembers).teamMembers) =
      { usersUpdated := false
        teamMembersUpdated := false
        users := readBack 1000 (syncUserAndTeamMemberData "2025-01-10" defaultUsers
          defaultTeamMembers).users
        teamMembers := readBack 2000 (syncUserAndTeamMemberData "2025-01-10" defaultUsers
          defaultTeamMembers).teamMembers
        writes := [] } :=
  ⟨by decide, by decide, by decide,
   (sync_idempotent "2025-01-10" "2025-01-11" defaultUsers defaultTeamMembers 1000 2000
     (by decide)).2 (by decide)⟩

/-- When no two users read have the same email, after a run the first team
member with a user's email has the user's id. -/
theorem sync_first_member_id (today : String) (users members : List Obj)
    (huniq : users.Pairwise (fun a b => getProp a "email" ≠ getProp b "email")) :
    ∀ u ∈ (syncUserAndTeamMemberData today users members).users,
      ∀ (i : Nat) (m : Obj),
        findIndex (hasEmail (getProp u "email"))
          (syncUserAndTeamMemberData today users members).teamMembers = some (i, m) →
        getProp m "id" = getProp u "id" := by
  obtain ⟨addedU, addedM, ms₃, f₃, hrun, hfix, hsrcU, _, hpairU, _, _, _⟩ :=
    sync_anatomy today users members
  have hpair := users_pairwise today users members addedU huniq hsrcU hpairU
  have hinv := sync_fixInv users members addedU addedM ms₃ f₃ hpair hfix
  rw [hrun]
  exact hinv.fixed

/-- C15 (code defect): two team members share an email, as two calls of
`POST /api/team-members` with one email leave them, and no user has it.  The
run creates the user from the first member; the third loop looks at the first
team member with the user's email only, so the second member keeps an id that
differs from the id of the user with its email. -/
theorem sync_leaves_second_member_id :
    (syncUserAndTeamMemberData "2025-01-10" [] twinMembers).users =
      [newUserOf "2025-01-10"
        [("id", .num 1001), ("name", .str "Dana"), ("email", .str "dana@company.com"),
         ("role", .str "QA Analyst"), ("teamId", .num 1), ("joinDate", .str "2025-01-10")]] ∧
    (syncUserAndTeamMemberData "2025-01-10" [] twinMembers).teamMembers = twinMembers ∧
    (syncUserAndTeamMemberData "2025-01-10" [] twinMembers).teamMembersUpdated = false ∧
    (∃ u ∈ (syncUserAndTeamMemberData "2025-01-10" [] twinMembers).users,
      ∃ m ∈ (syncUserAndTeamMemberData "2025-01-10" [] twinMembers).teamMembers,
        getProp u "email" = getProp m "email" ∧ getProp m "id" ≠ getProp u "id") := by
  decide

/-- C16 (as stated, refuted): of two team members that share an email no user
has, the second, with id 1002, gets no user with its id: the run adds one user
for the email, with the id of the first member. -/
theorem sync_one_user_per_email :
    (∃ m ∈ twinMembers, getProp m "id" = .num 1002 ∧
      ∀ u ∈ ([] : List Obj), getProp u "email" ≠ getProp m "email") ∧
    (syncUserAndTeamMemberData "2025-01-10" [] twinMembers).users.length = 1 ∧
    (∀ u ∈ (syncUserAndTeamMemberData "2025-01-10" [] twinMembers).users,
      getProp u "id" ≠ .num 1002) := by
  decide

/-- C16 (amended): a run appends to the users read the users `added`.  Each of
them is built from a team member whose email no user read has, so none is
added for a member whose email has a user; for every such member the user
built from the first team member with that email is added, and no two added
users share an email.  The user built from a member has the member's email, id,
name and role, the fixed default password hash, `needsPasswordReset = true` and
the position `getPositionFromRole(member.role)`, which is `QA Manager` for the
role `QA Manager`, `Team Lead` for `QA Lead` and `Senior QA Engineer`, and
`Regular Employee` for every other role. -/
theorem sync_adds_users (today : String) (users members : List Obj) :
    (∃ added : List Obj,
      (syncUserAndTeamMemberData today users members).users = users ++ added ∧
      ((syncUserAndTeamMemberData today users members).usersUpdated = true ↔ added ≠ []) ∧
      (∀ a ∈ added, ∃ m ∈ members, a = newUserOf today m ∧
        ∀ t ∈ users, getProp t "email" ≠ getProp m "email") ∧
      (∀ m ∈ members, (∀ t ∈ users, getProp t "email" ≠ getProp m "email") →
        ∃ (i : Nat) (m₀ : Obj),
          findIndex (hasEmail (getProp m "email")) members = some (i, m₀) ∧
            newUserOf today m₀ ∈ added) ∧
      added.Pairwise (fun a b => getProp a "email" ≠ getProp b "email")) ∧
    (∀ m : Obj,
      getProp (newUserOf today m) "email" = getProp m "email" ∧
      getProp (newUserOf today m) "id" = getProp m "id" ∧
      getProp (newUserOf today m) "name" = getProp m "name" ∧
      getProp (newUserOf today m) "role" = getProp m "role" ∧
      getProp (newUserOf today m) "password" = .str DEFAULT_PASSWORD_HASH ∧
      getProp (newUserOf today m) "needsPasswordReset" = .bool true ∧
      getProp (newUserOf today m) "position" = getPositionFromRole (getProp m "role")) ∧
    getPositionFromRole (.str "QA Manager") = .str "QA Manager" ∧
    getPositionFromRole (.str "QA Lead") = .str "Team Lead" ∧
    getPositionFromRole (.str "Senior QA Engineer") = .str "Team Lead" ∧
    (∀ role : JVal, role ≠ .str "QA Manager" → role ≠ .str "QA Lead" →
      role ≠ .str "Senior QA Engineer" → getPositionFromRole role = .str "Regular Employee") := by
  obtain ⟨addedU, addedM, ms₃, f₃, hrun, _, hsrcU, hallU, hpairU, _, _, _⟩ :=
    sync_anatomy today users members
  refine ⟨⟨addedU, ?_, ?_, hsrcU, hallU, hpairU⟩, ?_, by decide, by decide, by decide, ?_⟩
  · rw [hrun]
  · rw [hrun]
    simp
  · intro m
    exact ⟨rfl, rfl, rfl, rfl, rfl, rfl, rfl⟩
  · intro role h₁ h₂ h₃
    simp [getPositionFromRole, strictEq, h₁, h₂, h₃]

/-- C17 (as stated, refuted): two users, Ann with id 1 and Bob with id 2,
share an email and there is no team member.  The run synthesizes one profile,
from Ann, and the third loop then gives it Bob's id: the profile has Ann's name
and not Ann's id, and no user has both its name and its id. -/
theorem sync_twin_users_profile :
    (syncUserAndTeamMemberData "2025-01-10" twinUsers []).users = twinUsers ∧
    (syncUserAndTeamMemberData "2025-01-10" twinUsers []).teamMembers =
      [[("id", .num 2), ("name", .str "Ann"), ("email", .str "twin@qa-team.com"),
        ("role", .str "QA Analyst"), ("availability", .str "available"),
        ("teamId", .num 1), ("joinDate", .str "2025-01-10")]] ∧
    (∀ u ∈ (syncUserAndTeamMemberData "2025-01-10" twinUsers []).users,
      ∀ s ∈ (syncUserAndTeamMemberData "2025-01-10" twinUsers []).teamMembers,
        ¬ (getProp s "id" = getProp u "id" ∧ getProp s "name" = getProp u "name")) := by
  decide

/-- C17 (amended): after a run, for every input, every user whose email is
not `admin@qa-team.com` has a team member with its email; the team members
read keep their places and all their fields but possibly `id`; and every team
member behind them, the synthesized ones, has availability `available` and the
name, email and role of a user whose email is not `admin@qa-team.com` and is
the email of no team member read, and has the id of a user with that email,
which is the id of that very user when no two users read have the same
email. -/
theorem sync_profiles (today : String) (users members : List Obj) :
    (∀ u ∈ (syncUserAndTeamMemberData today users members).users,
      getProp u "email" ≠ ADMIN_EMAIL →
      ∃ m ∈ (syncUserAndTeamMemberData today users members).teamMembers,
        getProp m "email" = getProp u "email") ∧
    members.length ≤ (syncUserAndTeamMemberData today users members).teamMembers.length ∧
    (∀ (i : Nat) (m : Obj), i < members.length →
      (syncUserAndTeamMemberData today users members).teamMembers[i]? = some m →
      ∃ m₀ : Obj, members[i]? = some m₀ ∧
        ∀ k : String, k ≠ "id" → getOwn m k = getOwn m₀ k) ∧
    (∀ (i : Nat) (s : Obj), members.length ≤ i →
      (syncUserAndTeamMemberData today users members).teamMembers[i]? = some s →
      ∃ u ∈ (syncUserAndTeamMemberData today users members).users,
        getProp u "email" ≠ ADMIN_EMAIL ∧
        (∀ t ∈ members, getProp t "email" ≠ getProp u "email") ∧
        getProp s "availability" = .str "available" ∧
        getProp s "name" = getProp u "name" ∧
        getProp s "email" = getProp u "email" ∧
        getProp s "role" = getProp u "role" ∧
        (∃ v ∈ (syncUserAndTeamMemberData today users members).users,
          getProp v "email" = getProp u "email" ∧ getProp s "id" = getProp v "id") ∧
        (users.Pairwise (fun a b => getProp a "email" ≠ getProp b "email") →
          getProp s "id" = getProp u "id")) := by
  obtain ⟨_, hcover⟩ := sync_covers today users members
  obtain ⟨addedU, addedM, ms₃, f₃, hrun, hfix, hsrcU, _, hpairU, hsrcM, hallM, hpairM⟩ :=
    sync_anatomy today users members
  obtain ⟨hlen, hsame, _, _⟩ :=
    fixIds_frame (users ++ addedU) (members ++ addedM) (!addedM.isEmpty)
  rw [hfix] at hlen hsame
  rw [hrun] at hcover ⊢
  refine ⟨hcover, ?_, ?_, ?_⟩
  · show members.length ≤ ms₃.length
    rw [hlen, List.length_append]
    exact Nat.le_add_right _ _
  · intro i m hi hm
    obtain ⟨m₀, h₀, hfields, _⟩ := hsame i m hm
    rw [List.getElem?_append_left hi] at h₀
    exact ⟨m₀, h₀, hfields⟩
  · intro i s hi hs
    obtain ⟨m₀, h₀, hfields, hid⟩ := hsame i s hs
    have h₀' := h₀
    rw [List.getElem?_append_right hi] at h₀
    obtain ⟨u, hu, hm₀u, hadm, hno⟩ := hsrcM m₀ (List.getElem?_mem h₀)
    have hfield : ∀ k : String, k ≠ "id" → getProp s k = getProp (newMemberOf today u) k :=
      fun k hk => by rw [← hm₀u]; exact getProp_congr _ _ _ (hfields k hk)
    have hemail : getProp s "email" = getProp u "email" := hfield "email" (by decide)
    refine ⟨u, hu, hadm, hno, hfield "availability" (by decide), hfield "name" (by decide),
      hemail, hfield "role" (by decide), ?_, ?_⟩
    · rcases hid with h | ⟨v, hv, hve, hvi⟩
      · refine ⟨u, hu, rfl, ?_⟩
        rw [h, hm₀u]
        rfl
      · refine ⟨v, hv, ?_, hvi⟩
        rw [hve, hm₀u, email_newMemberOf]
    · intro huniq
      have hpair := users_pairwise today users members addedU huniq hsrcU hpairU
      have hinv := sync_fixInv users members addedU addedM ms₃ f₃ hpair hfix
      have hfirst : findIndex (hasEmail (getProp u "email")) ms₃ = some (i, s) := by
        refine (findIndex_eq_some_iff _ _ _ _).mpr ⟨hs, (hasEmail_iff _ _).mpr hemail, ?_⟩
        intro j y hj hy
        obtain ⟨y₀, hy₀, hyfields, _⟩ := hsame j y hy
        have hye : getProp y "email" = getProp y₀ "email" :=
          getProp_congr _ _ _ (hyfields "email" (by decide))
        rw [hasEmail_eq_false_iff, hye]
        by_cases hjm : j < members.length
        · rw [List.getElem?_append_left hjm] at hy₀
          exact hno y₀ (List.getElem?_mem hy₀)
        · have hjm' : members.length ≤ j := Nat.le_of_not_lt hjm
          rw [List.getElem?_append_right hjm'] at hy₀
          obtain ⟨hj₁, hj₂⟩ := List.getElem?_eq_some.mp hy₀
          obtain ⟨hi₁, hi₂⟩ := List.getElem?_eq_some.mp h₀
          have hlt : j - members.length < i - members.length := by omega
          have := List.pairwise_iff_getElem.mp hpairM _ _ hj₁ hi₁ hlt
          rw [hj₂, hi₂, hm₀u, email_newMemberOf] at this
          exact this
      exact hinv.fixed u hu i s hfirst

/-- Witness of `sync_profiles`: on the default collections the profiles
synthesized for the lead and the analyst have the ids of these users. -/
theorem sync_profiles_witness :
    defaultUsers.Pairwise (fun a b => getProp a "email" ≠ getProp b "email") ∧
    (syncUserAndTeamMemberData "2025-01-10" defaultUsers defaultTeamMembers).teamMembers.length
      = 4 ∧
    (∀ (i : Nat) (s : Obj), defaultTeamMembers.length ≤ i →
      (syncUserAndTeamMemberData "2025-01-10" defaultUsers defaultTeamMembers).teamMembers[i]?
        = some s →
      ∃ u ∈ (syncUserAndTeamMemberData "2025-01-10" defaultUsers defaultTeamMembers).users,
        getProp u "email" ≠ ADMIN_EMAIL ∧
        (∀ t ∈ defaultTeamMembers, getProp t "email" ≠ getProp u "email") ∧
        getProp s "availability" = .str "available" ∧
        getProp s "name" = getProp u "name" ∧
        getProp s "email" = getProp u "email" ∧
        getProp s "role" = getProp u "role" ∧
        getProp s "id" = getProp u "id") :=
  ⟨by decide, by decide, fun i s hi hs => by
    obtain ⟨u, hu, h₁, h₂, h₃, h₄, h₅, h₆, _, h₇⟩ :=
      (sync_profiles "2025-01-10" defaultUsers defaultTeamMembers).2.2.2 i s hi hs
    exact ⟨u, hu, h₁, h₂, h₃, h₄, h₅, h₆, h₇ (by decide)⟩⟩

/-- C18 (as stated, refuted): two users share an email and the one team member
with that email has the id of the second.  The third loop gives the member the
id of the first user and then the id of the second again: the run reports
`teamMembersUpdated = true` and writes the team members, and the collection it
writes is the one it read. -/
theorem sync_writes_unchanged_members :
    (syncUserAndTeamMemberData "2025-01-10" twinUsers twinProfile).teamMembersUpdated = true ∧
    (syncUserAndTeamMemberData "2025-01-10" twinUsers twinProfile).teamMembers = twinProfile ∧
    (syncUserAndTeamMemberData "2025-01-10" twinUsers twinProfile).writes =
      [(File.teamMembers, twinProfile)] := by
  decide

/-- The ids of one account being arrays, a run writes the team members it
read: the user and the team member with the email `ida@company.com`, as they
are read from the files, both have the id `[7]`, two objects; the third loop
finds them different, gives the member the array of the user, and the run
reports `teamMembersUpdated = true` and writes the team members, which are read
back as those it read. -/
theorem sync_rewrites_array_id :
    (postTeamMember arrayIdBody [] sampleClock).body = .record
      [("id", .compound 1 "7" (.num 1)), ("name", .str "Ida Array"),
       ("email", .str "ida@company.com"), ("role", .str "QA Analyst"),
       ("teamId", .num 1), ("joinDate", .str "2025-01-10")] ∧
    readBack 12 (syncUserAndTeamMemberData "2025-01-10" [] [arrayIdMember]).users =
      [arrayIdUser] ∧
    (syncUserAndTeamMemberData "2025-01-11" [arrayIdUser] [arrayIdMember]).teamMembersUpdated
      = true ∧
    (syncUserAndTeamMemberData "2025-01-11" [arrayIdUser] [arrayIdMember]).writes =
      [(File.teamMembers,
        [[("id", .compound 12 "7" (.num 1)), ("name", .str "Ida Array"),
          ("email", .str "ida@company.com"), ("role", .str "QA Analyst"),
          ("teamId", .num 1), ("joinDate", .str "2025-01-10")]])] ∧
    readBack 0 (syncUserAndTeamMemberData "2025-01-11" [arrayIdUser]
      [arrayIdMember]).teamMembers = readBack 0 [arrayIdMember] := by
  decide

/-- C18 (amended): a run writes the users exactly when the users it ends with
differ from the users it read, and they differ then also as they are read back
from the file; it writes the team members whenever the team members it ends
with differ from those it read, and, when no two users read have the same email
and no id read is an array or object, only then: the team members written are
read back different from those read; it writes nothing else. -/
theorem sync_writes_iff_changed (today : String) (users members : List Obj) :
    ((syncUserAndTeamMemberData today users members).usersUpdated = true ↔
      (syncUserAndTeamMemberData today users members).users ≠ users) ∧
    ((syncUserAndTeamMemberData today users members).usersUpdated = true →
      readBack 0 (syncUserAndTeamMemberData today users members).users ≠ readBack 0 users) ∧
    ((syncUserAndTeamMemberData today users members).teamMembers ≠ members →
      (syncUserAndTeamMemberData today users members).teamMembersUpdated = true) ∧
    (users.Pairwise (fun a b => getProp a "email" ≠ getProp b "email") →
      (∀ r ∈ users ++ members, isCompound (getProp r "id") = false) →
      (syncUserAndTeamMemberData today users members).teamMembersUpdated = true →
      readBack 0 (syncUserAndTeamMemberData today users members).teamMembers ≠
        readBack 0 members) ∧
    (syncUserAndTeamMemberData today users members).writes =
      (if (syncUserAndTeamMemberData today users members).usersUpdated then
        [(File.users, (syncUserAndTeamMemberData today users members).users)] else []) ++
      (if (syncUserAndTeamMemberData today users members).teamMembersUpdated then
        [(File.teamMembers, (syncUserAndTeamMemberData today users members).teamMembers)]
        else []) := by
  obtain ⟨addedU, addedM, ms₃, f₃, hrun, hfix, hsrcU, _, hpairU, _, _, _⟩ :=
    sync_anatomy today users members
  obtain ⟨_, hsame, hmono, huntouched⟩ :=
    fixIds_frame (users ++ addedU) (members ++ addedM) (!addedM.isEmpty)
  rw [hfix] at hsame hmono huntouched
  rw [hrun]
  refine ⟨by simp, ?_, ?_, ?_, rfl⟩
  · show (!addedU.isEmpty) = true → readBack 0 (users ++ addedU) ≠ readBack 0 users
    intro hadd
    apply readBack_ne_of_length
    rw [List.length_append]
    have : addedU ≠ [] := by
      intro h
      rw [h] at hadd
      simp at hadd
    have := List.length_pos.mpr this
    omega
  · show ms₃ ≠ members → f₃ = true
    intro hne
    by_contra hf
    have hf' : f₃ = false := by simpa using hf
    have hms : ms₃ = members ++ addedM := huntouched hf'
    have hflag : (!addedM.isEmpty) = false := by
      by_contra h
      have := hmono (by simpa using h)
      rw [hf'] at this
      exact absurd this (by simp)
    have hadd : addedM = [] := by simpa using hflag
    rw [hadd, List.append_nil] at hms
    exact hne hms
  · intro huniq hids
    have hpair := users_pairwise today users members addedU huniq hsrcU hpairU
    have hinv := sync_fixInv users members addedU addedM ms₃ f₃ hpair hfix
    show f₃ = true → readBack 0 ms₃ ≠ readBack 0 members
    intro hf
    by_cases hadd : addedM = []
    · subst hadd
      rw [List.append_nil] at hsame
      rcases hinv.changed hf with h | ⟨i, m, m₀, hm, hm₀, hne, _⟩
      · simp at h
      · rw [List.append_nil] at hm₀
        have hU : ∀ u ∈ users ++ addedU, isCompound (getProp u "id") = false := by
          intro u hu
          rcases List.mem_append.mp hu with h | h
          · exact hids u (List.mem_append_left _ h)
          · obtain ⟨t, ht, hut, _⟩ := hsrcU u h
            rw [hut]
            exact hids t (List.mem_append_right _ ht)
        have hm₀c : isCompound (getProp m₀ "id") = false :=
          hids m₀ (List.mem_append_right _ (List.getElem?_mem hm₀))
        have hmc : isCompound (getProp m "id") = false := by
          obtain ⟨m₁, hm₁, _, hid⟩ := hsame i m hm
          rw [hm₀] at hm₁
          simp only [Option.some.injEq] at hm₁
          subst hm₁
          rcases hid with h | ⟨u, hu, _, h⟩
          · exact absurd h hne
          · rw [h]; exact hU u hu
        exact readBack_ne_of_id 0 ms₃ members i m m₀ hm hm₀ hmc hm₀c hne
    · apply readBack_ne_of_length
      have hlen := hinv.length_eq
      rw [List.length_append] at hlen
      have := List.length_pos.mpr hadd
      omega

/-- Witness of `sync_writes_iff_changed`: on the default collections both
collections change and both are written. -/
theorem sync_writes_iff_changed_witness :
    defaultUsers.Pairwise (fun a b => getProp a "email" ≠ getProp b "email") ∧
    (∀ r ∈ defaultUsers ++ defaultTeamMembers, isCompound (getProp r "id") = false) ∧
    (syncUserAndTeamMemberData "2025-01-10" defaultUsers defaultTeamMembers).teamMembersUpdated
      = true ∧
    readBack 0 (syncUserAndTeamMemberData "2025-01-10" defaultUsers
      defaultTeamMembers).teamMembers ≠ readBack 0 defaultTeamMembers ∧
    (syncUserAndTeamMemberData "2025-01-10" defaultUsers defaultTeamMembers).users
      ≠ defaultUsers :=
  ⟨by decide, by decide, by decide,
   (sync_writes_iff_changed "2025-01-10" defaultUsers defaultTeamMembers).2.2.2.1 (by decide)
     (by decide) (by decide),
   (sync_writes_iff_changed "2025-01-10" defaultUsers defaultTeamMembers).1.mp (by decide)⟩

/-! ## Employee registration -/

theorem normalizePosition_internalPositionOf (p role : JVal)
    (hp : p = .str "Employee" ∨ p = .str "Admin") :
    normalizePosition (internalPositionOf p role) = p := by
  rcases hp with rfl | rfl
  · have h : internalPositionOf (.str "Employee") role = .str "Regular Employee" := by
      simp [internalPositionOf, strictEq]
    rw [h]; decide
  · by_cases hr : role = .str "QA Manager"
    · subst hr; decide
    · have h : internalPositionOf (.str "Admin") role = .str "Team Lead" := by
        simp [internalPositionOf, strictEq, hr]
      rw [h]; decide

theorem registerEmployee_cases (user : SessionUser) (body : Obj) (users teamMembers : List Obj)
    (clock : Clock) :
    ((registerEmployee user body users teamMembers clock).writes = [] ∧
      (registerEmployee user body users teamMembers clock).status ≠ 200) ∨
    ∃ (email hashed : String),
      getProp body "email" = .str email ∧
      (getProp body "position" = .str "Employee" ∨ getProp body "position" = .str "Admin") ∧
      findThrowing (emailLowerMatch (toLowerCase email)) users = some none ∧
      hashPassword (getProp body "password") = some hashed ∧
      (registerEmployee user body users teamMembers clock).status = 200 ∧
      (registerEmployee user body users teamMembers clock).writes =
        [(.users, users ++ [registeredUser body (toLowerCase email) hashed
            (if strictEq user.position (.str "Team Lead") then user.teamId else .num 1) clock]),
         (.teamMembers, teamMembers ++ [registeredMember body (toLowerCase email)
            (if strictEq user.position (.str "Team Lead") then user.teamId else .num 1)
            clock])] := by
  unfold registerEmployee
  dsimp only
  split
  · left; exact ⟨rfl, by simp⟩
  split
  · left; exact ⟨rfl, by decide⟩
  split
  · left; exact ⟨rfl, by decide⟩
  rename_i h3
  have hp : getProp body "position" = .str "Employee" ∨ getProp body "position" = .str "Admin" := by
    by_cases hE : getProp body "position" = .str "Employee"
    · exact Or.inl hE
    · by_cases hA : getProp body "position" = .str "Admin"
      · exact Or.inr hA
      · exfalso
        have e1 : (getProp body "position" == JVal.str "Employee") = false := by simpa using hE
        have e2 : (getProp body "position" == JVal.str "Admin") = false := by simpa using hA
        simp [List.contains, List.elem, e1, e2] at h3
  split
  · rename_i email hemail
    split
    · left; exact ⟨rfl, by decide⟩
    · left; exact ⟨rfl, by decide⟩
    · rename_i hfind
      split
      · left; exact ⟨rfl, by decide⟩
      · split
        · left; exact ⟨rfl, by decide⟩
        · rename_i hashed hhash
          right
          exact ⟨email, hashed, hemail, hp, hfind, hhash, rfl, rfl⟩
  · left; exact ⟨rfl, by decide⟩

/-- C27: the user that `POST /api/admin/register-employee` appends to the
Users collection has the position `internalPosition`, built from the requested
tier position (`Employee` or `Admin`, as the handler has checked) and the
role, and that position normalizes back to the requested tier, whatever the
role is. -/
theorem registerEmployee_position_roundtrip (user : SessionUser) (body : Obj)
    (users teamMembers : List Obj) (clock : Clock) (content : List Obj)
    (h : (File.users, content) ∈ (registerEmployee user body users teamMembers clock).writes) :
    (getProp body "position" = .str "Employee" ∨ getProp body "position" = .str "Admin") ∧
    ∃ newUser : Obj, content = users ++ [newUser] ∧
      getProp newUser "position" =
        internalPositionOf (getProp body "position") (getProp body "role") ∧
      normalizePosition (getProp newUser "position") = getProp body "position" := by
  rcases registerEmployee_cases user body users teamMembers clock with
    ⟨hw, _⟩ | ⟨email, hashed, _, hp, _, _, _, hw⟩
  · rw [hw] at h; cases h
  · rw [hw] at h
    simp only [List.mem_cons, Prod.mk.injEq, List.mem_singleton, List.not_mem_nil, or_false] at h
    rcases h with ⟨_, hc⟩ | ⟨hf, _⟩
    · refine ⟨hp, _, hc, rfl, ?_⟩
      exact normalizePosition_internalPositionOf _ _ hp
    · cases hf

/-- Witness of `registerEmployee_position_roundtrip`: the registration of
`registrationBody` by a `Team Lead` session. -/
theorem registerEmployee_position_roundtrip_witness :
    (File.users,
      defaultUsers ++ [registeredUser registrationBody "new.hire@qa-team.com"
        (sha256 "welcome1") (.num 1) sampleClock]) ∈
      (registerEmployee sampleLead registrationBody defaultUsers defaultTeamMembers
        sampleClock).writes ∧
    ((getProp registrationBody "position" = .str "Employee" ∨
        getProp registrationBody "position" = .str "Admin") ∧
      ∃ newUser : Obj,
        defaultUsers ++ [registeredUser registrationBody "new.hire@qa-team.com"
          (sha256 "welcome1") (.num 1) sampleClock] = defaultUsers ++ [newUser] ∧
        getProp newUser "position" =
          internalPositionOf (getProp registrationBody "position")
            (getProp registrationBody "role") ∧
        normalizePosition (getProp newUser "position") = getProp registrationBody "position") :=
  ⟨by decide,
   registerEmployee_position_roundtrip sampleLead registrationBody defaultUsers
     defaultTeamMembers sampleClock _ (by decide)⟩

/-- Lowering a lowered letter changes nothing. -/
theorem toLower_toLower (c : Char) : c.toLower.toLower = c.toLower := by
  by_cases h : 65 ≤ c.toNat ∧ c.toNat ≤ 90
  · have hc : c = Char.ofNat c.toNat := (Char.ofNat_toNat c).symm
    obtain ⟨h1, h2⟩ := h
    generalize c.toNat = n at hc h1 h2
    subst hc
    interval_cases n <;> decide
  · have : c.toLower = c := by
      unfold Char.toLower
      have h' : ¬ (c.toNat ≥ 65 ∧ c.toNat ≤ 90) := h
      simp only [h', if_false]
    rw [this, this]

/-- The method `toLowerCase` applied twice is `toLowerCase`. -/
theorem toLowerCase_toLowerCase (s : String) : toLowerCase (toLowerCase s) = toLowerCase s := by
  unfold toLowerCase
  have h : Char.toLower ∘ Char.toLower = Char.toLower := by
    funext c
    exact toLower_toLower c
  simp [h]

/-- A search that ends without a match and without an exception has seen the
predicate answer `false` on every element. -/
theorem findThrowing_none {α : Type} (p : α → Option Bool) (l : List α)
    (h : findThrowing p l = some none) : ∀ x ∈ l, p x = some false := by
  induction l with
  | nil => intro x hx; cases hx
  | cons y ys ih =>
    unfold findThrowing at h
    cases hp : p y with
    | none => rw [hp] at h; cases h
    | some b =>
      cases b with
      | true => rw [hp] at h; cases h
      | false =>
        rw [hp] at h
        intro x hx
        rcases List.mem_cons.mp hx with rfl | hx'
        · exact hp
        · exact ih h x hx'

/-- The employee registration keeps the emails of the Users collection
pairwise distinct ignoring case: the collection it writes is the stored one
followed by a user whose email, in lower case, no stored user has. -/
theorem registerEmployee_keeps_emails_distinct (user : SessionUser) (body : Obj)
    (users teamMembers : List Obj) (clock : Clock) (content : List Obj)
    (huniq : users.Pairwise (fun a b => sameEmailIgnoringCase a b = false))
    (h : (File.users, content) ∈ (registerEmployee user body users teamMembers clock).writes) :
    content.Pairwise (fun a b => sameEmailIgnoringCase a b = false) := by
  rcases registerEmployee_cases user body users teamMembers clock with
    ⟨hw, _⟩ | ⟨email, hashed, _, _, hfind, _, _, hw⟩
  · rw [hw] at h; cases h
  · rw [hw] at h
    simp only [List.mem_cons, Prod.mk.injEq, List.mem_singleton, List.not_mem_nil, or_false] at h
    rcases h with ⟨_, hc⟩ | ⟨hf, _⟩
    · rw [hc, List.pairwise_append]
      refine ⟨huniq, List.pairwise_singleton _ _, fun u hu new hnew => ?_⟩
      rw [List.mem_singleton] at hnew
      subst hnew
      have hfalse := findThrowing_none _ _ hfind u hu
      have hnewEmail : getProp (registeredUser body (toLowerCase email) hashed
          (if strictEq user.position (.str "Team Lead") then user.teamId else .num 1) clock)
          "email" = .str (toLowerCase email) := rfl
      unfold emailLowerMatch at hfalse
      cases hu' : getProp u "email" with
      | str s =>
        rw [hu'] at hfalse
        simp only [Option.some.injEq, decide_eq_false_iff_not] at hfalse
        simp only [sameEmailIgnoringCase, hu', hnewEmail, toLowerCase_toLowerCase,
          decide_eq_false_iff_not]
        exact hfalse
      | undefined => rw [hu'] at hfalse; cases hfalse
      | null => rw [hu'] at hfalse; cases hfalse
      | bool b => rw [hu'] at hfalse; cases hfalse
      | num n => rw [hu'] at hfalse; cases hfalse
      | builtin m => rw [hu'] at hfalse; cases hfalse
      | compound r t l => rw [hu'] at hfalse; cases hfalse
    · cases hf

/-! ## Writes per request -/

/-- An answer of the task update other than 200 comes without a write, and
there is at most one write. -/
theorem putTask_writes (user : SessionUser) (taskId : Option Int) (body : Obj)
    (tasks : List Obj) :
    ((putTask user taskId body tasks).status ≠ 200 → (putTask user taskId body tasks).writes = []) ∧
    (putTask user taskId body tasks).writes.length ≤ 1 := by
  unfold putTask
  split
  · simp
  · dsimp only
    split <;> simp

/-- An answer of the team-member update other than 200 comes without a write,
and there is at most one write. -/
theorem putTeamMember_writes (user : SessionUser) (targetUserId : Option Int) (body : Obj)
    (teamMembers : List Obj) :
    ((putTeamMember user targetUserId body teamMembers).status ≠ 200 →
      (putTeamMember user targetUserId body teamMembers).writes = []) ∧
    (putTeamMember user targetUserId body teamMembers).writes.length ≤ 1 := by
  unfold putTeamMember
  split
  · simp
  · split <;> simp

/-- An answer of the work-log creation other than 200 comes without a write,
and there is at most one write. -/
theorem postWorkLog_writes (user : SessionUser) (body : Obj) (workLogs users : List Obj)
    (clock : Clock) :
    ((postWorkLog user body workLogs users clock).status ≠ 200 →
      (postWorkLog user body workLogs users clock).writes = []) ∧
    (postWorkLog user body workLogs users clock).writes.length ≤ 1 := by
  unfold postWorkLog
  dsimp only
  split
  · simp
  · split <;> simp

/-- An answer of the task creation other than 200 comes without a write, and
there is at most one write. -/
theorem postTask_writes (user : SessionUser) (body : Obj) (tasks teamMembers : List Obj)
    (clock : Clock) :
    ((postTask user body tasks teamMembers clock).status ≠ 200 →
      (postTask user body tasks teamMembers clock).writes = []) ∧
    (postTask user body tasks teamMembers clock).writes.length ≤ 1 := by
  unfold postTask
  dsimp only
  split
  · simp
  · split
    · split
      · simp
      · split
        · simp
        · split
          · simp
          · split
            · simp
            · split
              · simp
              · split <;> simp
    · simp

/-- The listings and the team-member creation: an answer other than 200 comes
without a write, and there is at most one write. -/
theorem listings_writes (user : SessionUser) (body : Obj) (store : Store) (clock : Clock) :
    (getTasks user store.tasks).writes = [] ∧
    (getWorkLogs user store.workLogs store.users).writes = [] ∧
    (getTeamMembers store.teamMembers).writes = [] ∧
    (postTeamMember body store.teamMembers clock).status = 200 ∧
    (postTeamMember body store.teamMembers clock).writes.length = 1 := by
  refine ⟨?_, ?_, rfl, rfl, rfl⟩
  · unfold getTasks; split <;> rfl
  · unfold getWorkLogs; dsimp only; split <;> rfl

/-- The login route writes nothing. -/
theorem login_writes (body : Obj) (users : List Obj) (sessions : Sessions) (now : Int)
    (token : String) : (login body users sessions now token).writes = [] := by
  unfold login
  dsimp only
  split
  · rfl
  · split
    · rfl
    · rfl
    · split <;> rfl

/-- The password change writes nothing: the comparison of the current password
throws before the write. -/
theorem changePassword_writes (user : SessionUser) (body : Obj) (users : List Obj)
    (sessions : Sessions) (now : Int) (token : String) :
    (changePassword user body users sessions now token).writes = [] := by
  unfold changePassword
  dsimp only
  split
  · rfl
  · split
    · rfl
    · split
      · rfl
      · simp [bcryptCompareSync]

/-- The password recovery routes: an answer other than 200 comes without a
write, and there is at most one write. -/
theorem recovery_writes (body : Obj) (users : List Obj) (resetCode : String) :
    (forgotPassword body users resetCode).writes = [] ∧
    ((resetPassword body users).status ≠ 200 → (resetPassword body users).writes = []) ∧
    (resetPassword body users).writes.length ≤ 1 := by
  refine ⟨?_, ?_⟩
  · unfold forgotPassword
    dsimp only
    split
    · rfl
    · split <;> rfl
  · unfold resetPassword
    dsimp only
    split
    · simp
    · split
      · simp
      · split
        · simp
        · simp
        · split <;> simp

/-- The chain `authenticateToken, handler` writes what the handler writes, and
nothing when the token is refused. -/
theorem authenticated_writes (req : Request) (sessions : Sessions) (now : Int)
    (handler : SessionUser → Nat × List (File × List Obj)) (n : Nat)
    (h : ∀ user, ((handler user).1 ≠ 200 → (handler user).2 = []) ∧ (handler user).2.length ≤ n) :
    ((authenticated req sessions now handler).status ≠ 200 →
      (authenticated req sessions now handler).writes = []) ∧
    (authenticated req sessions now handler).writes.length ≤ n := by
  unfold authenticated
  split
  · simp
  · rename_i user _ _
    exact h user

/-- The chain `requirePermission(check), handler` writes what the handler
writes, and nothing when the permission is refused. -/
theorem permitted_writes (check : SessionUser → Bool) (user : SessionUser) (handler : Outcome)
    (n : Nat) (h : (handler.status ≠ 200 → handler.writes = []) ∧ handler.writes.length ≤ n) :
    ((permitted check user handler).effect.1 ≠ 200 → (permitted check user handler).effect.2 = []) ∧
    (permitted check user handler).effect.2.length ≤ n := by
  unfold permitted requirePermission Outcome.effect
  split
  · rename_i refusal hr
    split at hr
    · cases hr; simp
    · cases hr
  · exact h

/-- The registration handler: an answer other than 200 comes without a write,
and there are at most two writes. -/
theorem registerEmployee_writes (user : SessionUser) (body : Obj) (users teamMembers : List Obj)
    (clock : Clock) :
    ((registerEmployee user body users teamMembers clock).status ≠ 200 →
      (registerEmployee user body users teamMembers clock).writes = []) ∧
    (registerEmployee user body users teamMembers clock).writes.length ≤ 2 := by
  rcases registerEmployee_cases user body users teamMembers clock with
    ⟨hw, _⟩ | ⟨_, _, _, _, _, _, hs, hw⟩
  · rw [hw]; simp
  · rw [hw]; exact ⟨fun h => absurd hs h, by simp⟩

/-- C21 (amended): a request of any route other than the employee registration
makes at most one collection write, the employee registration makes at most
two, and every request answered with a status other than 200 (so every request
answered 400, 401, 403, 404 or 409) makes no write at all. -/
theorem serve_writes (req : Request) (store : Store) (sessions : Sessions) (clock : Clock)
    (token resetCode : String) :
    ((serve req store sessions clock token resetCode).status ≠ 200 →
      (serve req store sessions clock token resetCode).writes = []) ∧
    (req.route ≠ Route.registerEmployee →
      (serve req store sessions clock token resetCode).writes.length ≤ 1) ∧
    (serve req store sessions clock token resetCode).writes.length ≤ 2 := by
  have key : ((serve req store sessions clock token resetCode).status ≠ 200 →
        (serve req store sessions clock token resetCode).writes = []) ∧
      (serve req store sessions clock token resetCode).writes.length ≤
        (if req.route = Route.registerEmployee then 2 else 1) := by
    unfold serve
    cases hroute : req.route with
    | login => simp [login_writes]
    | registerEmployee =>
      simp only [if_true]
      exact authenticated_writes _ _ _ _ 2
        (fun user => permitted_writes _ _ _ 2 (registerEmployee_writes _ _ _ _ _))
    | changePassword =>
      simp only []
      split
      · simp
      · simp [changePassword_writes]
    | logout => simp
    | forgotPassword => simp [(recovery_writes req.body store.users resetCode).1]
    | resetPassword =>
      simpa using (recovery_writes req.body store.users resetCode).2
    | verify =>
      simpa using authenticated_writes req sessions clock.now (fun user => ((verify user).1, []))
        1 (fun user => by simp)
    | getTeamMembers =>
      simpa using authenticated_writes req sessions clock.now
        (fun _ => (getTeamMembers store.teamMembers).effect) 1
        (fun user => by simp [Outcome.effect, getTeamMembers])
    | postTeamMember =>
      simpa using authenticated_writes req sessions clock.now _ 1
        (fun user => permitted_writes (fun u => canManageTeamMembers u.position) user
          (postTeamMember req.body store.teamMembers clock) 1
          (by simp [postTeamMember]))
    | putTeamMember =>
      simpa using authenticated_writes req sessions clock.now _ 1
        (fun user => putTeamMember_writes user req.id req.body store.teamMembers)
    | getWorkLogs =>
      simpa using authenticated_writes req sessions clock.now _ 1
        (fun user => by
          simp [Outcome.effect, (listings_writes user req.body store clock).2.1])
    | postWorkLog =>
      simpa using authenticated_writes req sessions clock.now _ 1
        (fun user => postWorkLog_writes user req.body store.workLogs store.users clock)
    | getTasks =>
      simpa using authenticated_writes req sessions clock.now _ 1
        (fun user => by
          simp [Outcome.effect, (listings_writes user req.body store clock).1])
    | postTask =>
      simpa [postTaskRoute] using authenticated_writes req sessions clock.now _ 1
        (fun user => permitted_writes (fun u => canAssignTasks u.position) user
          (postTask user req.body store.tasks store.teamMembers clock) 1
          (postTask_writes _ _ _ _ _))
    | putTask =>
      simpa using authenticated_writes req sessions clock.now _ 1
        (fun user => putTask_writes user req.id req.body store.tasks)
    | getAnalytics =>
      simpa using authenticated_writes req sessions clock.now _ 1
        (fun user => by simp)
  refine ⟨key.1, fun hne => ?_, ?_⟩
  · have := key.2
    rwa [if_neg hne] at this
  · have := key.2
    split at this <;> omega

/-- C21 (as stated, refuted): a session whose position is `Team Lead` sends a
complete registration; the request is answered 200 and the handler writes two
collections, the Users and then the Team-Members. -/
theorem registerEmployee_writes_twice :
    (serve ⟨.registerEmployee, some "lead-token", none, registrationBody⟩
        ⟨defaultUsers, defaultTeamMembers, [], []⟩ leadSessions sampleClock "fresh-token"
        "RESET123").status = 200 ∧
    (serve ⟨.registerEmployee, some "lead-token", none, registrationBody⟩
        ⟨defaultUsers, defaultTeamMembers, [], []⟩ leadSessions sampleClock "fresh-token"
        "RESET123").writes =
      [(File.users,
        defaultUsers ++ [registeredUser registrationBody "new.hire@qa-team.com"
          (sha256 "welcome1") (.num 1) sampleClock]),
       (File.teamMembers,
        defaultTeamMembers ++ [registeredMember registrationBody "new.hire@qa-team.com"
          (.num 1) sampleClock])] := by
  decide

/-! ## The appended work log -/

/-- A name that is no own property is no key of the object. -/
theorem not_mem_objectKeys_of_getOwn_none (o : Obj) (k : String) (h : getOwn o k = none) :
    k ∉ objectKeys o := by
  induction o with
  | nil => simp [objectKeys]
  | cons kv rest ih =>
    obtain ⟨k', v'⟩ := kv
    by_cases hk : k = k'
    · subst hk
      simp [getOwn, List.lookup] at h
    · have hb : (k == k') = false := by simpa using hk
      have h' : getOwn rest k = none := by
        simpa [getOwn, List.lookup, hb] using h
      have := ih h'
      simp only [objectKeys, List.map_cons, List.mem_cons, not_or]
      exact ⟨hk, this⟩

/-- The object literal `{ id: x, ...body }` reads every name but `id` as the
body does, when the body holds each key once. -/
theorem getProp_spread_id (body : Obj) (x : JVal) (k : String) (hk : k ≠ "id")
    (hbody : (objectKeys body).Nodup) :
    getProp (spread [("id", x)] body) k = getProp body k := by
  apply getProp_congr
  cases h : getOwn body k with
  | some v => exact getOwn_spread_of_nodup body _ k v hbody h
  | none =>
    rw [getOwn_spread_of_not_mem body _ k (not_mem_objectKeys_of_getOwn_none body k h)]
    have hb : (k == "id") = false := by simpa using hk
    simp [getOwn, List.lookup, hb]

/-- Defining another property leaves a property read as it was. -/
theorem getProp_setOwn_ne (o : Obj) (k k' : String) (v : JVal) (h : k ≠ k') :
    getProp (setOwn o k' v) k = getProp o k :=
  getProp_congr _ _ k (getOwn_setOwn_ne o k k' v h)

/-- A property just defined reads as the value given. -/
theorem getProp_setOwn_self (o : Obj) (k : String) (v : JVal) :
    getProp (setOwn o k v) k = v := by
  unfold getProp
  rw [getOwn_setOwn_self]

/-- C25: whatever the body of `POST /api/work-logs` (a parsed object, holding
each key once), every write the handler makes is of the work-log collection and
its content is the stored logs, unchanged and in order, followed by one new
log; that log has `loggedBy` equal to the caller's id, and when its `memberId`
differs from its `loggedBy` the caller's normalized position is `Admin`. -/
theorem postWorkLog_appended_log (user : SessionUser) (body : Obj) (workLogs users : List Obj)
    (clock : Clock) (file : File) (content : List Obj)
    (hbody : (objectKeys body).Nodup)
    (h : (file, content) ∈ (postWorkLog user body workLogs users clock).writes) :
    file = File.workLogs ∧
    ∃ newLog : Obj, content = workLogs ++ [newLog] ∧
      getProp newLog "loggedBy" = user.id ∧
      getProp newLog "memberId" = getProp body "memberId" ∧
      (getProp newLog "memberId" ≠ getProp newLog "loggedBy" →
        normalizePosition user.position = POSITIONS_ADMIN) := by
  have hlogged : ∀ o : Obj, getProp (setOwn (setOwn (setOwn o "loggedBy" user.id)
      "date" (.str clock.date)) "timestamp" (.str clock.timestamp)) "loggedBy" = user.id := by
    intro o
    rw [getProp_setOwn_ne _ _ _ _ (by decide), getProp_setOwn_ne _ _ _ _ (by decide),
      getProp_setOwn_self]
  have hmember : getProp (setOwn (setOwn (setOwn (spread [("id", .num clock.now)] body)
      "loggedBy" user.id) "date" (.str clock.date)) "timestamp" (.str clock.timestamp))
      "memberId" = getProp body "memberId" := by
    rw [getProp_setOwn_ne _ _ _ _ (by decide), getProp_setOwn_ne _ _ _ _ (by decide),
      getProp_setOwn_ne _ _ _ _ (by decide), getProp_spread_id body _ _ (by decide) hbody]
  unfold postWorkLog at h
  dsimp only at h
  split at h
  · cases h
  · rename_i h403
    split at h
    · cases h
    · simp only [List.mem_singleton, Prod.mk.injEq] at h
      obtain ⟨hf, hc⟩ := h
      refine ⟨hf, _, hc, hlogged _, hmember, ?_⟩
      rw [hmember, hlogged]
      intro hne
      by_contra hpos
      apply h403
      simp [strictEq, hpos, hne]

/-- Witness of `postWorkLog_appended_log`: an Employee logs work for a body
that names the Employee as member. -/
theorem postWorkLog_appended_log_witness :
    (objectKeys [("memberId", JVal.num 3), ("hours", JVal.num 2)]).Nodup ∧
    (File.workLogs,
      [[("id", .num 7), ("memberId", .num 3), ("hours", .num 4)]] ++
        [[("id", .num 1736500000000), ("memberId", .num 3), ("hours", .num 2),
          ("loggedBy", .num 3), ("date", .str "2025-01-10"),
          ("timestamp", .str "2025-01-10T09:06:40.000Z")]]) ∈
      (postWorkLog sampleEmployee [("memberId", .num 3), ("hours", .num 2)]
        [[("id", .num 7), ("memberId", .num 3), ("hours", .num 4)]] defaultUsers
        sampleClock).writes ∧
    (File.workLogs = File.workLogs ∧
      ∃ newLog : Obj,
        [[("id", .num 7), ("memberId", .num 3), ("hours", .num 4)]] ++
          [[("id", .num 1736500000000), ("memberId", .num 3), ("hours", .num 2),
            ("loggedBy", .num 3), ("date", .str "2025-01-10"),
            ("timestamp", .str "2025-01-10T09:06:40.000Z")]] =
          [[("id", .num 7), ("memberId", .num 3), ("hours", .num 4)]] ++ [newLog] ∧
        getProp newLog "loggedBy" = sampleEmployee.id ∧
        getProp newLog "memberId" =
          getProp [("memberId", JVal.num 3), ("hours", JVal.num 2)] "memberId" ∧
        (getProp newLog "memberId" ≠ getProp newLog "loggedBy" →
          normalizePosition sampleEmployee.position = POSITIONS_ADMIN)) :=
  ⟨by decide, by decide,
   postWorkLog_appended_log sampleEmployee [("memberId", .num 3), ("hours", .num 2)]
     [[("id", .num 7), ("memberId", .num 3), ("hours", .num 4)]] defaultUsers sampleClock
     File.workLogs _ (by decide) (by decide)⟩

/-! ## Task creation -/

/-- The ways the task creation handler ends. -/
theorem postTask_cases (user : SessionUser) (body : Obj) (tasks teamMembers : List Obj)
    (clock : Clock) :
    ((postTask user body tasks teamMembers clock).writes = [] ∧
      (((∃ t, getProp body "title" = .str t) ∨ truthy (getProp body "title") = false) ∧
          (postTask user body tasks teamMembers clock).status = 400 ∨
        (truthy (getProp body "title") = true ∧ (∀ t, getProp body "title" ≠ .str t)) ∧
          (postTask user body tasks teamMembers clock).status = 500)) ∨
    ∃ (n : Int) (m : Obj), parseInt (getProp body "assignedTo") = some n ∧ m ∈ teamMembers ∧
      getProp m "id" = .num n ∧
      postTask user body tasks teamMembers clock =
        ⟨200,
         .record (setOwn (setOwn (setOwn (spread [("id", .num clock.now)] body)
            "createdBy" user.id) "createdDate" (.str clock.date)) "status" (.str "pending")),
         [(.tasks, tasks ++ [setOwn (setOwn (setOwn (spread [("id", .num clock.now)] body)
            "createdBy" user.id) "createdDate" (.str clock.date)) "status" (.str "pending")])]⟩ := by
  unfold postTask
  dsimp only
  split
  · rename_i h
    left; exact ⟨rfl, Or.inl ⟨Or.inr (by simpa using h), rfl⟩⟩
  · rename_i htruthy
    have htr : truthy (getProp body "title") = true := by simpa using htruthy
    split
    · rename_i t ht
      have hstr : (∃ t, getProp body "title" = .str t) ∨ truthy (getProp body "title") = false :=
        Or.inl ⟨t, ht⟩
      split
      · left; exact ⟨rfl, Or.inl ⟨hstr, rfl⟩⟩
      · split
        · left; exact ⟨rfl, Or.inl ⟨hstr, rfl⟩⟩
        · split
          · left; exact ⟨rfl, Or.inl ⟨hstr, rfl⟩⟩
          · split
            · left; exact ⟨rfl, Or.inl ⟨hstr, rfl⟩⟩
            · split
              · left; exact ⟨rfl, Or.inl ⟨hstr, rfl⟩⟩
              · rename_i n hn
                split
                · left; exact ⟨rfl, Or.inl ⟨hstr, rfl⟩⟩
                · rename_i m hm
                  right
                  refine ⟨n, m, hn, List.mem_of_find?_eq_some hm, ?_, rfl⟩
                  have := List.find?_some hm
                  simpa [strictEq] using this
    · rename_i hnot
      left
      exact ⟨rfl, Or.inr ⟨⟨htr, fun t ht => hnot t ht⟩, rfl⟩⟩

/-- The task creation case by case, the part of C26 that the code keeps: after
authentication, a caller of `POST /api/tasks` whose
normalized position is not `Admin` is answered 403 with no write; for an Admin
whose `assignedTo` names no team member (no member has the id
`parseInt(assignedTo)`) nothing is written and the answer is 400 when the title
is a string or falsy, and 500 when the title is a truthy value that is not a
string; and every write is of the tasks collection, made for an Admin and an
`assignedTo` that names a team member, its content being the stored tasks
followed by one new task with `createdBy` the caller's id and `status`
`pending`, whatever the body holds. -/
theorem postTask_route (user : SessionUser) (body : Obj) (tasks teamMembers : List Obj)
    (clock : Clock) :
    (normalizePosition user.position ≠ POSITIONS_ADMIN →
      postTaskRoute user body tasks teamMembers clock =
        ⟨403, .error "Insufficient permissions", []⟩) ∧
    (normalizePosition user.position = POSITIONS_ADMIN →
      (¬ ∃ (n : Int) (m : Obj), parseInt (getProp body "assignedTo") = some n ∧
          m ∈ teamMembers ∧ getProp m "id" = .num n) →
      (postTaskRoute user body tasks teamMembers clock).writes = [] ∧
      (((∃ t, getProp body "title" = .str t) ∨ truthy (getProp body "title") = false) →
        (postTaskRoute user body tasks teamMembers clock).status = 400) ∧
      ((truthy (getProp body "title") = true ∧ ∀ t, getProp body "title" ≠ .str t) →
        (postTaskRoute user body tasks teamMembers clock).status = 500)) ∧
    (∀ (file : File) (content : List Obj),
      (file, content) ∈ (postTaskRoute user body tasks teamMembers clock).writes →
        normalizePosition user.position = POSITIONS_ADMIN ∧
        (∃ (n : Int) (m : Obj), parseInt (getProp body "assignedTo") = some n ∧
          m ∈ teamMembers ∧ getProp m "id" = .num n) ∧
        file = File.tasks ∧
        ∃ newTask : Obj, content = tasks ++ [newTask] ∧
          getProp newTask "createdBy" = user.id ∧
          getProp newTask "status" = .str "pending") := by
  by_cases hpos : normalizePosition user.position = POSITIONS_ADMIN
  · have hroute : postTaskRoute user body tasks teamMembers clock =
        postTask user body tasks teamMembers clock := by
      simp [postTaskRoute, permitted, requirePermission, canAssignTasks, strictEq, hpos]
    rw [hroute]
    refine ⟨fun h => absurd hpos h, fun _ hno => ?_, fun file content hmem => ?_⟩
    · rcases postTask_cases user body tasks teamMembers clock with
        ⟨hw, hs⟩ | ⟨n, m, hn, hm, hid, _⟩
      · refine ⟨hw, fun hstr => ?_, fun hnon => ?_⟩
        · rcases hs with ⟨_, h400⟩ | ⟨⟨htr, hnot⟩, _⟩
          · exact h400
          · rcases hstr with ⟨t, ht⟩ | hf
            · exact absurd ht (hnot t)
            · rw [hf] at htr; cases htr
        · rcases hs with ⟨hstr, _⟩ | ⟨_, h500⟩
          · rcases hstr with ⟨t, ht⟩ | hf
            · exact absurd ht (hnon.2 t)
            · rw [hf] at hnon; cases hnon.1
          · exact h500
      · exact absurd ⟨n, m, hn, hm, hid⟩ hno
    · rcases postTask_cases user body tasks teamMembers clock with
        ⟨hw, _⟩ | ⟨n, m, hn, hm, hid, hout⟩
      · rw [hw] at hmem; cases hmem
      · rw [hout] at hmem
        simp only [List.mem_singleton, Prod.mk.injEq] at hmem
        refine ⟨hpos, ⟨n, m, hn, hm, hid⟩, hmem.1, _, hmem.2, ?_, ?_⟩
        · rw [getProp_setOwn_ne _ _ _ _ (by decide), getProp_setOwn_ne _ _ _ _ (by decide),
            getProp_setOwn_self]
        · rw [getProp_setOwn_self]
  · have hroute : postTaskRoute user body tasks teamMembers clock =
        ⟨403, .error "Insufficient permissions", []⟩ := by
      simp [postTaskRoute, permitted, requirePermission, canAssignTasks, strictEq, hpos]
    rw [hroute]
    refine ⟨fun _ => rfl, fun h => absurd h hpos, fun file content hmem => ?_⟩
    cases hmem

/-- C26 (code defect): an Admin sends a task whose title is the number 5 and
whose assignee 999 is no team member; the validation `!title || !title.trim()`
calls `trim` on the number, the call throws and the request is answered 500
by the `catch` block, not 400. -/
theorem postTask_untyped_title :
    normalizePosition sampleAdmin.position = POSITIONS_ADMIN ∧
    parseInt (getProp untypedTitleBody "assignedTo") = some 999 ∧
    (∀ m ∈ defaultTeamMembers, getProp m "id" ≠ .num 999) ∧
    postTaskRoute sampleAdmin untypedTitleBody [] defaultTeamMembers sampleClock =
      ⟨500, .error "Internal server error while creating task", []⟩ := by
  decide

/-- The assignee is read by `parseInt`, which converts a number to its string
first: for `assignedTo` the number `1e21`, whose string is `1e+21`, the assignee
is the team member 1, and the task is appended. -/
theorem postTask_assignee_by_parseInt :
    parseInt (.num 1000000000000000000000) = some 1 ∧
    parseInt (.str "2 apples") = some 2 ∧
    parseInt (.str "0x10") = some 16 ∧
    parseInt (.str "apples") = none ∧
    (postTaskRoute sampleAdmin
      [("title", .str "Plan"), ("assignedTo", .num 1000000000000000000000),
       ("priority", .str "high"), ("dueDate", .str "2025-02-01")] [] defaultTeamMembers
      sampleClock).writes =
      [(File.tasks,
        [[("id", .num 1736500000000), ("title", .str "Plan"),
          ("assignedTo", .num 1000000000000000000000), ("priority", .str "high"),
          ("dueDate", .str "2025-02-01"), ("createdBy", .num 1),
          ("createdDate", .str "2025-01-10"), ("status", .str "pending")]])] := by
  decide

/-! ## Analytics -/

/-- C24: for every store and any two callers, `GET /api/analytics` reports the
same `totalTeamMembers` and the same `availableMembers`: the first is the size
of the whole team-member collection and the second the number of its members
whose `availability` is `available`. -/
theorem analytics_team_counts (user₁ user₂ : SessionUser)
    (teamMembers workLogs tasks users : List Obj) :
    (getAnalytics user₁ teamMembers workLogs tasks users).totalTeamMembers = teamMembers.length ∧
    (getAnalytics user₁ teamMembers workLogs tasks users).availableMembers =
      teamMembers.countP (fun m => decide (getProp m "availability" = .str "available")) ∧
    (getAnalytics user₁ teamMembers workLogs tasks users).totalTeamMembers =
      (getAnalytics user₂ teamMembers workLogs tasks users).totalTeamMembers ∧
    (getAnalytics user₁ teamMembers workLogs tasks users).availableMembers =
      (getAnalytics user₂ teamMembers workLogs tasks users).availableMembers := by
  simp [getAnalytics, strictEq, List.countP_eq_length_filter]

/-- The enrichment of a log leaves its `hours` as stored. -/
theorem addHours_enrichWorkLog (users : List Obj) (sum : Total) (log : Obj) :
    addHours sum (enrichWorkLog users log) = addHours sum log := by
  unfold addHours
  have h : getProp (enrichWorkLog users log) "hours" = getProp log "hours" :=
    getProp_setOwn_ne log "hours" "memberName" _ (by decide)
  rw [h]

/-- The total over enriched logs is the total over the stored logs. -/
theorem foldl_addHours_enrich (users : List Obj) (logs : List Obj) (sum : Total) :
    (logs.map (enrichWorkLog users)).foldl addHours sum = logs.foldl addHours sum := by
  induction logs generalizing sum with
  | nil => rfl
  | cons log rest ih =>
    simp only [List.map_cons, List.foldl_cons, addHours_enrichWorkLog]
    exact ih _

/-- The total of logs whose `hours` are numbers or falsy is the arithmetic
sum of the hours. -/
theorem foldl_addHours_numeric (logs : List Obj) (acc : Int)
    (h : ∀ log ∈ logs, ∃ n : Int, jsOr (getProp log "hours") (.num 0) = .num n) :
    logs.foldl addHours (.num acc) = .num (acc + sumOfHours logs) := by
  induction logs generalizing acc with
  | nil => simp [sumOfHours]
  | cons log rest ih =>
    obtain ⟨n, hn⟩ := h log (List.mem_cons_self _ _)
    have hstep : addHours (.num acc) log = .num (acc + n) := by
      simp [addHours, hn, jsPlus, toNumber]
    have hval : (match getProp log "hours" with
        | .num k => k
        | _ => 0) = n := by
      unfold jsOr at hn
      split at hn
      · rw [hn]
      · rename_i hf
        have h0 : n = 0 := by cases hn; rfl
        subst h0
        cases hh : getProp log "hours" with
        | num k =>
          rw [hh] at hf
          simp [truthy] at hf
          simp [hf]
        | _ => rfl
    rw [List.foldl_cons, hstep, ih (acc + n) (fun l hl => h l (List.mem_cons_of_mem _ hl))]
    simp only [sumOfHours, List.map_cons, List.sum_cons, hval]
    congr 1
    ring

/-- The analytics and the listings of the two tiers, the part of C29 that the
code keeps: for a caller whose normalized position is `Employee` or
`Admin`, the `totalTasks` of `GET /api/analytics` is the number of tasks that
`GET /api/tasks` answers to the caller, and `totalHoursLogged` is the result of
the reducer `sum + (log.hours || 0)` over the logs that `GET /api/work-logs`
answers to the caller; when the hours of those logs are integers (or falsy)
it is their arithmetic sum. -/
theorem analytics_matches_listings (user : SessionUser)
    (teamMembers workLogs tasks users : List Obj)
    (hpos : normalizePosition user.position = POSITIONS_EMPLOYEE ∨
      normalizePosition user.position = POSITIONS_ADMIN) :
    ∃ (listedTasks listedLogs : List Obj),
      getTasks user tasks = ⟨200, .records listedTasks, []⟩ ∧
      getWorkLogs user workLogs users = ⟨200, .records listedLogs, []⟩ ∧
      (getAnalytics user teamMembers workLogs tasks users).totalTasks = listedTasks.length ∧
      (getAnalytics user teamMembers workLogs tasks users).totalHoursLogged =
        listedLogs.foldl addHours (.num 0) ∧
      ((∀ log ∈ listedLogs, ∃ n : Int, jsOr (getProp log "hours") (.num 0) = .num n) →
        (getAnalytics user teamMembers workLogs tasks users).totalHoursLogged =
          .num (sumOfHours listedLogs)) := by
  have key : ∃ (listedTasks listedLogs : List Obj),
      getTasks user tasks = ⟨200, .records listedTasks, []⟩ ∧
      getWorkLogs user workLogs users = ⟨200, .records listedLogs, []⟩ ∧
      (getAnalytics user teamMembers workLogs tasks users).totalTasks = listedTasks.length ∧
      (getAnalytics user teamMembers workLogs tasks users).totalHoursLogged =
        listedLogs.foldl addHours (.num 0) := by
    rcases hpos with hE | hA
    · have hnA : strictEq (normalizePosition user.position) POSITIONS_ADMIN = false := by
        rw [hE]; decide
      have hisE : strictEq (normalizePosition user.position) POSITIONS_EMPLOYEE = true := by
        rw [hE]; decide
      refine ⟨tasks.filter (fun task => strictEq (getProp task "assignedTo") user.id),
        (workLogs.filter (fun log => strictEq (getProp log "memberId") user.id)).map
          (enrichWorkLog users), ?_, ?_, ?_, ?_⟩
      · simp [getTasks, canViewAllData, hnA]
      · have hfun : ((fun log => strictEq (getProp log "memberId") user.id) ∘
            enrichWorkLog users) = fun log => strictEq (getProp log "memberId") user.id := by
          funext log
          simp [Function.comp, getProp_enrichWorkLog_memberId]
        simp only [getWorkLogs, canViewAllData, hnA, Bool.false_eq_true, if_false,
          List.filter_map, hfun]
      · simp [getAnalytics, hisE]
      · rw [foldl_addHours_enrich]
        simp [getAnalytics, hisE]
    · have hisA : strictEq (normalizePosition user.position) POSITIONS_ADMIN = true := by
        rw [hA]; decide
      have hnE : strictEq (normalizePosition user.position) POSITIONS_EMPLOYEE = false := by
        rw [hA]; decide
      refine ⟨tasks, workLogs.map (enrichWorkLog users), ?_, ?_, ?_, ?_⟩
      · simp [getTasks, canViewAllData, hisA]
      · simp [getWorkLogs, canViewAllData, hisA]
      · simp [getAnalytics, hnE]
      · rw [foldl_addHours_enrich]
        simp [getAnalytics, hnE]
  obtain ⟨ts, ls, h1, h2, h3, h4⟩ := key
  refine ⟨ts, ls, h1, h2, h3, h4, fun hnum => ?_⟩
  rw [h4, foldl_addHours_numeric ls 0 hnum]
  simp

/-- Witness of `analytics_matches_listings`: an Employee, five tasks and three
logs. -/
theorem analytics_matches_listings_witness :
    (normalizePosition sampleEmployee.position = POSITIONS_EMPLOYEE ∨
      normalizePosition sampleEmployee.position = POSITIONS_ADMIN) ∧
    ∃ (listedTasks listedLogs : List Obj),
      getTasks sampleEmployee fiveTasks = ⟨200, .records listedTasks, []⟩ ∧
      getWorkLogs sampleEmployee sampleLogs defaultUsers = ⟨200, .records listedLogs, []⟩ ∧
      (getAnalytics sampleEmployee defaultTeamMembers sampleLogs fiveTasks
        defaultUsers).totalTasks = listedTasks.length ∧
      (getAnalytics sampleEmployee defaultTeamMembers sampleLogs fiveTasks
        defaultUsers).totalHoursLogged = listedLogs.foldl addHours (.num 0) ∧
      ((∀ log ∈ listedLogs, ∃ n : Int, jsOr (getProp log "hours") (.num 0) = .num n) →
        (getAnalytics sampleEmployee defaultTeamMembers sampleLogs fiveTasks
          defaultUsers).totalHoursLogged = .num (sumOfHours listedLogs)) :=
  ⟨by decide,
   analytics_matches_listings sampleEmployee defaultTeamMembers sampleLogs fiveTasks
     defaultUsers (by decide)⟩

/-- C29 (code defect): a caller whose position is the unrecognized string
`Intern` gets two of five tasks and two of three logs (7 hours) from the
listings, which filter for every caller that is not an Admin, while the
analytics, which filter only under `userPos === POSITIONS.EMPLOYEE`, count all
five tasks and all 13 hours. -/
theorem analytics_intern_counts_everything :
    getTasks (loginSessionUser internUser) fiveTasks =
      ⟨200,
       .records
         [[("id", .num 12), ("title", .str "UI Regression Testing"), ("assignedTo", .num 3)],
          [("id", .num 14), ("title", .str "Release Checklist"), ("assignedTo", .num 3)]],
       []⟩ ∧
    (getAnalytics (loginSessionUser internUser) defaultTeamMembers sampleLogs fiveTasks
      defaultUsers).totalTasks = 5 ∧
    (match (getWorkLogs (loginSessionUser internUser) sampleLogs defaultUsers).body with
      | .records logs => logs.map (fun log => getProp log "hours")
      | _ => []) = [.num 4, .num 3] ∧
    (getAnalytics (loginSessionUser internUser) defaultTeamMembers sampleLogs fiveTasks
      defaultUsers).totalHoursLogged = .num 13 := by
  decide

/-- A log whose `hours` is a string makes the reducer concatenate: for an
Admin and the hours 4 and `"3"` the total is the string `43`. -/
theorem analytics_hours_concatenate :
    (getAnalytics sampleAdmin defaultTeamMembers
      [[("id", .num 21), ("memberId", .num 3), ("hours", .num 4)],
       [("id", .num 22), ("memberId", .num 3), ("hours", .str "3")]] fiveTasks
      defaultUsers).totalHoursLogged = .str "43" := by
  decide

/-! ## Login -/

/-- A search whose predicate never throws is the plain search. -/
theorem findThrowing_eq_find? {α : Type} (p : α → Option Bool) (q : α → Bool) (l : List α)
    (h : ∀ x ∈ l, p x = some (q x)) : findThrowing p l = some (l.find? q) := by
  induction l with
  | nil => rfl
  | cons x xs ih =>
    have hx := h x (List.mem_cons_self _ _)
    have ih' := ih (fun y hy => h y (List.mem_cons_of_mem _ hy))
    cases hq : q x with
    | true => simp [findThrowing, hx, hq, List.find?]
    | false => simp [findThrowing, hx, hq, List.find?, ih']

/-- Having emails equal ignoring case is symmetric. -/
theorem sameEmailIgnoringCase_symm (a b : Obj) :
    sameEmailIgnoringCase a b = sameEmailIgnoringCase b a := by
  unfold sameEmailIgnoringCase
  cases getProp a "email" <;> cases getProp b "email" <;> simp [eq_comm]

/-- Among records with emails pairwise distinct ignoring case, two records
with emails equal ignoring case are one record. -/
theorem eq_of_sameEmailIgnoringCase (l : List Obj) (a b : Obj)
    (h : l.Pairwise (fun x y => sameEmailIgnoringCase x y = false))
    (ha : a ∈ l) (hb : b ∈ l) (hab : sameEmailIgnoringCase a b = true) : a = b := by
  by_contra hne
  have hsymm : Symmetric (fun x y : Obj => sameEmailIgnoringCase x y = false) := by
    intro x y hxy
    rw [sameEmailIgnoringCase_symm]; exact hxy
  have := h.forall hsymm ha hb hne
  rw [hab] at this
  cases this

/-- C23 (code defect): two login requests with a non-empty email and
password, on users whose emails are pairwise distinct ignoring case, that match
no account and are answered 500 and not 401.  In the first the password is the
number 12345678: it passes the test `!password`, and `hashPassword` hands it to
`update`, which throws on a number.  In the second an Admin has created a team
member without an email, the reconciliation has made a user of it, again
without an email, and the search of the login calls `toLowerCase` on the
`undefined` email of that user.  The handler has no `try` block. -/
theorem login_untyped_credentials :
    defaultUsers.Pairwise (fun a b => sameEmailIgnoringCase a b = false) ∧
    truthy (getProp [("email", JVal.str "admin@qa-team.com"), ("password", JVal.num 12345678)]
      "password") = true ∧
    login [("email", .str "admin@qa-team.com"), ("password", .num 12345678)] defaultUsers []
        1736500000000 "token-1" =
      ⟨500, .error "Internal Server Error", [], []⟩ ∧
    (postTeamMember noEmailBody defaultTeamMembers sampleClock).writes =
      [(File.teamMembers, defaultTeamMembers ++ [noEmailMember])] ∧
    (syncUserAndTeamMemberData "2025-01-10" defaultUsers
        (defaultTeamMembers ++ [noEmailMember])).users.map (fun u => getProp u "email") =
      [.str "admin@qa-team.com", .str "lead@qa-team.com", .str "analyst@qa-team.com",
       .str "john.doe@company.com", .str "jane.smith@company.com", .undefined] ∧
    (syncUserAndTeamMemberData "2025-01-10" defaultUsers
        (defaultTeamMembers ++ [noEmailMember])).users.Pairwise
          (fun a b => sameEmailIgnoringCase a b = false) ∧
    login [("email", .str "nobody@qa-team.com"), ("password", .str "whatever1")]
        (syncUserAndTeamMemberData "2025-01-10" defaultUsers
          (defaultTeamMembers ++ [noEmailMember])).users []
        1736500000000 "token-1" =
      ⟨500, .error "Internal Server Error", [], []⟩ := by
  decide

/-- The login with well-typed data, the part of C23 that the code keeps: with
the emails of the users pairwise distinct ignoring case (each a string, compared
after the lower-casing of the letters `A` to `Z`), a login request whose email
and password are non-empty strings is
answered 200 exactly when some user with a truthy `isActive` has an email equal
to the submitted one ignoring case and a stored password equal to the hash of
the submitted password; the answer 200 comes with the token registered in the
session registry for that user, and every other answer is 401 with the
registry unchanged. -/
theorem login_succeeds_iff (body : Obj) (users : List Obj) (sessions : Sessions) (now : Int)
    (token email password : String)
    (hemail : getProp body "email" = .str email) (hne : email ≠ "")
    (hpassword : getProp body "password" = .str password) (hnp : password ≠ "")
    (hstr : ∀ u ∈ users, ∃ s : String, getProp u "email" = .str s)
    (huniq : users.Pairwise (fun a b => sameEmailIgnoringCase a b = false)) :
    ((login body users sessions now token).status = 200 ↔
      ∃ u ∈ users, truthy (getProp u "isActive") = true ∧
        (∃ s : String, getProp u "email" = .str s ∧ toLowerCase s = toLowerCase email) ∧
        getProp u "password" = .str (sha256 password)) ∧
    ((login body users sessions now token).status = 200 →
      ∃ u ∈ users,
        (login body users sessions now token).body = .success token (loginSessionUser u) ∧
        (login body users sessions now token).sessions =
          sessionsSet sessions token ⟨loginSessionUser u, now + 24 * 60 * 60 * 1000⟩ ∧
        sessionsGet (login body users sessions now token).sessions token =
          some ⟨loginSessionUser u, now + 24 * 60 * 60 * 1000⟩) ∧
    ((login body users sessions now token).status ≠ 200 →
      (login body users sessions now token).status = 401 ∧
      (login body users sessions now token).sessions = sessions) := by
  have hvalid : (!truthy (getProp body "email") || !truthy (getProp body "password")) = false := by
    simp [hemail, hpassword, truthy, hne, hnp]
  have htr1 : truthy (.str email) = true := by simp [truthy, hne]
  have htr2 : truthy (.str password) = true := by simp [truthy, hne, hnp]
  have hpred : ∀ u ∈ users, loginMatch (.str email) u =
      some ((match getProp u "email" with
        | .str s => decide (toLowerCase s = toLowerCase email)
        | _ => false) && truthy (getProp u "isActive")) := by
    intro u hu
    obtain ⟨s, hs⟩ := hstr u hu
    simp [loginMatch, hs]
  have hfind := findThrowing_eq_find? _ _ users hpred
  cases hres : users.find? (fun u => (match getProp u "email" with
        | .str s => decide (toLowerCase s = toLowerCase email)
        | _ => false) && truthy (getProp u "isActive")) with
  | none =>
    rw [hres] at hfind
    have hout : login body users sessions now token =
        ⟨401, .error "Invalid credentials", sessions, []⟩ := by
      simp [login, hemail, hpassword, htr1, htr2, hfind]
    have hnone : ¬ ∃ u ∈ users, truthy (getProp u "isActive") = true ∧
        (∃ s : String, getProp u "email" = .str s ∧ toLowerCase s = toLowerCase email) ∧
        getProp u "password" = .str (sha256 password) := by
      rintro ⟨u, hu, hact, ⟨s, hs, hlow⟩, _⟩
      have := List.find?_eq_none.mp hres u hu
      simp [hs, hlow, hact] at this
    rw [hout]
    exact ⟨⟨fun h => absurd h (by simp), fun h => absurd h hnone⟩,
      fun h => absurd h (by simp), fun _ => ⟨rfl, rfl⟩⟩
  | some x =>
    rw [hres] at hfind
    have hx : x ∈ users := List.mem_of_find?_eq_some hres
    have hxp := List.find?_some hres
    obtain ⟨sx, hsx⟩ := hstr x hx
    simp only [hsx, Bool.and_eq_true, decide_eq_true_eq] at hxp
    obtain ⟨hxlow, hxact⟩ := hxp
    by_cases hpw : getProp x "password" = .str (sha256 password)
    · have hver : verifyPassword (.str password) (getProp x "password") = some true := by
        simp [verifyPassword, hashPassword, strictEq, hpw]
      have hout : login body users sessions now token =
          ⟨200, .success token (loginSessionUser x),
            sessionsSet sessions token ⟨loginSessionUser x, now + 24 * 60 * 60 * 1000⟩, []⟩ := by
        simp [login, hemail, hpassword, htr1, htr2, hfind, hver]
      rw [hout]
      refine ⟨⟨fun _ => ⟨x, hx, hxact, ⟨sx, hsx, hxlow⟩, hpw⟩, fun _ => rfl⟩,
        fun _ => ⟨x, hx, rfl, rfl, sessionsGet_sessionsSet _ _ _⟩, fun h => absurd rfl h⟩
    · have hver : verifyPassword (.str password) (getProp x "password") = some false := by
        have : (JVal.str (sha256 password) = getProp x "password") = False := by
          simp [eq_comm, hpw]
        simp [verifyPassword, hashPassword, strictEq, this]
      have hout : login body users sessions now token =
          ⟨401, .error "Invalid credentials", sessions, []⟩ := by
        simp [login, hemail, hpassword, htr1, htr2, hfind, hver]
      have hnone : ¬ ∃ u ∈ users, truthy (getProp u "isActive") = true ∧
          (∃ s : String, getProp u "email" = .str s ∧ toLowerCase s = toLowerCase email) ∧
          getProp u "password" = .str (sha256 password) := by
        rintro ⟨u, hu, _, ⟨s, hs, hlow⟩, hupw⟩
        have hsame : sameEmailIgnoringCase x u = true := by
          simp [sameEmailIgnoringCase, hsx, hs, hxlow, hlow]
        have := eq_of_sameEmailIgnoringCase users x u huniq hx hu hsame
        subst this
        exact hpw hupw
      rw [hout]
      exact ⟨⟨fun h => absurd h (by simp), fun h => absurd h hnone⟩,
        fun h => absurd h (by simp), fun _ => ⟨rfl, rfl⟩⟩

/-- Witness of `login_succeeds_iff`: the administrator of the default data logs
in with the email in another case. -/
theorem login_succeeds_iff_witness :
    getProp [("email", JVal.str "Admin@QA-Team.com"), ("password", JVal.str "admin123")] "email" =
      .str "Admin@QA-Team.com" ∧
    "Admin@QA-Team.com" ≠ "" ∧
    getProp [("email", JVal.str "Admin@QA-Team.com"), ("password", JVal.str "admin123")]
      "password" = .str "admin123" ∧
    "admin123" ≠ "" ∧
    (∀ u ∈ defaultUsers, ∃ s : String, getProp u "email" = .str s) ∧
    defaultUsers.Pairwise (fun a b => sameEmailIgnoringCase a b = false) ∧
    (login [("email", .str "Admin@QA-Team.com"), ("password", .str "admin123")] defaultUsers []
      1736500000000 "token-1").status = 200 ∧
    (((login [("email", .str "Admin@QA-Team.com"), ("password", .str "admin123")] defaultUsers []
        1736500000000 "token-1").status = 200 ↔
      ∃ u ∈ defaultUsers, truthy (getProp u "isActive") = true ∧
        (∃ s : String, getProp u "email" = .str s ∧
          toLowerCase s = toLowerCase "Admin@QA-Team.com") ∧
        getProp u "password" = .str (sha256 "admin123")) ∧
    ((login [("email", .str "Admin@QA-Team.com"), ("password", .str "admin123")] defaultUsers []
        1736500000000 "token-1").status = 200 →
      ∃ u ∈ defaultUsers,
        (login [("email", .str "Admin@QA-Team.com"), ("password", .str "admin123")]
          defaultUsers [] 1736500000000 "token-1").body =
            .success "token-1" (loginSessionUser u) ∧
        (login [("email", .str "Admin@QA-Team.com"), ("password", .str "admin123")]
          defaultUsers [] 1736500000000 "token-1").sessions =
            sessionsSet [] "token-1"
              ⟨loginSessionUser u, 1736500000000 + 24 * 60 * 60 * 1000⟩ ∧
        sessionsGet (login [("email", .str "Admin@QA-Team.com"), ("password", .str "admin123")]
          defaultUsers [] 1736500000000 "token-1").sessions "token-1" =
            some ⟨loginSessionUser u, 1736500000000 + 24 * 60 * 60 * 1000⟩) ∧
    ((login [("email", .str "Admin@QA-Team.com"), ("password", .str "admin123")] defaultUsers []
        1736500000000 "token-1").status ≠ 200 →
      (login [("email", .str "Admin@QA-Team.com"), ("password", .str "admin123")] defaultUsers
        [] 1736500000000 "token-1").status = 401 ∧
      (login [("email", .str "Admin@QA-Team.com"), ("password", .str "admin123")] defaultUsers
        [] 1736500000000 "token-1").sessions = [])) :=
  ⟨by decide, by decide, by decide, by decide,
   (by
     intro u hu
     simp only [defaultUsers, List.mem_cons, List.mem_singleton, List.not_mem_nil,
       or_false] at hu
     rcases hu with rfl | rfl | rfl <;> exact ⟨_, rfl⟩),
   by decide, by decide,
   login_succeeds_iff [("email", .str "Admin@QA-Team.com"), ("password", .str "admin123")]
     defaultUsers [] 1736500000000 "token-1" "Admin@QA-Team.com" "admin123"
     (by decide) (by decide) (by decide) (by decide)
     (by
       intro u hu
       simp only [defaultUsers, List.mem_cons, List.mem_singleton, List.not_mem_nil,
         or_false] at hu
       rcases hu with rfl | rfl | rfl <;> exact ⟨_, rfl⟩)
     (by decide)⟩

/-! ## Reconciliation and the keys of the Users collection -/

/-- C22 (code defect): an Admin adds a team member whose email is the
administrator's in another case; the Users collection has emails pairwise
distinct ignoring case, and after the run of the reconciliation it holds both
`admin@qa-team.com` and `Admin@QA-Team.com`. -/
theorem sync_adds_email_equal_ignoring_case :
    canManageTeamMembers sampleAdmin.position = true ∧
    (postTeamMember mixedCaseBody defaultTeamMembers sampleClock).writes =
      [(File.teamMembers, defaultTeamMembers ++ [mixedCaseMember])] ∧
    defaultUsers.Pairwise (fun a b => sameEmailIgnoringCase a b = false) ∧
    (syncUserAndTeamMemberData "2025-01-10" defaultUsers
        (defaultTeamMembers ++ [mixedCaseMember])).users.map (fun u => getProp u "email") =
      [.str "admin@qa-team.com", .str "lead@qa-team.com", .str "analyst@qa-team.com",
       .str "john.doe@company.com", .str "jane.smith@company.com", .str "Admin@QA-Team.com"] ∧
    ¬ (syncUserAndTeamMemberData "2025-01-10" defaultUsers
        (defaultTeamMembers ++ [mixedCaseMember])).users.Pairwise
          (fun a b => sameEmailIgnoringCase a b = false) := by
  decide

/-- C28 (code defect): the ids of the default Users collection are pairwise
distinct; the run of the reconciliation on the default collections adds the
users of the two default team members under the members' ids 1 and 2, which
the administrator and the lead already have. -/
theorem sync_default_data_repeats_user_ids :
    (defaultUsers.map (fun u => getProp u "id")).Nodup ∧
    (syncUserAndTeamMemberData "2025-01-10" defaultUsers defaultTeamMembers).users.map
        (fun u => (getProp u "id", getProp u "email")) =
      [(.num 1, .str "admin@qa-team.com"), (.num 2, .str "lead@qa-team.com"),
       (.num 3, .str "analyst@qa-team.com"), (.num 1, .str "john.doe@company.com"),
       (.num 2, .str "jane.smith@company.com")] ∧
    ¬ ((syncUserAndTeamMemberData "2025-01-10" defaultUsers defaultTeamMembers).users.map
        (fun u => getProp u "id")).Nodup := by
  decide

/-! ## The key of a team-member record -/

/-- C30 (code defect): an Employee sends the payload with the single property
`id` and the value 999 to the own profile; the list `adminOnlyFields` does not
hold `id`, so the record of id 3 is written back with id 999. -/
theorem putTeamMember_nonAdmin_rekeys :
    normalizePosition sampleEmployee.position ≠ POSITIONS_ADMIN ∧
    getProp sampleMember "id" = .num 3 ∧
    putTeamMember sampleEmployee (some 3) [("id", .num 999)] [sampleMember] =
      ⟨200,
       .record [("id", .num 999), ("name", .str "Mike Johnson"),
         ("email", .str "analyst@qa-team.com"), ("role", .str "QA Analyst"),
         ("availability", .str "available"), ("teamId", .num 1),
         ("joinDate", .str "2024-12-20"), ("phone", .str "555-0100")],
       [(.teamMembers, [[("id", .num 999), ("name", .str "Mike Johnson"),
         ("email", .str "analyst@qa-team.com"), ("role", .str "QA Analyst"),
         ("availability", .str "available"), ("teamId", .num 1),
         ("joinDate", .str "2024-12-20"), ("phone", .str "555-0100")]])]⟩ := by
  decide

end Dashboard
